import Mathlib

/-!
# bmpdump: a shallow embedding of `bmpdump.c`

`bmpdump` converts a 24 bit uncompressed BMP image into a raw pixel stream or a
C array, with 8, 12, 16 or 24 bits per pixel.

Conventions of the embedding.

* C integers are natural numbers.  `unsigned char`, `unsigned short` and
  `unsigned int` are 8, 16 and 32 bits wide, `int` is 32 bits wide, and the
  machine is little-endian (the source says that big-endian machines need
  modifications).  A store into an `unsigned char` is `u8`, the complement `~`
  of an `int` is `not32`.
* A pixel buffer `struct pixel *buf` is a list of pixels; the pointer `pix`
  walking through it is the list of the pixels not yet visited.  A read
  through `pix` past the end of the buffer has no defined result: the loops
  return `none` there.
* A `FILE *` opened for reading is the byte content of the file and a position.
* The destination of the `create_*` functions is an `OutFile`: whether `fopen`
  for writing succeeds, and the bytes of the file if it exists.
* Of the text printed on standard output only the messages of `get_header` are
  kept, which tell its failures apart; the diagnostics of the `create_*`
  functions are left out.
* A text file holds one number per character.  The array body of a C array
  file is first a list of items, a byte literal or a line break, and then text.
* `size_t` and `long` are 64 bits wide; a conversion to `int` keeps the low 32
  bits in two's complement.  Whether an allocation succeeds is given from
  outside, by the number under which the source reports its failure.
* A call of `printf` that lacks an argument or prints `NULL` through `%s` has
  no defined result: the function returns `none` there.
* The definitions `spec_rgb565`, `spec_bmp_padding` and `spec_scan_fails`
  follow the words of the specification, not the source; the theorems compare
  them with what the source computes.
-/

namespace Bmpdump

/-! ## Machine arithmetic -/

/-- Store into an `unsigned char`: keep the low 8 bits. -/
def u8 (x : Nat) : Nat := x % 256

/-- The operator `~` on a 32-bit `int`, as a bit pattern. -/
def not32 (x : Nat) : Nat := 4294967295 - x

/-! ## Constants and data types (lines 25-67) -/

def UNSET : Int := 0
def FORMAT_RAW : Int := 1
def FORMAT_CARRAY : Int := 2
def APPEND : Int := 1
def VERBOSE : Int := 1
def EXISTS : Int := 1

/-- The command line options, `struct options`; a `char *` that is `NULL` is `none`. -/
structure options where
  input_file : Option String
  output_file : Option String
  format : Int
  bpp : Int
  append : Int
  arrayname : Option String
  verbose : Int
deriving DecidableEq, Repr

/-- The BMP image header, `struct bmp_header`. -/
structure bmp_header where
  identifier : Nat
  file_size : Nat
  data_offset : Nat
  header_size : Nat
  width : Nat
  height : Nat
  planes : Nat
  bpp : Nat
  compression : Nat
  data_size : Nat
  hresolution : Nat
  vresolution : Nat
  colors : Nat
  important_colors : Nat
deriving DecidableEq, Repr

/-- One buffered pixel, `struct pixel`; each channel is an `unsigned char`. -/
structure pixel where
  r : Nat
  g : Nat
  b : Nat
deriving DecidableEq, Repr

/-- The destination file of a `create_*` function.  `writable` tells whether
`fopen` in a writing mode succeeds; `content` is `none` when no file exists. -/
structure OutFile where
  writable : Bool
  content : Option (List Nat)
deriving DecidableEq, Repr

/-- One item printed into the array body of a C array file. -/
inductive Chunk where
  /-- A byte printed through the format `"0x%.2x, "`. -/
  | lit (b : Nat)
  /-- The line break `"\n\t"`. -/
  | wrap
deriving DecidableEq, Repr

/-- The byte values printed as literals, in order. -/
def Chunk.literals : List Chunk → List Nat
  | [] => []
  | Chunk.lit b :: cs => b :: Chunk.literals cs
  | Chunk.wrap :: cs => Chunk.literals cs

/-! ## 8 bits per pixel -/

/-- The loop "write array data" of `create_c_array_8bit` (lines 342-362), from
counter `i` and pointer `pix` on. -/
def create_c_array_8bit_loop (pixels : Int) : Nat → List pixel → Option (List Chunk)
  | i, pix =>
    if (i : Int) < pixels then
      match pix with
      | [] => none
      | p :: pix1 =>
        let b := u8 p.r
        let b := u8 (b &&& not32 (0xFF >>> 3))
        let b := u8 (b ||| (p.g >>> 3))
        let b := u8 (b &&& not32 (0xFF >>> 6))
        let b := u8 (b ||| (p.b >>> 6))
        let line := if (i + 1) % 12 = 0 then [Chunk.wrap] else []
        (create_c_array_8bit_loop pixels (i + 1) pix1).map
          (fun rest => Chunk.lit b :: (line ++ rest))
    else some []

/-- The loop "write array data" of `create_raw_8bit` (lines 640-651): the bytes
passed to `fwrite`, in order. -/
def create_raw_8bit_loop (pixels : Int) : Nat → List pixel → Option (List Nat)
  | i, pix =>
    if (i : Int) < pixels then
      match pix with
      | [] => none
      | p :: pix1 =>
        let b := u8 p.r
        let b := u8 (b &&& not32 (0xFF >>> 3))
        let b := u8 (b ||| (p.g >>> 3))
        let b := u8 (b &&& not32 (0xFF >>> 6))
        let b := u8 (b ||| (p.b >>> 6))
        (create_raw_8bit_loop pixels (i + 1) pix1).map (fun rest => b :: rest)
    else some []

/-- The function `create_raw_8bit` (lines 618-656): the return value and the
destination file afterwards.  The modes `"ab+"` and `"wb+"` keep, respectively
drop, the bytes already in the file. -/
def create_raw_8bit (buf : List pixel) (pixels : Int) (o : options) (dst : OutFile) :
    Option (Int × OutFile) :=
  let start := if o.append = APPEND then dst.content.getD [] else []
  if dst.writable = false then some (0, dst)
  else
    match create_raw_8bit_loop pixels 0 buf with
    | none => none
    | some bytes => some (1, { dst with content := some (start ++ bytes) })

/-! ## 24 bits per pixel -/

/-- The loop "write array data" of `create_raw_24bit` (lines 806-813). -/
def create_raw_24bit_loop (pixels : Int) : Nat → List pixel → Option (List Nat)
  | i, pix =>
    if (i : Int) < pixels then
      match pix with
      | [] => none
      | p :: pix1 =>
        (create_raw_24bit_loop pixels (i + 1) pix1).map (fun rest => p.r :: p.g :: p.b :: rest)
    else some []

/-- The function `create_raw_24bit` (lines 786-818). -/
def create_raw_24bit (buf : List pixel) (pixels : Int) (o : options) (dst : OutFile) :
    Option (Int × OutFile) :=
  let start := if o.append = APPEND then dst.content.getD [] else []
  if dst.writable = false then some (0, dst)
  else
    match create_raw_24bit_loop pixels 0 buf with
    | none => none
    | some bytes => some (1, { dst with content := some (start ++ bytes) })

/-! ## 12 bits per pixel -/

/-- The loop "write array data" of `create_raw_12bit` (lines 689-717): the bytes
passed to `fwrite`, in order.  Two pixels share three bytes. -/
def create_raw_12bit_loop (pixels : Int) : Nat → List pixel → Option (List Nat)
  | i, pix =>
    if (i : Int) < pixels then
      match pix with
      | [] => none
      | p :: pix1 =>
        let b1 := u8 p.r
        let b1 := u8 (b1 &&& not32 0x0F)
        let b1 := u8 (b1 ||| (p.g >>> 4))
        let b2 := u8 p.b
        let b2 := u8 (b2 &&& not32 0x0F)
        if (i : Int) + 2 ≤ pixels then
          match pix1 with
          | [] => none
          | q :: pix2 =>
            let b2 := u8 (b2 ||| (q.r >>> 4))
            let b3 := u8 q.g
            let b3 := u8 (b3 &&& not32 0x0F)
            let b3 := u8 (b3 ||| (q.b >>> 4))
            (create_raw_12bit_loop pixels (i + 2) pix2).map
              (fun rest => b1 :: b2 :: b3 :: rest)
        else
          (create_raw_12bit_loop pixels (i + 2) pix1).map (fun rest => b1 :: b2 :: rest)
    else some []

/-- The function `create_raw_12bit` (lines 668-722). -/
def create_raw_12bit (buf : List pixel) (pixels : Int) (o : options) (dst : OutFile) :
    Option (Int × OutFile) :=
  let start := if o.append = APPEND then dst.content.getD [] else []
  if dst.writable = false then some (0, dst)
  else
    match create_raw_12bit_loop pixels 0 buf with
    | none => none
    | some bytes => some (1, { dst with content := some (start ++ bytes) })

/-! ## 16 bits per pixel -/

/-- The loop "write array data" of `create_raw_16bit` (lines 755-769).  The
local variable `b2` is only ever updated with `|=`, `&=`, `|=`: its value at
the start of an iteration is the one left by the previous iteration, and the
argument `b2` is its value when the loop is at counter `i`. -/
def create_raw_16bit_loop (pixels : Int) : Nat → Nat → List pixel → Option (List Nat)
  | i, b2, pix =>
    if (i : Int) < pixels then
      match pix with
      | [] => none
      | p :: pix1 =>
        let b1 := u8 p.r
        let b1 := u8 (b1 &&& not32 (0xFF >>> 5))
        let b1 := u8 (b1 ||| (p.g >>> 5))
        let b2 := u8 (b2 ||| (p.g <<< 3))
        let b2 := u8 (b2 &&& not32 (0xFF >>> 3))
        let b2 := u8 (b2 ||| (p.b >>> 3))
        (create_raw_16bit_loop pixels (i + 1) b2 pix1).map (fun rest => b1 :: b2 :: rest)
    else some []

/-- The function `create_raw_16bit` (lines 734-774).  The local variable `b2` is
declared without an initial value (line 738) and read by the first iteration
(line 761); `b2_init` is the content it happens to have. -/
def create_raw_16bit (buf : List pixel) (pixels : Int) (o : options) (dst : OutFile)
    (b2_init : Nat) : Option (Int × OutFile) :=
  let start := if o.append = APPEND then dst.content.getD [] else []
  if dst.writable = false then some (0, dst)
  else
    match create_raw_16bit_loop pixels 0 b2_init buf with
    | none => none
    | some bytes => some (1, { dst with content := some (start ++ bytes) })

/-! ## Reading the header -/

/-- An input stream: the bytes of the file and the current position. -/
structure FILE where
  data : List Nat
  pos : Nat
deriving DecidableEq, Repr

/-- The unsigned integer that a little-endian machine sees in a sequence of bytes. -/
def le_value : List Nat → Nat
  | [] => 0
  | b :: bs => b + 256 * le_value bs

/-- The call `fread(&field, size, 1, fp)`: the bytes available at the position,
at most `size` of them, are copied over the low-order bytes of `field`, whose
other bytes stay, and the position moves past them.  The result of `fread` is
never looked at in the source. -/
def fread (field : Nat) (size : Nat) (fp : FILE) : Nat × FILE :=
  let bytes := (fp.data.drop fp.pos).take size
  let n := bytes.length
  (le_value bytes + 256 ^ n * (field % 256 ^ size / 256 ^ n), { fp with pos := fp.pos + n })

/-- The call `fseek(fp, offset, SEEK_CUR)`: it fails, with a result other than 0,
only when the new position would be negative. -/
def fseek_cur (fp : FILE) (offset : Int) : Int × FILE :=
  if (fp.pos : Int) + offset < 0 then (-1, fp)
  else (0, { fp with pos := ((fp.pos : Int) + offset).toNat })

/-- What a call of `get_header` leaves behind: its return value, the stream, the
header structure `*h` of the caller, and the text printed on standard output. -/
structure get_header_result where
  ret : Int
  fp : FILE
  h : bmp_header
  out : String
deriving DecidableEq, Repr

/-- The statement `fread(&h->field, size, 1, fp)` on the stream and the header:
`get` and `set` read and overwrite the field of `*h`. -/
def fread_field (size : Nat) (get : bmp_header → Nat) (set : bmp_header → Nat → bmp_header)
    (s : FILE × bmp_header) : FILE × bmp_header :=
  ((fread (get s.2) size s.1).2, set s.2 (fread (get s.2) size s.1).1)

/-- The function `get_header` (lines 180-250): `s` is the stream and the header
`*h` of the caller, which each `fread` changes in place. -/
def get_header (fp : FILE) (h : bmp_header) : get_header_result :=
  let s := fread_field 2 (·.identifier) (fun h v => { h with identifier := v }) (fp, h)
  if s.2.identifier ≠ 0x4D42 then ⟨0, s.1, s.2, "Unknown identifier.\n"⟩
  else
    let s := fread_field 4 (·.file_size) (fun h v => { h with file_size := v }) s
    let sk := fseek_cur s.1 4
    let s := (sk.2, s.2)
    if sk.1 ≠ 0 then ⟨0, s.1, s.2, "fseek failed.\n"⟩
    else
      let s := fread_field 4 (·.data_offset) (fun h v => { h with data_offset := v }) s
      let s := fread_field 4 (·.header_size) (fun h v => { h with header_size := v }) s
      let s := fread_field 4 (·.width) (fun h v => { h with width := v }) s
      let s := fread_field 4 (·.height) (fun h v => { h with height := v }) s
      let s := fread_field 2 (·.planes) (fun h v => { h with planes := v }) s
      if s.2.planes ≠ 1 then ⟨0, s.1, s.2, "planes should be 1\n"⟩
      else
        let s := fread_field 2 (·.bpp) (fun h v => { h with bpp := v }) s
        if s.2.bpp ≠ 24 then ⟨0, s.1, s.2, "image should be 24 bits per pixel\n"⟩
        else
          let s := fread_field 4 (·.compression) (fun h v => { h with compression := v }) s
          if s.2.compression ≠ 0 then ⟨0, s.1, s.2, "bmp file should be not compressed\n"⟩
          else
            let s := fread_field 4 (·.data_size) (fun h v => { h with data_size := v }) s
            let s := fread_field 4 (·.hresolution) (fun h v => { h with hresolution := v }) s
            let s := fread_field 4 (·.vresolution) (fun h v => { h with vresolution := v }) s
            let s := fread_field 4 (·.colors) (fun h v => { h with colors := v }) s
            let s :=
              fread_field 4 (·.important_colors) (fun h v => { h with important_colors := v }) s
            ⟨1, s.1, s.2, ""⟩

/-- The unsigned integer stored in little-endian order in the `size` bytes of
`data` from offset `off` on. -/
def le_at (data : List Nat) (off : Nat) : Nat → Nat
  | 0 => 0
  | size + 1 => data.getD off 0 + 256 * le_at data (off + 1) size

/-- The 54 header bytes of a 2x2 BMP file with 16 bytes of pixel data, with the
given bytes in the bits-per-pixel field (offsets 0x1C and 0x1D). -/
def sample_header (bpp_lo bpp_hi : Nat) : List Nat :=
  [0x42, 0x4D, 0x46, 0, 0, 0, 0, 0, 0, 0, 0x36, 0, 0, 0,
   0x28, 0, 0, 0, 2, 0, 0, 0, 2, 0, 0, 0, 1, 0, bpp_lo, bpp_hi, 0, 0, 0, 0,
   0x10, 0, 0, 0, 0x13, 0x0B, 0, 0, 0x13, 0x0B, 0, 0, 0, 0, 0, 0, 0, 0, 0, 0]

/-! ## Text output -/

/-- The characters of a string as they are written into a file, one number each. -/
def text (s : String) : List Nat := s.toList.map Char.toNat

/-- The conversion `%u` of an `unsigned int`. -/
def fmt_u (v : Nat) : List Nat := text (toString v)

/-- The conversion `%u` applied to an `int`: the value is read as an
`unsigned int`. -/
def fmt_u_int (v : Int) : List Nat := fmt_u (v % 4294967296).toNat

/-- The conversion `%.2x` of an `unsigned char`: lowercase hexadecimal digits,
at least two of them. -/
def fmt_x2 (v : Nat) : List Nat :=
  let digits := Nat.toDigits 16 v
  ((if digits.length < 2 then '0' :: digits else digits).map Char.toNat)

/-- The text of one item of the array body. -/
def Chunk.text : Chunk → List Nat
  | Chunk.lit b => Bmpdump.text "0x" ++ fmt_x2 b ++ Bmpdump.text ", "
  | Chunk.wrap => Bmpdump.text "\n\t"

/-- The text of the array body. -/
def Chunk.render : List Chunk → List Nat
  | [] => []
  | c :: cs => c.text ++ Chunk.render cs

/-! ## The C array functions -/

/-- The loop "write array data" of `create_c_array_12bit` (lines 419-452). -/
def create_c_array_12bit_loop (pixels : Int) : Nat → List pixel → Option (List Chunk)
  | i, pix =>
    if (i : Int) < pixels then
      match pix with
      | [] => none
      | p :: pix1 =>
        let b1 := u8 p.r
        let b1 := u8 (b1 &&& not32 0x0F)
        let b1 := u8 (b1 ||| (p.g >>> 4))
        let b2 := u8 p.b
        let b2 := u8 (b2 &&& not32 0x0F)
        let line := if (i + 2) % 8 = 0 then [Chunk.wrap] else []
        if (i : Int) + 2 ≤ pixels then
          match pix1 with
          | [] => none
          | q :: pix2 =>
            let b2 := u8 (b2 ||| (q.r >>> 4))
            let b3 := u8 q.g
            let b3 := u8 (b3 &&& not32 0x0F)
            let b3 := u8 (b3 ||| (q.b >>> 4))
            (create_c_array_12bit_loop pixels (i + 2) pix2).map
              (fun rest => Chunk.lit b1 :: Chunk.lit b2 :: Chunk.lit b3 :: (line ++ rest))
        else
          (create_c_array_12bit_loop pixels (i + 2) pix1).map
            (fun rest => Chunk.lit b1 :: Chunk.lit b2 :: (line ++ rest))
    else some []

/-- The loop "write array data" of `create_c_array_16bit` (lines 509-531); `b2`
is the content of the local variable `b2` when the loop is at counter `i`. -/
def create_c_array_16bit_loop (pixels : Int) : Nat → Nat → List pixel → Option (List Chunk)
  | i, b2, pix =>
    if (i : Int) < pixels then
      match pix with
      | [] => none
      | p :: pix1 =>
        let b1 := u8 p.r
        let b1 := u8 (b1 &&& not32 (0xFF >>> 5))
        let b1 := u8 (b1 ||| (p.g >>> 5))
        let b2 := u8 (b2 ||| (p.g <<< 3))
        let b2 := u8 (b2 &&& not32 (0xFF >>> 3))
        let b2 := u8 (b2 ||| (p.b >>> 3))
        let line := if (i + 1) % 6 = 0 then [Chunk.wrap] else []
        (create_c_array_16bit_loop pixels (i + 1) b2 pix1).map
          (fun rest => Chunk.lit b1 :: Chunk.lit b2 :: (line ++ rest))
    else some []

/-- The loop "write array data" of `create_c_array_24bit` (lines 587-601). -/
def create_c_array_24bit_loop (pixels : Int) : Nat → List pixel → Option (List Chunk)
  | i, pix =>
    if (i : Int) < pixels then
      match pix with
      | [] => none
      | p :: pix1 =>
        let line := if (i + 1) % 4 = 0 then [Chunk.wrap] else []
        (create_c_array_24bit_loop pixels (i + 1) pix1).map
          (fun rest => Chunk.lit p.r :: Chunk.lit p.g :: Chunk.lit p.b :: (line ++ rest))
    else some []

/-- The function `create_c_array_8bit` (lines 303-367): the return value and the
destination file afterwards.  The probe `fopen(o->output_file, "r")` finds a
file exactly when the destination has a content; the modes `"a+"` and `"w+"`
keep, respectively drop, what is in the file.  Printing the array name through
`%s` has no defined result when `o->arrayname` is `NULL`. -/
def create_c_array_8bit (buf : List pixel) (pixels : Int) (o : options) (h : bmp_header)
    (dst : OutFile) : Option (Int × OutFile) :=
  let file_exists : Int := if dst.content = none then 0 else EXISTS
  let start := if o.append = APPEND then dst.content.getD [] else []
  if dst.writable = false then some (0, dst)
  else
    let head :=
      if o.append = APPEND ∧ file_exists ≠ 0 then text "\n\n"
      else text "/* This is an auto-generated file generated by bmpdump */\n\n"
    match o.arrayname, create_c_array_8bit_loop pixels 0 buf with
    | some name, some body =>
      some (1, { dst with content := some (start ++ (head
        ++ (text "/* Array with bitmap containing data of a " ++ fmt_u h.width ++ text "x"
          ++ fmt_u h.height ++ text " (" ++ fmt_u_int pixels ++ text " pixels) image.\n")
        ++ text " * Each pixel has 8 bits (RRRGGGBB).\n"
        ++ text " */\n"
        ++ (text "unsigned char " ++ text name ++ text "[] = \x7b\n\t")
        ++ Chunk.render body
        ++ text "\n\x7d;")) })
    | _, _ => none

/-- The function `create_c_array_12bit` (lines 380-457). -/
def create_c_array_12bit (buf : List pixel) (pixels : Int) (o : options) (h : bmp_header)
    (dst : OutFile) : Option (Int × OutFile) :=
  let file_exists : Int := if dst.content = none then 0 else EXISTS
  let start := if o.append = APPEND then dst.content.getD [] else []
  if dst.writable = false then some (0, dst)
  else
    let head :=
      if o.append = APPEND ∧ file_exists ≠ 0 then text "\n\n"
      else text "/* This is an auto-generated file generated by bmpdump */\n\n"
    match o.arrayname, create_c_array_12bit_loop pixels 0 buf with
    | some name, some body =>
      some (1, { dst with content := some (start ++ (head
        ++ (text "/* Array with bitmap containing data of a " ++ fmt_u h.width ++ text "x"
          ++ fmt_u h.height ++ text " (" ++ fmt_u_int pixels ++ text " pixels) image.\n")
        ++ text (" * Each pixel has 12 bits, two pixels share three bytes "
            ++ "(RRRRGGGG BBBBRRRR GGGGBBBB).\n")
        ++ text " */\n"
        ++ (text "unsigned char " ++ text name ++ text "[] = \x7b\n\t")
        ++ Chunk.render body
        ++ text "\n\x7d;")) })
    | _, _ => none

/-- The function `create_c_array_16bit` (lines 470-536); `b2_init` is the content
that the local variable `b2`, declared without an initial value, happens to have. -/
def create_c_array_16bit (buf : List pixel) (pixels : Int) (o : options) (h : bmp_header)
    (dst : OutFile) (b2_init : Nat) : Option (Int × OutFile) :=
  let file_exists : Int := if dst.content = none then 0 else EXISTS
  let start := if o.append = APPEND then dst.content.getD [] else []
  if dst.writable = false then some (0, dst)
  else
    let head :=
      if o.append = APPEND ∧ file_exists ≠ 0 then text "\n\n"
      else text "/* This is an auto-generated file generated by bmpdump */\n\n"
    match o.arrayname, create_c_array_16bit_loop pixels 0 b2_init buf with
    | some name, some body =>
      some (1, { dst with content := some (start ++ (head
        ++ (text "/* Array with bitmap containing data of a " ++ fmt_u h.width ++ text "x"
          ++ fmt_u h.height ++ text " (" ++ fmt_u_int pixels ++ text " pixels) image.\n")
        ++ text " * Each pixel has 16 bits (RRRRRGGG GGGBBBBB).\n"
        ++ text " */\n"
        ++ (text "unsigned char " ++ text name ++ text "[] = \x7b\n\t")
        ++ Chunk.render body
        ++ text "\n\x7d;")) })
    | _, _ => none

/-- The function `create_c_array_24bit` (lines 549-606). -/
def create_c_array_24bit (buf : List pixel) (pixels : Int) (o : options) (h : bmp_header)
    (dst : OutFile) : Option (Int × OutFile) :=
  let file_exists : Int := if dst.content = none then 0 else EXISTS
  let start := if o.append = APPEND then dst.content.getD [] else []
  if dst.writable = false then some (0, dst)
  else
    let head :=
      if o.append = APPEND ∧ file_exists ≠ 0 then text "\n\n"
      else text "/* This is an auto-generated file generated by bmpdump */\n\n"
    match o.arrayname, create_c_array_24bit_loop pixels 0 buf with
    | some name, some body =>
      some (1, { dst with content := some (start ++ (head
        ++ (text "/* Array with bitmap containing data of a " ++ fmt_u h.width ++ text "x"
          ++ fmt_u h.height ++ text " (" ++ fmt_u_int pixels ++ text " pixels) image.\n")
        ++ text " * Each pixel has 24 bits (RRRRRRRR GGGGGGGG BBBBBBBB).\n"
        ++ text " */\n"
        ++ (text "unsigned char " ++ text name ++ text "[] = \x7b\n\t")
        ++ Chunk.render body
        ++ text "\n\x7d;")) })
    | _, _ => none

/-! ## Reading the pixel data -/

/-- The call `fseek(fp, offset, SEEK_SET)`. -/
def fseek_set (fp : FILE) (offset : Int) : Int × FILE :=
  if offset < 0 then (-1, fp) else (0, { fp with pos := offset.toNat })

/-- The inner loop of `get_data` (lines 277-282) with `n` iterations to go, that
is `n = h->width - linebyte`.  The result is the stream, the pixels written,
and the buffer from the pointer `pix` on; a write past the end of the buffer has
no defined result. -/
def get_data_line : Nat → FILE → List pixel → Option (FILE × List pixel × List pixel)
  | 0, fp, pix => some (fp, [], pix)
  | n + 1, fp, pix =>
    match pix with
    | [] => none
    | p :: pix1 =>
      let rb := fread p.b 1 fp
      let rg := fread p.g 1 rb.2
      let rr := fread p.r 1 rg.2
      (get_data_line n rr.2 pix1).map
        (fun res => (res.1, { r := rr.1, g := rg.1, b := rb.1 } :: res.2.1, res.2.2))

/-- The outer loop of `get_data` (lines 274-288) with `n` iterations to go, that
is `n = h->height - line`. -/
def get_data_lines (width : Nat) (padding : Int) :
    Nat → FILE → List pixel → Option (FILE × List pixel × List pixel)
  | 0, fp, pix => some (fp, [], pix)
  | n + 1, fp, pix =>
    match get_data_line width fp pix with
    | none => none
    | some (fp1, row, pix1) =>
      let fp2 := if padding ≠ 0 then (fseek_cur fp1 padding).2 else fp1
      (get_data_lines width padding n fp2 pix1).map
        (fun res => (res.1, row ++ res.2.1, res.2.2))

/-- The function `get_data` (lines 262-290): the stream and the pixel buffer
afterwards.  The padding and the data offset are taken from the global
variable `header`, the width and the height from `*h`. -/
def get_data (header : bmp_header) (fp : FILE) (pixbuf : List pixel) (h : bmp_header) :
    Option (FILE × List pixel) :=
  let padding : Int := ((header.width * 3 % 4294967296 % 4 : Nat) : Int)
  let fp := (fseek_set fp (header.data_offset : Int)).2
  (get_data_lines h.width padding h.height fp pixbuf).map
    (fun res => (res.1, res.2.1 ++ res.2.2))

/-! ## The command line -/

/-- The loop of `parse_opts` (lines 832-933) over the arguments `argv[i]`, ...,
`argv[argc - 1]` that are left: the result is 0 with the options so far when
the loop executes `return 0`, and 1 with the options when it ends. -/
def parse_opts_loop : List String → options → Int × options
  | [], opts => (1, opts)
  | arg :: rest, opts =>
    if arg = "-if" then
      match rest with
      | [] => (0, opts)
      | v :: rest2 => parse_opts_loop rest2 { opts with input_file := some v }
    else if arg = "-of" then
      match rest with
      | [] => (0, opts)
      | v :: rest2 => parse_opts_loop rest2 { opts with output_file := some v }
    else if arg = "-format" then
      match rest with
      | [] => (0, opts)
      | v :: rest2 =>
        if v = "carray" then parse_opts_loop rest2 { opts with format := FORMAT_CARRAY }
        else if v = "raw" then parse_opts_loop rest2 { opts with format := FORMAT_RAW }
        else parse_opts_loop rest2 opts
    else if arg = "-bpp" then
      match rest with
      | [] => (0, opts)
      | v :: rest2 =>
        if v = "8" then parse_opts_loop rest2 { opts with bpp := 8 }
        else if v = "12" then parse_opts_loop rest2 { opts with bpp := 12 }
        else if v = "16" then parse_opts_loop rest2 { opts with bpp := 16 }
        else if v = "24" then parse_opts_loop rest2 { opts with bpp := 24 }
        else (0, opts)
    else if arg = "-arrayname" then
      match rest with
      | [] => (0, opts)
      | v :: rest2 => parse_opts_loop rest2 { opts with arrayname := some v }
    else if arg = "-append" then parse_opts_loop rest { opts with append := APPEND }
    else if arg = "-verbose" then parse_opts_loop rest { opts with verbose := VERBOSE }
    else if arg = "help" ∨ arg = "-help" ∨ arg = "--help" then (0, opts)
    else (0, opts)

/-- The end of `parse_opts`, from the default C array name on (lines 988-1001).
`malloc_ok n` tells whether the allocation whose failure is reported as
"Memory allocation failed (n)" succeeds. -/
def parse_opts_arrayname (opts : options) (malloc_ok : Nat → Bool) : Option (Int × options) :=
  if opts.format = FORMAT_CARRAY ∧ opts.arrayname = none then
    if malloc_ok 5 = false then some (0, opts)
    else some (1, { opts with arrayname := some "bitmap" })
  else some (1, opts)

/-- The end of `parse_opts`, from the default bpp on (lines 982-1001). -/
def parse_opts_bpp (opts : options) (malloc_ok : Nat → Bool) : Option (Int × options) :=
  if opts.bpp = UNSET then parse_opts_arrayname { opts with bpp := 12 } malloc_ok
  else parse_opts_arrayname opts malloc_ok

/-- The end of `parse_opts`, from the default output file on (lines 957-1001).
When the format is neither of the two known ones, `output_file` stays `NULL`
and is printed through `%s`, which has no defined result. -/
def parse_opts_output_file (opts : options) (malloc_ok : Nat → Bool) :
    Option (Int × options) :=
  if opts.output_file = none then
    if opts.format = FORMAT_CARRAY then
      if malloc_ok 3 = false then some (0, opts)
      else parse_opts_bpp { opts with output_file := some "bitmap.c" } malloc_ok
    else if opts.format = FORMAT_RAW then
      if malloc_ok 4 = false then some (0, opts)
      else parse_opts_bpp { opts with output_file := some "bitmap.raw" } malloc_ok
    else none
  else parse_opts_bpp opts malloc_ok

/-- The end of `parse_opts`, from the default format on (lines 951-1001). -/
def parse_opts_format (opts : options) (malloc_ok : Nat → Bool) : Option (Int × options) :=
  if opts.format = UNSET then
    parse_opts_output_file { opts with format := FORMAT_CARRAY } malloc_ok
  else parse_opts_output_file opts malloc_ok

/-- The end of `parse_opts`, from the default input file on (lines 935-1001). -/
def parse_opts_input_file (opts : options) (malloc_ok : Nat → Bool) :
    Option (Int × options) :=
  if opts.input_file = none then
    if malloc_ok 2 = false then some (0, opts)
    else parse_opts_format { opts with input_file := some "bitmap.bmp" } malloc_ok
  else parse_opts_format opts malloc_ok

/-- The function `parse_opts` (lines 828-1002): the return value and the options
structure `*opts` afterwards.  `argc` is the length of `argv`, and `argv[0]`
is not looked at. -/
def parse_opts (argv : List String) (opts : options) (malloc_ok : Nat → Bool) :
    Option (Int × options) :=
  let res := parse_opts_loop (argv.drop 1) opts
  if res.1 = 0 then some (0, res.2)
  else parse_opts_input_file res.2 malloc_ok

/-! ## The program -/

/-- The conversion of an `unsigned int` or `size_t` value to `int`: the low 32
bits, read in two's complement. -/
def to_int (x : Nat) : Int :=
  if x % 4294967296 < 2147483648 then ((x % 4294967296 : Nat) : Int)
  else ((x % 4294967296 : Nat) : Int) - 4294967296

/-- What the program finds around it.  `input` is the content of the file named
by the option `input_file` if `fopen` in mode `"rb+"` succeeds on it; `dst` is
the file named by the option `output_file`, a different file; `malloc_ok n`
tells whether the allocation reported as "Memory allocation failed (n)"
succeeds; `junk k` is the content of pixel `k` of a fresh pixel buffer;
`b2_init` is the content of the local variable `b2` of the 16 bit functions. -/
structure World where
  input : Option (List Nat)
  dst : OutFile
  malloc_ok : Nat → Bool
  junk : Nat → pixel
  b2_init : Nat

/-- The global variable `opts` at program start: all zero. -/
def opts_init : options := ⟨none, none, 0, 0, 0, none, 0⟩

/-- The global variable `header` at program start: all zero. -/
def header_init : bmp_header := ⟨0, 0, 0, 0, 0, 0, 0, 0, 0, 0, 0, 0, 0, 0⟩

/-- The end of `main`: "create output file in the right format" (lines 129-169).
The results of the `create_*` functions are not looked at and `main` returns 0. -/
def main_output (pixbuf : List pixel) (pixels : Int) (opts : options) (header : bmp_header)
    (w : World) : Option (Int × OutFile) :=
  if opts.format = FORMAT_CARRAY then
    if opts.bpp = 8 then
      (create_c_array_8bit pixbuf pixels opts header w.dst).map (fun res => (0, res.2))
    else if opts.bpp = 12 then
      (create_c_array_12bit pixbuf pixels opts header w.dst).map (fun res => (0, res.2))
    else if opts.bpp = 16 then
      (create_c_array_16bit pixbuf pixels opts header w.dst w.b2_init).map
        (fun res => (0, res.2))
    else if opts.bpp = 24 then
      (create_c_array_24bit pixbuf pixels opts header w.dst).map (fun res => (0, res.2))
    else some (0, w.dst)
  else if opts.format = FORMAT_RAW then
    if opts.bpp = 8 then
      (create_raw_8bit pixbuf pixels opts w.dst).map (fun res => (0, res.2))
    else if opts.bpp = 12 then
      (create_raw_12bit pixbuf pixels opts w.dst).map (fun res => (0, res.2))
    else if opts.bpp = 16 then
      (create_raw_16bit pixbuf pixels opts w.dst w.b2_init).map (fun res => (0, res.2))
    else if opts.bpp = 24 then
      (create_raw_24bit pixbuf pixels opts w.dst).map (fun res => (0, res.2))
    else some (0, w.dst)
  else some (0, w.dst)

/-- The function `main` (lines 85-170): the exit status and the destination file
afterwards.  With the option `-verbose` the program calls `print_options`,
whose `printf("Array name: %s\n")` lacks its argument and has no defined
result.  The size of the buffer is computed in `size_t`, of 64 bits, and
stored in an `int`; a negative `int` passed to `malloc` asks for more than
2^63 bytes, which fails.  A pixel takes 3 bytes. -/
def main (argv : List String) (w : World) : Option (Int × OutFile) :=
  match parse_opts argv opts_init w.malloc_ok with
  | none => none
  | some (ret, opts) =>
    if ret = 0 then some (1, w.dst)
    else if opts.verbose = VERBOSE then none
    else
      match w.input with
      | none => some (1, w.dst)
      | some data =>
        let hr := get_header ⟨data, 0⟩ header_init
        if hr.ret = 0 then some (1, w.dst)
        else
          let header := hr.h
          let pixels := to_int (header.width * header.height % 4294967296)
          let pixbufsize := to_int (header.width * header.height % 4294967296 * 3)
          if pixbufsize < 0 ∨ w.malloc_ok 1 = false then some (1, w.dst)
          else
            let pixbuf := (List.range (pixbufsize.toNat / 3)).map w.junk
            match get_data header hr.fp pixbuf header with
            | none => none
            | some (_, pixbuf) => main_output pixbuf pixels opts header w

/-- The 16 bytes of pixel data of a 2x2 BMP file: two rows of two pixels in the
order blue, green, red, each row followed by two padding bytes. -/
def sample_pixels : List Nat :=
  [0x11, 0x12, 0x13, 0x21, 0x22, 0x23, 0xEE, 0xEE,
   0x31, 0x32, 0x33, 0x41, 0x42, 0x43, 0xEE, 0xEE]

/-- A whole 2x2 BMP file of 70 bytes. -/
def sample_bmp : List Nat := sample_header 24 0 ++ sample_pixels

/-- The 54 header bytes of a 32768x32768 BMP file, whose pixel data takes
3 * 2^30 bytes. -/
def large_header : List Nat :=
  [0x42, 0x4D, 0x36, 0, 0, 0xC0, 0, 0, 0, 0, 0x36, 0, 0, 0,
   0x28, 0, 0, 0, 0, 0x80, 0, 0, 0, 0x80, 0, 0, 1, 0, 24, 0, 0, 0, 0, 0,
   0, 0, 0, 0xC0, 0x13, 0x0B, 0, 0, 0x13, 0x0B, 0, 0, 0, 0, 0, 0, 0, 0, 0, 0]

/-! ## Notions used to state the claims -/

/-- A text with every line break `"\n\t"` (the characters 10 and 9) taken out. -/
def remove_wraps : List Nat → List Nat
  | [] => []
  | 10 :: 9 :: cs => remove_wraps cs
  | c :: cs => c :: remove_wraps cs

/-- The lowercase hexadecimal digit of a value below 16, as a character. -/
def hex_digit (d : Nat) : Nat := (text "0123456789abcdef").getD d 0

/-- The conventional RGB565 encoding of a pixel as the specification writes it,
`((r >> 3) << 11) | ((g >> 2) << 5) | (b >> 3)`. -/
def spec_rgb565 (r g b : Nat) : Nat := ((r >>> 3) <<< 11) ||| ((g >>> 2) <<< 5) ||| (b >>> 3)

/-- The number of bytes that pad a row of `w` pixels of 3 bytes to a multiple
of 4 bytes, as the specification writes it, `(4 - (3*w) mod 4) mod 4`. -/
def spec_bmp_padding (w : Nat) : Nat := (4 - (3 * w) % 4) % 4

/-- The failure condition of the command line as the specification words it:
scanning the arguments left to right, each of `-if`, `-of`, `-format`, `-bpp`
and `-arrayname` consuming the following argument, the scan meets an
unrecognised argument, one of `help`, `-help`, `--help`, a value-taking flag
that is the last argument, or a `-bpp` value other than "8", "12", "16",
"24". -/
def spec_scan_fails : List String → Bool
  | [] => false
  | arg :: rest =>
    if arg = "-if" ∨ arg = "-of" ∨ arg = "-format" ∨ arg = "-arrayname" then
      match rest with
      | [] => true
      | _ :: rest2 => spec_scan_fails rest2
    else if arg = "-bpp" then
      match rest with
      | [] => true
      | v :: rest2 =>
        if v = "8" ∨ v = "12" ∨ v = "16" ∨ v = "24" then spec_scan_fails rest2 else true
    else if arg = "-append" ∨ arg = "-verbose" then spec_scan_fails rest
    else true

/-! ## Closed forms used in the proofs -/

/-- The `n` pixels stored from offset `pos` on in the order blue, green, red. -/
def pixels_at (data : List Nat) : Nat → Nat → List pixel
  | 0, _ => []
  | n + 1, pos =>
    { r := data.getD (pos + 2) 0, g := data.getD (pos + 1) 0, b := data.getD pos 0 }
      :: pixels_at data n (pos + 3)

/-- The pixels of `n` rows of `w` pixels stored from offset `pos` on, each row
followed by `pad` bytes. -/
def rows_at (data : List Nat) (w pad : Nat) : Nat → Nat → List pixel
  | 0, _ => []
  | n + 1, pos => pixels_at data w pos ++ rows_at data w pad n (pos + (3 * w + pad))

/-- The byte at offset `o` of the stream when the stream has one, and `old`
otherwise. -/
def read_or (data : List Nat) (o old : Nat) : Nat :=
  if o < data.length then data.getD o 0 else old

/-- The first `n` pixels of `pix` with each channel replaced by the byte stored
for it from offset `pos` on, in the order blue, green, red, when the stream
has that byte.  `get_data_line_or` proves that the inner loop computes it. -/
def pixels_or (data : List Nat) : Nat → Nat → List pixel → List pixel
  | 0, _, _ => []
  | _ + 1, _, [] => []
  | n + 1, pos, p :: pix =>
    { r := read_or data (pos + 2) p.r, g := read_or data (pos + 1) p.g,
      b := read_or data pos p.b } :: pixels_or data n (pos + 3) pix

/-- The first `n` rows of `w` pixels of `pix` with each channel replaced by the
byte stored for it, the rows being stored from offset `pos` on and each
followed by `pad` bytes.  `get_data_lines_or` proves that the outer loop
computes it. -/
def rows_or (data : List Nat) (w pad : Nat) : Nat → Nat → List pixel → List pixel
  | 0, _, _ => []
  | n + 1, pos, pix =>
    pixels_or data w pos pix ++ rows_or data w pad n (pos + (3 * w + pad)) (pix.drop w)

/-- What the four functions `create_c_array_*` have in common: `layout` is the
line of the comment that tells the pixel format and `body` the result of the
loop.  `create_c_array_8bit_eq` and its siblings prove the agreement. -/
def c_array_result (layout : List Nat) (body : Option (List Chunk)) (pixels : Int)
    (o : options) (h : bmp_header) (dst : OutFile) : Option (Int × OutFile) :=
  let file_exists : Int := if dst.content = none then 0 else EXISTS
  let start := if o.append = APPEND then dst.content.getD [] else []
  if dst.writable = false then some (0, dst)
  else
    let head :=
      if o.append = APPEND ∧ file_exists ≠ 0 then text "\n\n"
      else text "/* This is an auto-generated file generated by bmpdump */\n\n"
    match o.arrayname, body with
    | some name, some body =>
      some (1, { dst with content := some (start ++ (head
        ++ (text "/* Array with bitmap containing data of a " ++ fmt_u h.width ++ text "x"
          ++ fmt_u h.height ++ text " (" ++ fmt_u_int pixels ++ text " pixels) image.\n")
        ++ layout
        ++ text " */\n"
        ++ (text "unsigned char " ++ text name ++ text "[] = \x7b\n\t")
        ++ Chunk.render body
        ++ text "\n\x7d;")) })
    | _, _ => none

/-- The bytes that the 12 bit loop writes for the pixels `pix` when `pixels`
counts exactly the pixels left: three bytes for each pair, two bytes for a last
single pixel.  `create_raw_12bit_loop_eq` proves that the loop computes it. -/
def bytes12 : List pixel → List Nat
  | p :: q :: rest =>
    u8 (u8 (u8 p.r &&& not32 0x0F) ||| (p.g >>> 4))
      :: u8 (u8 (u8 p.b &&& not32 0x0F) ||| (q.r >>> 4))
      :: u8 (u8 (u8 q.g &&& not32 0x0F) ||| (q.b >>> 4))
      :: bytes12 rest
  | [p] => [u8 (u8 (u8 p.r &&& not32 0x0F) ||| (p.g >>> 4)), u8 (u8 p.b &&& not32 0x0F)]
  | [] => []

/-! ## Facts about the machine arithmetic -/

set_option maxRecDepth 100000 in
theorem u8_and_not32_31 : ∀ r, r < 256 → u8 (u8 r &&& not32 (0xFF >>> 3)) = r &&& 0xE0 := by
  decide

set_option maxRecDepth 100000 in
theorem u8_and_not32_3 : ∀ x, x < 256 → u8 (x &&& not32 (0xFF >>> 6)) = x &&& 0xFC := by
  decide

set_option maxRecDepth 100000 in
theorem and_224_and_252 : ∀ r, r < 256 → (r &&& 0xE0) &&& 0xFC = r &&& 0xE0 := by
  decide

set_option maxRecDepth 100000 in
theorem shr3_and_252 : ∀ g, g < 256 → (g >>> 3) &&& 0xFC = (g >>> 3) &&& 0x1C := by
  decide

set_option maxRecDepth 100000 in
theorem shr6_and_3 : ∀ b, b < 256 → (b >>> 6) &&& 0x03 = b >>> 6 := by
  decide

theorem shiftRight_lt_256 {x : Nat} (k : Nat) (h : x < 256) : x >>> k < 256 :=
  Nat.lt_of_le_of_lt (by rw [Nat.shiftRight_eq_div_pow]; exact Nat.div_le_self _ _) h

theorem and_lt_256 {x : Nat} (m : Nat) (h : x < 256) : x &&& m < 256 :=
  Nat.lt_of_le_of_lt Nat.and_le_left h

theorem or_lt_256 {x y : Nat} (hx : x < 256) (hy : y < 256) : x ||| y < 256 :=
  @Nat.or_lt_two_pow x y 8 hx hy

theorem u8_of_lt {x : Nat} (h : x < 256) : u8 x = x := Nat.mod_eq_of_lt h

/-- The byte computed by the body of the 8 bit loops, in closed form. -/
theorem pack8_closed (r g b : Nat) (hr : r < 256) (hg : g < 256) (hb : b < 256) :
    u8 (u8 (u8 (u8 (u8 r &&& not32 (0xFF >>> 3)) ||| (g >>> 3)) &&& not32 (0xFF >>> 6))
        ||| (b >>> 6))
      = (r &&& 0xE0) ||| ((g >>> 3) &&& 0x1C) ||| ((b >>> 6) &&& 0x03) := by
  have hg3 : g >>> 3 < 256 := shiftRight_lt_256 3 hg
  have hb6 : b >>> 6 < 256 := shiftRight_lt_256 6 hb
  have hra : r &&& 0xE0 < 256 := and_lt_256 _ hr
  rw [u8_and_not32_31 r hr, u8_of_lt (or_lt_256 hra hg3),
    u8_and_not32_3 _ (or_lt_256 hra hg3), Nat.and_distrib_right,
    and_224_and_252 r hr, shr3_and_252 g hg, shr6_and_3 b hb]
  exact u8_of_lt (or_lt_256 (or_lt_256 hra (and_lt_256 _ hg3)) hb6)

set_option maxRecDepth 100000 in
theorem u8_and_not32_15 : ∀ x, x < 256 → u8 (u8 x &&& not32 0x0F) = x &&& 0xF0 := by
  decide

set_option maxRecDepth 100000 in
theorem u8_and_not32_7 : ∀ x, x < 256 → u8 (u8 x &&& not32 (0xFF >>> 5)) = x &&& 0xF8 := by
  decide

/-- A byte of the 12 bit loops that joins two nibbles, in closed form. -/
theorem nibbles_closed (x y : Nat) (hx : x < 256) (hy : y < 256) :
    u8 (u8 (u8 x &&& not32 0x0F) ||| (y >>> 4)) = (x &&& 0xF0) ||| (y >>> 4) := by
  rw [u8_and_not32_15 x hx]
  exact u8_of_lt (or_lt_256 (and_lt_256 _ hx) (shiftRight_lt_256 4 hy))

/-- The first byte of the 16 bit loops, in closed form. -/
theorem first16_closed (r g : Nat) (hr : r < 256) (hg : g < 256) :
    u8 (u8 (u8 r &&& not32 (0xFF >>> 5)) ||| (g >>> 5)) = (r &&& 0xF8) ||| (g >>> 5) := by
  rw [u8_and_not32_7 r hr]
  exact u8_of_lt (or_lt_256 (and_lt_256 _ hr) (shiftRight_lt_256 5 hg))

theorem or_mod_256 (a b : Nat) : (a ||| b) % 256 = (a % 256) ||| (b % 256) := by
  apply Nat.eq_of_testBit_eq
  intro i
  have e : (256 : Nat) = 2 ^ 8 := rfl
  simp only [e, Nat.testBit_mod_two_pow, Nat.testBit_or]
  cases decide (i < 8) <;> simp

theorem u8_or_left (a b : Nat) : u8 (a ||| b) = u8 (a % 256 ||| b) := by
  simp only [u8, or_mod_256, Nat.mod_mod]

set_option maxRecDepth 100000 in
/-- The second byte of the 16 bit loop for the pixel (0, 4, 0) is not 0, and the
pixel (0, 0, 0) that follows gets the same second byte. -/
theorem second16_carried : ∀ d, d < 256 →
    u8 (u8 (u8 (d ||| (4 <<< 3)) &&& not32 (0xFF >>> 3)) ||| (0 >>> 3)) ≠ 0 ∧
    u8 (u8 (u8 (u8 (u8 (u8 (d ||| (4 <<< 3)) &&& not32 (0xFF >>> 3)) ||| (0 >>> 3))
          ||| (0 <<< 3)) &&& not32 (0xFF >>> 3)) ||| (0 >>> 3))
      = u8 (u8 (u8 (d ||| (4 <<< 3)) &&& not32 (0xFF >>> 3)) ||| (0 >>> 3)) := by
  decide

/-! ## The loops in closed form -/

theorem create_raw_8bit_loop_eq (pixels : Int) (pix : List pixel) :
    ∀ i : Nat, pixels = (i : Int) + pix.length →
      (∀ p ∈ pix, p.r < 256 ∧ p.g < 256 ∧ p.b < 256) →
      create_raw_8bit_loop pixels i pix = some (pix.map fun p =>
        (p.r &&& 0xE0) ||| ((p.g >>> 3) &&& 0x1C) ||| ((p.b >>> 6) &&& 0x03)) := by
  induction pix with
  | nil =>
    intro i h _
    have hi : ¬ ((i : Int) < pixels) := by simp at h; omega
    rw [create_raw_8bit_loop, if_neg hi]; rfl
  | cons p pix1 ih =>
    intro i h hb
    have hi : (i : Int) < pixels := by simp at h; omega
    have hp := hb p (List.mem_cons_self _ _)
    rw [create_raw_8bit_loop, if_pos hi]
    simp only []
    rw [ih (i + 1) (by simp at h ⊢; omega) (fun q hq => hb q (List.mem_cons_of_mem _ hq)),
      pack8_closed p.r p.g p.b hp.1 hp.2.1 hp.2.2]
    rfl

theorem create_c_array_8bit_loop_literals (pixels : Int) (pix : List pixel) :
    ∀ i : Nat, pixels = (i : Int) + pix.length →
      (∀ p ∈ pix, p.r < 256 ∧ p.g < 256 ∧ p.b < 256) →
      (create_c_array_8bit_loop pixels i pix).map Chunk.literals = some (pix.map fun p =>
        (p.r &&& 0xE0) ||| ((p.g >>> 3) &&& 0x1C) ||| ((p.b >>> 6) &&& 0x03)) := by
  induction pix with
  | nil =>
    intro i h _
    have hi : ¬ ((i : Int) < pixels) := by simp at h; omega
    rw [create_c_array_8bit_loop, if_neg hi]; rfl
  | cons p pix1 ih =>
    intro i h hb
    have hi : (i : Int) < pixels := by simp at h; omega
    have hp := hb p (List.mem_cons_self _ _)
    have ih1 := ih (i + 1) (by simp at h ⊢; omega)
      (fun q hq => hb q (List.mem_cons_of_mem _ hq))
    rw [create_c_array_8bit_loop, if_pos hi]
    simp only []
    rw [pack8_closed p.r p.g p.b hp.1 hp.2.1 hp.2.2]
    cases hrec : create_c_array_8bit_loop pixels (i + 1) pix1 with
    | none => rw [hrec] at ih1; simp at ih1
    | some rest =>
      rw [hrec] at ih1
      simp only [Option.map_some', Option.some.injEq] at ih1
      by_cases hw : (i + 1) % 12 = 0
      · simp [hw, Chunk.literals, ih1]
      · simp [hw, Chunk.literals, ih1]

theorem create_raw_24bit_loop_eq (pixels : Int) (pix : List pixel) :
    ∀ i : Nat, pixels = (i : Int) + pix.length →
      create_raw_24bit_loop pixels i pix = some (pix.map fun p => [p.r, p.g, p.b]).flatten := by
  induction pix with
  | nil =>
    intro i h
    have hi : ¬ ((i : Int) < pixels) := by simp at h; omega
    rw [create_raw_24bit_loop, if_neg hi]; rfl
  | cons p pix1 ih =>
    intro i h
    have hi : (i : Int) < pixels := by simp at h; omega
    rw [create_raw_24bit_loop, if_pos hi]
    rw [ih (i + 1) (by simp at h ⊢; omega)]
    rfl

theorem length_flatten_rgb (buf : List pixel) :
    ((buf.map fun p => [p.r, p.g, p.b]).flatten).length = 3 * buf.length := by
  induction buf with
  | nil => rfl
  | cons p rest ih =>
    simp only [List.map_cons, List.flatten_cons, List.length_append, List.length_cons,
      List.length_nil, ih]
    omega

theorem create_raw_12bit_loop_eq (pixels : Int) (pix : List pixel) :
    ∀ i : Nat, pixels = (i : Int) + pix.length →
      create_raw_12bit_loop pixels i pix = some (bytes12 pix) := by
  induction pix using bytes12.induct with
  | case1 p q rest ih =>
    intro i h
    have hi : (i : Int) < pixels := by simp at h; omega
    have hi2 : (i : Int) + 2 ≤ pixels := by simp at h; omega
    rw [create_raw_12bit_loop, if_pos hi]
    simp only [if_pos hi2]
    rw [ih (i + 2) (by simp at h ⊢; omega)]
    rfl
  | case2 p =>
    intro i h
    have hi : (i : Int) < pixels := by simp at h; omega
    have hi2 : ¬ ((i : Int) + 2 ≤ pixels) := by simp at h; omega
    have hi3 : ¬ (((i + 2 : Nat) : Int) < pixels) := by simp at h ⊢; omega
    rw [create_raw_12bit_loop, if_pos hi]
    simp only [if_neg hi2]
    rw [create_raw_12bit_loop, if_neg hi3]
    rfl
  | case3 =>
    intro i h
    have hi : ¬ ((i : Int) < pixels) := by simp at h; omega
    rw [create_raw_12bit_loop, if_neg hi]; rfl

theorem bytes12_length (pix : List pixel) :
    (bytes12 pix).length = 3 * (pix.length / 2) + 2 * (pix.length % 2) := by
  induction pix using bytes12.induct with
  | case1 p q rest ih =>
    simp only [bytes12, List.length_cons, ih]
    omega
  | case2 p => simp [bytes12]
  | case3 => simp [bytes12]

theorem bytes12_pair (j : Nat) :
    ∀ (pix : List pixel) (p q : pixel), pix[2 * j]? = some p → pix[2 * j + 1]? = some q →
      (bytes12 pix)[3 * j]? = some (u8 (u8 (u8 p.r &&& not32 0x0F) ||| (p.g >>> 4))) ∧
      (bytes12 pix)[3 * j + 1]? = some (u8 (u8 (u8 p.b &&& not32 0x0F) ||| (q.r >>> 4))) ∧
      (bytes12 pix)[3 * j + 2]? = some (u8 (u8 (u8 q.g &&& not32 0x0F) ||| (q.b >>> 4))) := by
  induction j with
  | zero =>
    intro pix p q hp hq
    match pix, hp, hq with
    | a :: b :: rest, hp, hq =>
      simp only [Nat.mul_zero, Nat.zero_add, List.getElem?_cons_zero, List.getElem?_cons_succ,
        Option.some.injEq] at hp hq
      subst hp; subst hq
      simp [bytes12]
  | succ j ih =>
    intro pix p q hp hq
    match pix, hp, hq with
    | a :: b :: rest, hp, hq =>
      have e1 : 2 * (j + 1) = (2 * j + 1) + 1 := by omega
      have e2 : 2 * (j + 1) + 1 = (2 * j + 1 + 1) + 1 := by omega
      rw [e1, List.getElem?_cons_succ, List.getElem?_cons_succ] at hp
      rw [e2, List.getElem?_cons_succ, List.getElem?_cons_succ] at hq
      have h3 := ih rest p q hp hq
      have e3 : 3 * (j + 1) = (3 * j + 1 + 1) + 1 := by omega
      have e4 : 3 * (j + 1) + 1 = (3 * j + 1 + 1 + 1) + 1 := by omega
      have e5 : 3 * (j + 1) + 2 = (3 * j + 2 + 1 + 1) + 1 := by omega
      refine ⟨?_, ?_, ?_⟩
      · rw [e3]; simp only [bytes12, List.getElem?_cons_succ]; exact h3.1
      · rw [e4]; simp only [bytes12, List.getElem?_cons_succ]; exact h3.2.1
      · rw [e5]; simp only [bytes12, List.getElem?_cons_succ]; exact h3.2.2
    | [a], hp, hq => simp at hq
    | [], hp, hq => simp at hp

theorem bytes12_append_last (init : List pixel) (p : pixel) (heven : init.length % 2 = 0) :
    bytes12 (init ++ [p])
      = bytes12 init ++ [u8 (u8 (u8 p.r &&& not32 0x0F) ||| (p.g >>> 4)),
          u8 (u8 p.b &&& not32 0x0F)] := by
  induction init using bytes12.induct with
  | case1 a b rest ih =>
    have hr : rest.length % 2 = 0 := by simp only [List.length_cons] at heven; omega
    simp only [List.cons_append, bytes12, List.append_eq, ih hr]
  | case2 a => simp at heven
  | case3 => rfl

theorem create_raw_16bit_loop_first (pixels : Int) (pix : List pixel) :
    ∀ (i b2 : Nat), pixels = (i : Int) + pix.length →
      (∀ p ∈ pix, p.r < 256 ∧ p.g < 256 ∧ p.b < 256) →
      ∃ out : List Nat, create_raw_16bit_loop pixels i b2 pix = some out ∧
        out.length = 2 * pix.length ∧
        ∀ (k : Nat) (p : pixel), pix[k]? = some p →
          out[2 * k]? = some ((p.r &&& 0xF8) ||| (p.g >>> 5)) := by
  induction pix with
  | nil =>
    intro i b2 h _
    have hi : ¬ ((i : Int) < pixels) := by simp at h; omega
    refine ⟨[], ?_, rfl, ?_⟩
    · rw [create_raw_16bit_loop, if_neg hi]
    · intro k p hp; simp at hp
  | cons a pix1 ih =>
    intro i b2 h hb
    have hi : (i : Int) < pixels := by simp at h; omega
    have ha := hb a (List.mem_cons_self _ _)
    obtain ⟨out1, hout1, hlen1, hget1⟩ :=
      ih (i + 1) (u8 (u8 (u8 (b2 ||| (a.g <<< 3)) &&& not32 (0xFF >>> 3)) ||| (a.b >>> 3)))
        (by simp at h ⊢; omega) (fun q hq => hb q (List.mem_cons_of_mem _ hq))
    refine ⟨u8 (u8 (u8 a.r &&& not32 (0xFF >>> 5)) ||| (a.g >>> 5))
      :: u8 (u8 (u8 (b2 ||| (a.g <<< 3)) &&& not32 (0xFF >>> 3)) ||| (a.b >>> 3))
      :: out1, ?_, ?_, ?_⟩
    · rw [create_raw_16bit_loop, if_pos hi]
      simp only []
      rw [hout1]
      rfl
    · simp only [List.length_cons, hlen1]; omega
    · intro k p hp
      cases k with
      | zero =>
        simp only [List.getElem?_cons_zero, Option.some.injEq] at hp
        subst hp
        simp only [Nat.mul_zero, List.getElem?_cons_zero]
        rw [first16_closed a.r a.g ha.1 ha.2.1]
      | succ k =>
        have e : 2 * (k + 1) = (2 * k + 1) + 1 := by omega
        rw [List.getElem?_cons_succ] at hp
        rw [e, List.getElem?_cons_succ, List.getElem?_cons_succ]
        exact hget1 k p hp

/-! ## The claims -/

/-- C1. 8 bit packer: when `pixels` is the number of pixels in the buffer and the
destination can be opened, `create_raw_8bit` returns 1 and appends one byte per
pixel to the kept content of the file; these are also the literals printed by
the loop of `create_c_array_8bit`, and byte `i` is
`(r & 0xE0) | ((g >> 3) & 0x1C) | ((b >> 6) & 0x03)` of pixel `i`. -/
theorem create_8bit_bytes (buf : List pixel) (pixels : Int) (o : options) (dst : OutFile)
    (hbuf : ∀ p ∈ buf, p.r < 256 ∧ p.g < 256 ∧ p.b < 256)
    (hpixels : pixels = (buf.length : Int)) (hopen : dst.writable = true) :
    ∃ out : List Nat,
      create_raw_8bit buf pixels o dst
        = some (1, { writable := true,
                     content := some ((if o.append = APPEND then dst.content.getD [] else [])
                                        ++ out) }) ∧
      (create_c_array_8bit_loop pixels 0 buf).map Chunk.literals = some out ∧
      out.length = buf.length ∧
      ∀ (i : Nat) (p : pixel), buf[i]? = some p →
        out[i]? = some ((p.r &&& 0xE0) ||| ((p.g >>> 3) &&& 0x1C) ||| ((p.b >>> 6) &&& 0x03)) := by
  refine ⟨buf.map fun p =>
    (p.r &&& 0xE0) ||| ((p.g >>> 3) &&& 0x1C) ||| ((p.b >>> 6) &&& 0x03), ?_, ?_, ?_, ?_⟩
  · simp only [create_raw_8bit, hopen]
    rw [create_raw_8bit_loop_eq pixels buf 0 (by simp [hpixels]) hbuf]
    simp
  · exact create_c_array_8bit_loop_literals pixels buf 0 (by simp [hpixels]) hbuf
  · simp
  · intro i p hp
    simp [List.getElem?_map, hp]

theorem create_8bit_bytes_witness :
    (create_raw_8bit [⟨0xFF, 0x80, 0x40⟩, ⟨0x12, 0x34, 0x56⟩] 2
        ⟨none, some "out.raw", FORMAT_RAW, 8, UNSET, none, UNSET⟩ ⟨true, some [7]⟩
      = some (1, ⟨true, some [0xF1, 0x05]⟩)) ∧
    ∃ out : List Nat,
      create_raw_8bit [⟨0xFF, 0x80, 0x40⟩, ⟨0x12, 0x34, 0x56⟩] ((2 : Nat) : Int)
          ⟨none, some "out.raw", FORMAT_RAW, 8, UNSET, none, UNSET⟩ ⟨true, some [7]⟩
        = some (1, { writable := true,
                     content := some ((if UNSET = APPEND then [7] else []) ++ out) }) ∧
      (create_c_array_8bit_loop ((2 : Nat) : Int) 0
          [⟨0xFF, 0x80, 0x40⟩, ⟨0x12, 0x34, 0x56⟩]).map Chunk.literals = some out ∧
      out.length = 2 ∧
      ∀ (i : Nat) (p : pixel),
        [(⟨0xFF, 0x80, 0x40⟩ : pixel), ⟨0x12, 0x34, 0x56⟩][i]? = some p →
        out[i]? = some ((p.r &&& 0xE0) ||| ((p.g >>> 3) &&& 0x1C) ||| ((p.b >>> 6) &&& 0x03)) :=
  ⟨by decide,
   create_8bit_bytes [⟨0xFF, 0x80, 0x40⟩, ⟨0x12, 0x34, 0x56⟩] ((2 : Nat) : Int)
     ⟨none, some "out.raw", FORMAT_RAW, 8, UNSET, none, UNSET⟩ ⟨true, some [7]⟩
     (by decide) rfl rfl⟩

/-- C2. 24 bit packer: when `pixels` is the number of pixels in the buffer and
the destination can be opened, `create_raw_24bit` returns 1 and appends to the
kept content of the file exactly the bytes r, g, b of each pixel in buffer
order, `3 * pixels` bytes in total. -/
theorem create_raw_24bit_identity (buf : List pixel) (pixels : Int) (o : options)
    (dst : OutFile) (hpixels : pixels = (buf.length : Int)) (hopen : dst.writable = true) :
    create_raw_24bit buf pixels o dst
      = some (1, { writable := true,
                   content := some ((if o.append = APPEND then dst.content.getD [] else [])
                     ++ (buf.map fun p => [p.r, p.g, p.b]).flatten) }) ∧
    ((buf.map fun p => [p.r, p.g, p.b]).flatten).length = 3 * buf.length := by
  constructor
  · simp only [create_raw_24bit, hopen]
    rw [create_raw_24bit_loop_eq pixels buf 0 (by simp [hpixels])]
    simp
  · exact length_flatten_rgb buf

theorem create_raw_24bit_identity_witness :
    create_raw_24bit [⟨1, 2, 3⟩, ⟨4, 5, 6⟩] ((2 : Nat) : Int)
        ⟨none, some "out.raw", FORMAT_RAW, 24, APPEND, none, UNSET⟩ ⟨true, some [9]⟩
      = some (1, ⟨true, some [9, 1, 2, 3, 4, 5, 6]⟩) :=
  (create_raw_24bit_identity [⟨1, 2, 3⟩, ⟨4, 5, 6⟩] ((2 : Nat) : Int)
    ⟨none, some "out.raw", FORMAT_RAW, 24, APPEND, none, UNSET⟩ ⟨true, some [9]⟩ rfl rfl).1

/-- C3. 12 bit packer, pair formula: when `pixels` is the number of pixels in the
buffer and the destination can be opened, `create_raw_12bit` returns 1 and, for
every `j` with `2j+1 < pixels`, the bytes `3j`, `3j+1`, `3j+2` it writes are
`(R1 & 0xF0) | (G1 >> 4)`, `(B1 & 0xF0) | (R2 >> 4)`, `(G2 & 0xF0) | (B2 >> 4)`
for pixel 1 = `buf[2j]` and pixel 2 = `buf[2j+1]`. -/
theorem create_raw_12bit_pair_bytes (buf : List pixel) (pixels : Int) (o : options)
    (dst : OutFile) (hbuf : ∀ p ∈ buf, p.r < 256 ∧ p.g < 256 ∧ p.b < 256)
    (hpixels : pixels = (buf.length : Int)) (hopen : dst.writable = true) :
    ∃ out : List Nat,
      create_raw_12bit buf pixels o dst
        = some (1, { writable := true,
                     content := some ((if o.append = APPEND then dst.content.getD [] else [])
                                        ++ out) }) ∧
      ∀ (j : Nat) (p q : pixel), buf[2 * j]? = some p → buf[2 * j + 1]? = some q →
        out[3 * j]? = some ((p.r &&& 0xF0) ||| (p.g >>> 4)) ∧
        out[3 * j + 1]? = some ((p.b &&& 0xF0) ||| (q.r >>> 4)) ∧
        out[3 * j + 2]? = some ((q.g &&& 0xF0) ||| (q.b >>> 4)) := by
  refine ⟨bytes12 buf, ?_, ?_⟩
  · simp only [create_raw_12bit, hopen]
    rw [create_raw_12bit_loop_eq pixels buf 0 (by simp [hpixels])]
    simp
  · intro j p q hp hq
    have vp := hbuf p (List.getElem?_mem hp)
    have vq := hbuf q (List.getElem?_mem hq)
    have h := bytes12_pair j buf p q hp hq
    rw [nibbles_closed p.r p.g vp.1 vp.2.1, nibbles_closed p.b q.r vp.2.2 vq.1,
      nibbles_closed q.g q.b vq.2.1 vq.2.2] at h
    exact h

theorem create_raw_12bit_pair_bytes_witness :
    ∃ out : List Nat,
      create_raw_12bit [⟨0x12, 0x34, 0x56⟩, ⟨0x78, 0x9A, 0xBC⟩, ⟨0xDE, 0xF0, 0x12⟩]
          ((3 : Nat) : Int) ⟨none, some "out.raw", FORMAT_RAW, 12, UNSET, none, UNSET⟩
          ⟨true, none⟩
        = some (1, { writable := true,
                     content := some ((if UNSET = APPEND then [] else []) ++ out) }) ∧
      ∀ (j : Nat) (p q : pixel),
        [(⟨0x12, 0x34, 0x56⟩ : pixel), ⟨0x78, 0x9A, 0xBC⟩, ⟨0xDE, 0xF0, 0x12⟩][2 * j]? = some p →
        [(⟨0x12, 0x34, 0x56⟩ : pixel), ⟨0x78, 0x9A, 0xBC⟩, ⟨0xDE, 0xF0, 0x12⟩][2 * j + 1]?
          = some q →
        out[3 * j]? = some ((p.r &&& 0xF0) ||| (p.g >>> 4)) ∧
        out[3 * j + 1]? = some ((p.b &&& 0xF0) ||| (q.r >>> 4)) ∧
        out[3 * j + 2]? = some ((q.g &&& 0xF0) ||| (q.b >>> 4)) :=
  create_raw_12bit_pair_bytes [⟨0x12, 0x34, 0x56⟩, ⟨0x78, 0x9A, 0xBC⟩, ⟨0xDE, 0xF0, 0x12⟩]
    ((3 : Nat) : Int) ⟨none, some "out.raw", FORMAT_RAW, 12, UNSET, none, UNSET⟩ ⟨true, none⟩
    (by decide) rfl rfl

/-- C4. 12 bit packer, output length: when `pixels` is the number `n` of pixels in
the buffer and the destination can be opened, `create_raw_12bit` returns 1 and
writes `3*n/2` bytes when `n` is even and `3*(n-1)/2 + 2` bytes when `n` is odd. -/
theorem create_raw_12bit_length (buf : List pixel) (pixels : Int) (o : options)
    (dst : OutFile) (hpixels : pixels = (buf.length : Int)) (hopen : dst.writable = true) :
    ∃ out : List Nat,
      create_raw_12bit buf pixels o dst
        = some (1, { writable := true,
                     content := some ((if o.append = APPEND then dst.content.getD [] else [])
                                        ++ out) }) ∧
      (buf.length % 2 = 0 → out.length = 3 * buf.length / 2) ∧
      (buf.length % 2 = 1 → out.length = 3 * (buf.length - 1) / 2 + 2) := by
  refine ⟨bytes12 buf, ?_, ?_, ?_⟩
  · simp only [create_raw_12bit, hopen]
    rw [create_raw_12bit_loop_eq pixels buf 0 (by simp [hpixels])]
    simp
  · intro h; rw [bytes12_length]; omega
  · intro h; rw [bytes12_length]; omega

theorem create_raw_12bit_length_witness :
    ∃ out : List Nat,
      create_raw_12bit [⟨0x12, 0x34, 0x56⟩, ⟨0x78, 0x9A, 0xBC⟩, ⟨0xDE, 0xF0, 0x12⟩]
          ((3 : Nat) : Int) ⟨none, some "out.raw", FORMAT_RAW, 12, UNSET, none, UNSET⟩
          ⟨true, none⟩
        = some (1, { writable := true,
                     content := some ((if UNSET = APPEND then [] else []) ++ out) }) ∧
      (3 % 2 = 0 → out.length = 3 * 3 / 2) ∧
      (3 % 2 = 1 → out.length = 3 * (3 - 1) / 2 + 2) :=
  create_raw_12bit_length [⟨0x12, 0x34, 0x56⟩, ⟨0x78, 0x9A, 0xBC⟩, ⟨0xDE, 0xF0, 0x12⟩]
    ((3 : Nat) : Int) ⟨none, some "out.raw", FORMAT_RAW, 12, UNSET, none, UNSET⟩ ⟨true, none⟩
    rfl rfl

/-- C5, as the claim states it, fails: a buffer of one pixel makes
`create_raw_12bit` write two bytes, and changing only the blue value of that
pixel from 0x00 to 0xF0 changes the second byte. -/
theorem create_raw_12bit_last_blue_counterexample :
    create_raw_12bit [⟨0x10, 0x20, 0x00⟩] 1
        ⟨none, some "out.raw", FORMAT_RAW, 12, UNSET, none, UNSET⟩ ⟨true, none⟩
      = some (1, ⟨true, some [0x12, 0x00]⟩) ∧
    create_raw_12bit [⟨0x10, 0x20, 0xF0⟩] 1
        ⟨none, some "out.raw", FORMAT_RAW, 12, UNSET, none, UNSET⟩ ⟨true, none⟩
      = some (1, ⟨true, some [0x12, 0xF0]⟩) := by
  decide

/-- C5, amended.  12 bit packer, odd pixel count: for a buffer `init ++ [p]` with
an odd number of pixels, `create_raw_12bit` writes what it writes for `init`,
followed by two bytes for the final pixel: `(R & 0xF0) | (G >> 4)` and
`B & 0xF0`.  No third byte is written, and a change of the blue value of the
final pixel that keeps its high four bits leaves the output unchanged. -/
theorem create_raw_12bit_odd_last (init : List pixel) (p : pixel) (pixels : Int)
    (o : options) (dst : OutFile) (hp : p.r < 256 ∧ p.g < 256 ∧ p.b < 256)
    (heven : init.length % 2 = 0) (hpixels : pixels = ((init ++ [p]).length : Int))
    (hopen : dst.writable = true) :
    ∃ out0 : List Nat,
      create_raw_12bit init (init.length : Int) o dst
        = some (1, { writable := true,
                     content := some ((if o.append = APPEND then dst.content.getD [] else [])
                                        ++ out0) }) ∧
      create_raw_12bit (init ++ [p]) pixels o dst
        = some (1, { writable := true,
                     content := some ((if o.append = APPEND then dst.content.getD [] else [])
                       ++ (out0 ++ [(p.r &&& 0xF0) ||| (p.g >>> 4), p.b &&& 0xF0])) }) ∧
      ∀ b : Nat, b < 256 → b &&& 0xF0 = p.b &&& 0xF0 →
        create_raw_12bit (init ++ [{ p with b := b }]) pixels o dst
          = create_raw_12bit (init ++ [p]) pixels o dst := by
  have key : ∀ q : pixel, q.r < 256 ∧ q.g < 256 ∧ q.b < 256 →
      create_raw_12bit (init ++ [q]) pixels o dst
        = some (1, { writable := true,
                     content := some ((if o.append = APPEND then dst.content.getD [] else [])
                       ++ (bytes12 init ++ [(q.r &&& 0xF0) ||| (q.g >>> 4), q.b &&& 0xF0])) }) := by
    intro q hq
    simp only [create_raw_12bit, hopen]
    rw [create_raw_12bit_loop_eq pixels (init ++ [q]) 0 (by simp [hpixels]),
      bytes12_append_last init q heven, nibbles_closed q.r q.g hq.1 hq.2.1,
      u8_and_not32_15 q.b hq.2.2]
    simp
  refine ⟨bytes12 init, ?_, key p hp, ?_⟩
  · simp only [create_raw_12bit, hopen]
    rw [create_raw_12bit_loop_eq (init.length : Int) init 0 (by simp)]
    simp
  · intro b hb hsame
    rw [key p hp, key { p with b := b } ⟨hp.1, hp.2.1, hb⟩]
    simp only [hsame]

theorem create_raw_12bit_odd_last_witness :
    ∃ out0 : List Nat,
      create_raw_12bit [⟨0x12, 0x34, 0x56⟩, ⟨0x78, 0x9A, 0xBC⟩] ((2 : Nat) : Int)
          ⟨none, some "out.raw", FORMAT_RAW, 12, UNSET, none, UNSET⟩ ⟨true, none⟩
        = some (1, { writable := true,
                     content := some ((if UNSET = APPEND then [] else []) ++ out0) }) ∧
      create_raw_12bit ([⟨0x12, 0x34, 0x56⟩, ⟨0x78, 0x9A, 0xBC⟩] ++ [⟨0xDE, 0xF0, 0x12⟩])
          ((3 : Nat) : Int) ⟨none, some "out.raw", FORMAT_RAW, 12, UNSET, none, UNSET⟩
          ⟨true, none⟩
        = some (1, { writable := true,
                     content := some ((if UNSET = APPEND then [] else [])
                       ++ (out0 ++ [(0xDE &&& 0xF0) ||| (0xF0 >>> 4), 0x12 &&& 0xF0])) }) ∧
      ∀ b : Nat, b < 256 → b &&& 0xF0 = 0x12 &&& 0xF0 →
        create_raw_12bit ([⟨0x12, 0x34, 0x56⟩, ⟨0x78, 0x9A, 0xBC⟩] ++ [⟨0xDE, 0xF0, b⟩])
            ((3 : Nat) : Int) ⟨none, some "out.raw", FORMAT_RAW, 12, UNSET, none, UNSET⟩
            ⟨true, none⟩
          = create_raw_12bit
              ([⟨0x12, 0x34, 0x56⟩, ⟨0x78, 0x9A, 0xBC⟩] ++ [⟨0xDE, 0xF0, 0x12⟩])
              ((3 : Nat) : Int) ⟨none, some "out.raw", FORMAT_RAW, 12, UNSET, none, UNSET⟩
              ⟨true, none⟩ :=
  create_raw_12bit_odd_last [⟨0x12, 0x34, 0x56⟩, ⟨0x78, 0x9A, 0xBC⟩] ⟨0xDE, 0xF0, 0x12⟩
    ((3 : Nat) : Int) ⟨none, some "out.raw", FORMAT_RAW, 12, UNSET, none, UNSET⟩ ⟨true, none⟩
    (by decide) rfl rfl rfl

/-- C6. 16 bit packer, first byte: when `pixels` is the number of pixels in the
buffer and the destination can be opened, `create_raw_16bit` returns 1 and
writes `2 * pixels` bytes, and byte `2*i` is `(R & 0xF8) | (G >> 5)` of pixel
`i`, whatever the initial content of `b2`. -/
theorem create_raw_16bit_first_byte (buf : List pixel) (pixels : Int) (o : options)
    (dst : OutFile) (b2_init : Nat) (hbuf : ∀ p ∈ buf, p.r < 256 ∧ p.g < 256 ∧ p.b < 256)
    (hpixels : pixels = (buf.length : Int)) (hopen : dst.writable = true) :
    ∃ out : List Nat,
      create_raw_16bit buf pixels o dst b2_init
        = some (1, { writable := true,
                     content := some ((if o.append = APPEND then dst.content.getD [] else [])
                                        ++ out) }) ∧
      out.length = 2 * buf.length ∧
      ∀ (i : Nat) (p : pixel), buf[i]? = some p →
        out[2 * i]? = some ((p.r &&& 0xF8) ||| (p.g >>> 5)) := by
  obtain ⟨out, hout, hlen, hget⟩ :=
    create_raw_16bit_loop_first pixels buf 0 b2_init (by simp [hpixels]) hbuf
  refine ⟨out, ?_, hlen, hget⟩
  simp only [create_raw_16bit, hopen]
  rw [hout]
  simp

theorem create_raw_16bit_first_byte_witness :
    ∃ out : List Nat,
      create_raw_16bit [⟨0xFF, 0x80, 0x40⟩, ⟨0x12, 0x34, 0x56⟩] ((2 : Nat) : Int)
          ⟨none, some "out.raw", FORMAT_RAW, 16, APPEND, none, UNSET⟩ ⟨true, some [7]⟩ 0xAB
        = some (1, { writable := true,
                     content := some ((if APPEND = APPEND then [7] else []) ++ out) }) ∧
      out.length = 2 * 2 ∧
      ∀ (i : Nat) (p : pixel),
        [(⟨0xFF, 0x80, 0x40⟩ : pixel), ⟨0x12, 0x34, 0x56⟩][i]? = some p →
        out[2 * i]? = some ((p.r &&& 0xF8) ||| (p.g >>> 5)) :=
  create_raw_16bit_first_byte [⟨0xFF, 0x80, 0x40⟩, ⟨0x12, 0x34, 0x56⟩] ((2 : Nat) : Int)
    ⟨none, some "out.raw", FORMAT_RAW, 16, APPEND, none, UNSET⟩ ⟨true, some [7]⟩ 0xAB
    (by decide) rfl rfl

/-- C7 fails on the code.  For the buffer (0, 4, 0), (0, 0, 0) and every initial
content of `b2`, `create_raw_16bit` writes the same second byte `x`, not 0, for
both pixels, where the claim gives `((0 << 3) & 0xE0) | (0 >> 3) = 0` for the
second pixel.  With `b2` initially 0 the pixel (0, 0, 0) alone is written as
0x00 0x00, and after the pixel (0, 4, 0) as 0x00 0x20. -/
theorem create_raw_16bit_second_byte_carried (b2_init : Nat) :
    (∃ x : Nat, x ≠ 0 ∧
      create_raw_16bit [⟨0, 4, 0⟩, ⟨0, 0, 0⟩] 2
          ⟨none, some "out.raw", FORMAT_RAW, 16, UNSET, none, UNSET⟩ ⟨true, none⟩ b2_init
        = some (1, ⟨true, some [0x00, x, 0x00, x]⟩)) ∧
    create_raw_16bit [⟨0, 0, 0⟩] 1
        ⟨none, some "out.raw", FORMAT_RAW, 16, UNSET, none, UNSET⟩ ⟨true, none⟩ 0
      = some (1, ⟨true, some [0x00, 0x00]⟩) ∧
    create_raw_16bit [⟨0, 4, 0⟩, ⟨0, 0, 0⟩] 2
        ⟨none, some "out.raw", FORMAT_RAW, 16, UNSET, none, UNSET⟩ ⟨true, none⟩ 0
      = some (1, ⟨true, some [0x00, 0x20, 0x00, 0x20]⟩) := by
  refine ⟨?_, by decide, by decide⟩
  have hd := second16_carried (b2_init % 256) (Nat.mod_lt _ (by decide))
  rw [← u8_or_left b2_init (4 <<< 3)] at hd
  refine ⟨u8 (u8 (u8 (b2_init ||| (4 <<< 3)) &&& not32 (0xFF >>> 3)) ||| (0 >>> 3)), hd.1, ?_⟩
  have hloop : create_raw_16bit_loop 2 0 b2_init [⟨0, 4, 0⟩, ⟨0, 0, 0⟩]
      = some [0x00, u8 (u8 (u8 (b2_init ||| (4 <<< 3)) &&& not32 (0xFF >>> 3)) ||| (0 >>> 3)),
          0x00,
          u8 (u8 (u8 (u8 (u8 (u8 (b2_init ||| (4 <<< 3)) &&& not32 (0xFF >>> 3)) ||| (0 >>> 3))
            ||| (0 <<< 3)) &&& not32 (0xFF >>> 3)) ||| (0 >>> 3))] := rfl
  rw [hd.2] at hloop
  simp only [create_raw_16bit, hloop]
  rfl

theorem le_value_take_drop (data : List Nat) :
    ∀ (size pos : Nat), pos + size ≤ data.length →
      le_value ((data.drop pos).take size) = le_at data pos size := by
  intro size
  induction size with
  | zero => intro pos _; simp [le_value, le_at]
  | succ n ih =>
    intro pos h
    have hpos : pos < data.length := by omega
    rw [List.drop_eq_getElem_cons hpos, List.take_succ_cons, le_value, le_at,
      ih (pos + 1) (by omega)]
    simp [List.getD_eq_getElem?_getD, List.getElem?_eq_getElem hpos]

theorem length_take_drop (data : List Nat) (size pos : Nat) (h : pos + size ≤ data.length) :
    ((data.drop pos).take size).length = size := by
  simp only [List.length_take, List.length_drop]; omega

theorem fread_full (field size : Nat) (data : List Nat) (pos : Nat)
    (h : pos + size ≤ data.length) :
    fread field size ⟨data, pos⟩ = (le_at data pos size, ⟨data, pos + size⟩) := by
  have hlt : field % 256 ^ size / 256 ^ size = 0 :=
    Nat.div_eq_of_lt (Nat.mod_lt _ (Nat.pos_pow_of_pos _ (by decide)))
  simp only [fread, length_take_drop data size pos h, le_value_take_drop data size pos h, hlt]
  simp

theorem fread_field_full (size : Nat) (get : bmp_header → Nat)
    (set : bmp_header → Nat → bmp_header) (data : List Nat) (pos : Nat) (h : bmp_header)
    (hle : pos + size ≤ data.length) :
    fread_field size get set (⟨data, pos⟩, h)
      = (⟨data, pos + size⟩, set h (le_at data pos size)) := by
  simp only [fread_field, fread_full _ size data pos hle]

theorem fseek_cur_4 (data : List Nat) (pos : Nat) :
    fseek_cur ⟨data, pos⟩ 4 = (0, ⟨data, pos + 4⟩) := by
  have h : ¬ ((pos : Int) + 4 < 0) := by omega
  simp only [fseek_cur, if_neg h]
  congr 2

/-- What `get_header` does on a stream of at least 54 bytes, read from its start. -/
theorem get_header_full (data : List Nat) (h : bmp_header) (hlen : 54 ≤ data.length) :
    get_header ⟨data, 0⟩ h =
      if le_at data 0 2 ≠ 0x4D42 then
        ⟨0, ⟨data, 2⟩, { h with identifier := le_at data 0 2 }, "Unknown identifier.\n"⟩
      else if le_at data 26 2 ≠ 1 then
        ⟨0, ⟨data, 28⟩,
          { h with
            identifier := le_at data 0 2, file_size := le_at data 2 4,
            data_offset := le_at data 10 4, header_size := le_at data 14 4,
            width := le_at data 18 4, height := le_at data 22 4, planes := le_at data 26 2 },
          "planes should be 1\n"⟩
      else if le_at data 28 2 ≠ 24 then
        ⟨0, ⟨data, 30⟩,
          { h with
            identifier := le_at data 0 2, file_size := le_at data 2 4,
            data_offset := le_at data 10 4, header_size := le_at data 14 4,
            width := le_at data 18 4, height := le_at data 22 4, planes := le_at data 26 2,
            bpp := le_at data 28 2 },
          "image should be 24 bits per pixel\n"⟩
      else if le_at data 30 4 ≠ 0 then
        ⟨0, ⟨data, 34⟩,
          { h with
            identifier := le_at data 0 2, file_size := le_at data 2 4,
            data_offset := le_at data 10 4, header_size := le_at data 14 4,
            width := le_at data 18 4, height := le_at data 22 4, planes := le_at data 26 2,
            bpp := le_at data 28 2, compression := le_at data 30 4 },
          "bmp file should be not compressed\n"⟩
      else
        ⟨1, ⟨data, 54⟩,
          { identifier := le_at data 0 2, file_size := le_at data 2 4,
            data_offset := le_at data 10 4, header_size := le_at data 14 4,
            width := le_at data 18 4, height := le_at data 22 4, planes := le_at data 26 2,
            bpp := le_at data 28 2, compression := le_at data 30 4,
            data_size := le_at data 34 4, hresolution := le_at data 38 4,
            vresolution := le_at data 42 4, colors := le_at data 46 4,
            important_colors := le_at data 50 4 },
          ""⟩ := by
  simp (disch := omega) only [get_header, fread_field_full, fseek_cur_4, Nat.zero_add,
    Nat.reduceAdd, ne_eq, not_true_eq_false, if_false]

theorem le_at_congr (data data2 : List Nat) :
    ∀ (size off : Nat), (∀ k, off ≤ k → k < off + size → data2.getD k 0 = data.getD k 0) →
      le_at data2 off size = le_at data off size := by
  intro size
  induction size with
  | zero => intro off _; rfl
  | succ n ih =>
    intro off hk
    rw [le_at, le_at, hk off (Nat.le_refl _) (by omega),
      ih (off + 1) (fun k h1 h2 => hk k (by omega) (by omega))]

/-- C8. Header field decoding: on a stream of at least 54 bytes whose identifier,
planes, bits-per-pixel and compression fields are 0x4D42, 1, 24 and 0,
`get_header` returns 1, having read 54 bytes, and each of the 14 fields is the
little-endian unsigned integer at its documented offset and size; the bytes
0x06..0x09 are ignored: changing them changes neither the result nor the header. -/
theorem get_header_decodes (data : List Nat) (h : bmp_header) (hlen : 54 ≤ data.length)
    (hid : le_at data 0x00 2 = 0x4D42) (hplanes : le_at data 0x1A 2 = 1)
    (hbpp : le_at data 0x1C 2 = 24) (hcomp : le_at data 0x1E 4 = 0) :
    get_header ⟨data, 0⟩ h
      = ⟨1, ⟨data, 54⟩,
          { identifier := le_at data 0x00 2, file_size := le_at data 0x02 4,
            data_offset := le_at data 0x0A 4, header_size := le_at data 0x0E 4,
            width := le_at data 0x12 4, height := le_at data 0x16 4,
            planes := le_at data 0x1A 2, bpp := le_at data 0x1C 2,
            compression := le_at data 0x1E 4, data_size := le_at data 0x22 4,
            hresolution := le_at data 0x26 4, vresolution := le_at data 0x2A 4,
            colors := le_at data 0x2E 4, important_colors := le_at data 0x32 4 },
          ""⟩ ∧
    ∀ data2 : List Nat, data2.length = data.length →
      (∀ k, k < 0x06 ∨ 0x09 < k → data2.getD k 0 = data.getD k 0) →
      (get_header ⟨data2, 0⟩ h).ret = 1 ∧
      (get_header ⟨data2, 0⟩ h).h = (get_header ⟨data, 0⟩ h).h := by
  have main : ∀ d : List Nat, 54 ≤ d.length → le_at d 0 2 = 0x4D42 → le_at d 26 2 = 1 →
      le_at d 28 2 = 24 → le_at d 30 4 = 0 →
      get_header ⟨d, 0⟩ h
        = ⟨1, ⟨d, 54⟩,
            { identifier := le_at d 0 2, file_size := le_at d 2 4,
              data_offset := le_at d 10 4, header_size := le_at d 14 4,
              width := le_at d 18 4, height := le_at d 22 4,
              planes := le_at d 26 2, bpp := le_at d 28 2,
              compression := le_at d 30 4, data_size := le_at d 34 4,
              hresolution := le_at d 38 4, vresolution := le_at d 42 4,
              colors := le_at d 46 4, important_colors := le_at d 50 4 },
            ""⟩ := by
    intro d hd h1 h2 h3 h4
    rw [get_header_full d h hd]
    simp only [h1, h2, h3, h4, ne_eq, not_true_eq_false, if_false]
  refine ⟨main data hlen hid hplanes hbpp hcomp, ?_⟩
  intro data2 hlen2 hsame
  have c : ∀ size off, (off + size ≤ 6 ∨ 10 ≤ off) → le_at data2 off size = le_at data off size :=
    fun size off ho => le_at_congr data data2 size off
      (fun k h1 h2 => hsame k (by omega))
  rw [main data hlen hid hplanes hbpp hcomp,
    main data2 (by omega) (by rw [c 2 0 (by omega)]; exact hid)
      (by rw [c 2 26 (by omega)]; exact hplanes) (by rw [c 2 28 (by omega)]; exact hbpp)
      (by rw [c 4 30 (by omega)]; exact hcomp)]
  refine ⟨rfl, ?_⟩
  simp only [c 2 0 (by omega), c 4 2 (by omega), c 4 10 (by omega), c 4 14 (by omega),
    c 4 18 (by omega), c 4 22 (by omega), c 2 26 (by omega), c 2 28 (by omega),
    c 4 30 (by omega), c 4 34 (by omega), c 4 38 (by omega), c 4 42 (by omega),
    c 4 46 (by omega), c 4 50 (by omega)]

theorem get_header_decodes_witness :
    get_header ⟨sample_header 24 0, 0⟩ ⟨7, 7, 7, 7, 7, 7, 7, 7, 7, 7, 7, 7, 7, 7⟩
      = ⟨1, ⟨sample_header 24 0, 54⟩,
          ⟨0x4D42, 0x46, 0x36, 0x28, 2, 2, 1, 24, 0, 0x10, 0x0B13, 0x0B13, 0, 0⟩, ""⟩ :=
  (get_header_decodes (sample_header 24 0) ⟨7, 7, 7, 7, 7, 7, 7, 7, 7, 7, 7, 7, 7, 7⟩
    (by decide) (by decide) (by decide) (by decide) (by decide)).1

/-- C9. Header validation: on a stream of at least 54 bytes `get_header` returns 1
exactly when identifier = 0x4D42, planes = 1, bits-per-pixel = 24 and
compression = 0, and returns 0 otherwise; the message it prints then is that of
the first failing check in the order identifier ("Unknown identifier."), planes
("planes should be 1"), bits-per-pixel ("image should be 24 bits per pixel"),
compression ("bmp file should be not compressed"), whatever the later fields. -/
theorem get_header_validation (data : List Nat) (h : bmp_header) (hlen : 54 ≤ data.length) :
    ((get_header ⟨data, 0⟩ h).ret = 1 ↔
      (le_at data 0x00 2 = 0x4D42 ∧ le_at data 0x1A 2 = 1 ∧ le_at data 0x1C 2 = 24 ∧
        le_at data 0x1E 4 = 0)) ∧
    ((get_header ⟨data, 0⟩ h).ret ≠ 1 → (get_header ⟨data, 0⟩ h).ret = 0) ∧
    (le_at data 0x00 2 ≠ 0x4D42 →
      (get_header ⟨data, 0⟩ h).ret = 0 ∧
      (get_header ⟨data, 0⟩ h).out = "Unknown identifier.\n") ∧
    (le_at data 0x00 2 = 0x4D42 → le_at data 0x1A 2 ≠ 1 →
      (get_header ⟨data, 0⟩ h).ret = 0 ∧
      (get_header ⟨data, 0⟩ h).out = "planes should be 1\n") ∧
    (le_at data 0x00 2 = 0x4D42 → le_at data 0x1A 2 = 1 → le_at data 0x1C 2 ≠ 24 →
      (get_header ⟨data, 0⟩ h).ret = 0 ∧
      (get_header ⟨data, 0⟩ h).out = "image should be 24 bits per pixel\n") ∧
    (le_at data 0x00 2 = 0x4D42 → le_at data 0x1A 2 = 1 → le_at data 0x1C 2 = 24 →
      le_at data 0x1E 4 ≠ 0 →
      (get_header ⟨data, 0⟩ h).ret = 0 ∧
      (get_header ⟨data, 0⟩ h).out = "bmp file should be not compressed\n") := by
  rw [get_header_full data h hlen]
  by_cases h1 : le_at data 0 2 = 0x4D42
  · by_cases h2 : le_at data 26 2 = 1
    · by_cases h3 : le_at data 28 2 = 24
      · by_cases h4 : le_at data 30 4 = 0
        · simp [h1, h2, h3, h4]
        · simp [h1, h2, h3, h4]
      · simp [h1, h2, h3]
    · simp [h1, h2]
  · simp [h1]

theorem get_header_validation_witness :
    (get_header ⟨sample_header 32 0, 0⟩ ⟨0, 0, 0, 0, 0, 0, 0, 0, 0, 0, 0, 0, 0, 0⟩).ret = 0 ∧
    (get_header ⟨sample_header 32 0, 0⟩ ⟨0, 0, 0, 0, 0, 0, 0, 0, 0, 0, 0, 0, 0, 0⟩).out
      = "image should be 24 bits per pixel\n" :=
  (get_header_validation (sample_header 32 0) ⟨0, 0, 0, 0, 0, 0, 0, 0, 0, 0, 0, 0, 0, 0⟩
    (by decide)).2.2.2.2.1 (by decide) (by decide) (by decide)

/-- C10, as the claim states it, fails: on the header of a 32 bits per pixel BMP
file `get_header` returns 0 and the header structure of the caller, all zero
before the call, holds the eight fields decoded up to the failing check. -/
theorem get_header_not_atomic_counterexample :
    (get_header ⟨sample_header 32 0, 0⟩ ⟨0, 0, 0, 0, 0, 0, 0, 0, 0, 0, 0, 0, 0, 0⟩).ret = 0 ∧
    (get_header ⟨sample_header 32 0, 0⟩ ⟨0, 0, 0, 0, 0, 0, 0, 0, 0, 0, 0, 0, 0, 0⟩).h
      = ⟨0x4D42, 0x46, 0x36, 0x28, 2, 2, 1, 32, 0, 0, 0, 0, 0, 0⟩ ∧
    (get_header ⟨sample_header 32 0, 0⟩ ⟨0, 0, 0, 0, 0, 0, 0, 0, 0, 0, 0, 0, 0, 0⟩).h
      ≠ ⟨0, 0, 0, 0, 0, 0, 0, 0, 0, 0, 0, 0, 0, 0⟩ := by
  decide

/-- Whenever `get_header` returns 0, the fields that the code reads after the
failing check are as they were before the call. -/
theorem get_header_failure_kept (fp : FILE) (h : bmp_header)
    (hret : (get_header fp h).ret = 0) :
    ((get_header fp h).h.data_size = h.data_size ∧
      (get_header fp h).h.hresolution = h.hresolution ∧
      (get_header fp h).h.vresolution = h.vresolution ∧
      (get_header fp h).h.colors = h.colors ∧
      (get_header fp h).h.important_colors = h.important_colors) ∧
    (get_header fp h).h.identifier = (fread h.identifier 2 fp).1 ∧
    ((get_header fp h).h.identifier ≠ 0x4D42 →
      (get_header fp h).h = { h with identifier := (get_header fp h).h.identifier }) ∧
    ((get_header fp h).h.identifier = 0x4D42 → (get_header fp h).h.planes ≠ 1 →
      (get_header fp h).h.bpp = h.bpp ∧ (get_header fp h).h.compression = h.compression) ∧
    ((get_header fp h).h.identifier = 0x4D42 → (get_header fp h).h.planes = 1 →
      (get_header fp h).h.bpp ≠ 24 → (get_header fp h).h.compression = h.compression) := by
  generalize hr : get_header fp h = r at hret ⊢
  simp only [get_header] at hr
  split_ifs at hr with c1 c2 c3 c4 c5 <;> subst hr
  · exact ⟨⟨rfl, rfl, rfl, rfl, rfl⟩, rfl, fun _ => rfl, fun e => absurd e c1,
      fun e => absurd e c1⟩
  · exact ⟨⟨rfl, rfl, rfl, rfl, rfl⟩, rfl, fun e => absurd e c1, fun _ _ => ⟨rfl, rfl⟩,
      fun _ _ _ => rfl⟩
  · exact ⟨⟨rfl, rfl, rfl, rfl, rfl⟩, rfl, fun e => absurd e c1, fun _ _ => ⟨rfl, rfl⟩,
      fun _ e => absurd e c3⟩
  · exact ⟨⟨rfl, rfl, rfl, rfl, rfl⟩, rfl, fun e => absurd e c1, fun _ e => absurd e c3,
      fun _ _ _ => rfl⟩
  · exact ⟨⟨rfl, rfl, rfl, rfl, rfl⟩, rfl, fun e => absurd e c1, fun _ e => absurd e c3,
      fun _ _ e => absurd e c4⟩
  · exact absurd (show (1 : Int) = 0 from hret) (by decide)

/-- On a stream of at least 54 bytes read from its start, a failing `get_header`
leaves every field read up to the failing check with the value decoded from
the stream, and the other fields as they were. -/
theorem get_header_failure_decoded (data : List Nat) (h : bmp_header)
    (hlen : 54 ≤ data.length) (hret : (get_header ⟨data, 0⟩ h).ret = 0) :
    ((get_header ⟨data, 0⟩ h).h.identifier ≠ 0x4D42 →
      (get_header ⟨data, 0⟩ h).h = { h with identifier := le_at data 0x00 2 }) ∧
    ((get_header ⟨data, 0⟩ h).h.identifier = 0x4D42 → (get_header ⟨data, 0⟩ h).h.planes ≠ 1 →
      (get_header ⟨data, 0⟩ h).h
        = { h with
            identifier := le_at data 0x00 2, file_size := le_at data 0x02 4,
            data_offset := le_at data 0x0A 4, header_size := le_at data 0x0E 4,
            width := le_at data 0x12 4, height := le_at data 0x16 4,
            planes := le_at data 0x1A 2 }) ∧
    ((get_header ⟨data, 0⟩ h).h.identifier = 0x4D42 → (get_header ⟨data, 0⟩ h).h.planes = 1 →
      (get_header ⟨data, 0⟩ h).h.bpp ≠ 24 →
      (get_header ⟨data, 0⟩ h).h
        = { h with
            identifier := le_at data 0x00 2, file_size := le_at data 0x02 4,
            data_offset := le_at data 0x0A 4, header_size := le_at data 0x0E 4,
            width := le_at data 0x12 4, height := le_at data 0x16 4,
            planes := le_at data 0x1A 2, bpp := le_at data 0x1C 2 }) ∧
    ((get_header ⟨data, 0⟩ h).h.identifier = 0x4D42 → (get_header ⟨data, 0⟩ h).h.planes = 1 →
      (get_header ⟨data, 0⟩ h).h.bpp = 24 →
      (get_header ⟨data, 0⟩ h).h.compression ≠ 0 ∧
      (get_header ⟨data, 0⟩ h).h
        = { h with
            identifier := le_at data 0x00 2, file_size := le_at data 0x02 4,
            data_offset := le_at data 0x0A 4, header_size := le_at data 0x0E 4,
            width := le_at data 0x12 4, height := le_at data 0x16 4,
            planes := le_at data 0x1A 2, bpp := le_at data 0x1C 2,
            compression := le_at data 0x1E 4 }) := by
  rw [get_header_full data h hlen] at hret ⊢
  split_ifs at hret ⊢ with c1 c2 c3 c4
  · exact ⟨fun _ => rfl, fun e => absurd e c1, fun e => absurd e c1, fun e => absurd e c1⟩
  · exact ⟨fun e => absurd (not_not.mp c1) e, fun _ _ => rfl, fun _ e => absurd e c2,
      fun _ e => absurd e c2⟩
  · exact ⟨fun e => absurd (not_not.mp c1) e, fun _ e => absurd (not_not.mp c2) e,
      fun _ _ _ => rfl, fun _ _ e => absurd e c3⟩
  · exact ⟨fun e => absurd (not_not.mp c1) e, fun _ e => absurd (not_not.mp c2) e,
      fun _ _ e => absurd (not_not.mp c3) e, fun _ _ _ => ⟨c4, rfl⟩⟩
  · exact absurd (show (1 : Int) = 0 from hret) (by decide)

/-- C10, amended.  Whenever `get_header` returns 0, the fields of the header
structure of the caller that the code reads after the failing check are as
they were before the call: `data_size`, `hresolution`, `vresolution`, `colors`
and `important_colors` in every case, every field but `identifier` when the
identifier check fails, `bpp` and `compression` when the planes check fails,
`compression` when the bits-per-pixel check fails.  The identifier field holds
what was read from the stream.  On a stream that holds the 54 header bytes,
read from its start, the header afterwards is the header before with every
field read up to and including the failing check overwritten by the
little-endian value at its offset: the identifier alone when the identifier
check fails; the identifier, the file size, the data offset, the header size,
the width, the height and the planes when the planes check fails; these and
the bits per pixel when that check fails; these and the compression when,
all other checks passing, the compression check fails. -/
theorem get_header_failure_fields (fp : FILE) (h : bmp_header)
    (hret : (get_header fp h).ret = 0) :
    ((get_header fp h).h.data_size = h.data_size ∧
      (get_header fp h).h.hresolution = h.hresolution ∧
      (get_header fp h).h.vresolution = h.vresolution ∧
      (get_header fp h).h.colors = h.colors ∧
      (get_header fp h).h.important_colors = h.important_colors) ∧
    (get_header fp h).h.identifier = (fread h.identifier 2 fp).1 ∧
    ((get_header fp h).h.identifier ≠ 0x4D42 →
      (get_header fp h).h = { h with identifier := (get_header fp h).h.identifier }) ∧
    ((get_header fp h).h.identifier = 0x4D42 → (get_header fp h).h.planes ≠ 1 →
      (get_header fp h).h.bpp = h.bpp ∧ (get_header fp h).h.compression = h.compression) ∧
    ((get_header fp h).h.identifier = 0x4D42 → (get_header fp h).h.planes = 1 →
      (get_header fp h).h.bpp ≠ 24 → (get_header fp h).h.compression = h.compression) ∧
    (fp.pos = 0 → 54 ≤ fp.data.length →
      ((get_header fp h).h.identifier ≠ 0x4D42 →
        (get_header fp h).h = { h with identifier := le_at fp.data 0x00 2 }) ∧
      ((get_header fp h).h.identifier = 0x4D42 → (get_header fp h).h.planes ≠ 1 →
        (get_header fp h).h
          = { h with
              identifier := le_at fp.data 0x00 2, file_size := le_at fp.data 0x02 4,
              data_offset := le_at fp.data 0x0A 4, header_size := le_at fp.data 0x0E 4,
              width := le_at fp.data 0x12 4, height := le_at fp.data 0x16 4,
              planes := le_at fp.data 0x1A 2 }) ∧
      ((get_header fp h).h.identifier = 0x4D42 → (get_header fp h).h.planes = 1 →
        (get_header fp h).h.bpp ≠ 24 →
        (get_header fp h).h
          = { h with
              identifier := le_at fp.data 0x00 2, file_size := le_at fp.data 0x02 4,
              data_offset := le_at fp.data 0x0A 4, header_size := le_at fp.data 0x0E 4,
              width := le_at fp.data 0x12 4, height := le_at fp.data 0x16 4,
              planes := le_at fp.data 0x1A 2, bpp := le_at fp.data 0x1C 2 }) ∧
      ((get_header fp h).h.identifier = 0x4D42 → (get_header fp h).h.planes = 1 →
        (get_header fp h).h.bpp = 24 →
        (get_header fp h).h.compression ≠ 0 ∧
        (get_header fp h).h
          = { h with
              identifier := le_at fp.data 0x00 2, file_size := le_at fp.data 0x02 4,
              data_offset := le_at fp.data 0x0A 4, header_size := le_at fp.data 0x0E 4,
              width := le_at fp.data 0x12 4, height := le_at fp.data 0x16 4,
              planes := le_at fp.data 0x1A 2, bpp := le_at fp.data 0x1C 2,
              compression := le_at fp.data 0x1E 4 })) := by
  obtain ⟨k1, k2, k3, k4, k5⟩ := get_header_failure_kept fp h hret
  refine ⟨k1, k2, k3, k4, k5, ?_⟩
  intro hpos hlen
  obtain ⟨data, pos⟩ := fp
  simp only at hpos hlen
  subst hpos
  exact get_header_failure_decoded data h hlen hret

theorem get_header_failure_fields_witness :
    (get_header ⟨sample_header 32 0, 0⟩ ⟨7, 7, 7, 7, 7, 7, 7, 7, 7, 7, 7, 7, 7, 7⟩).h.compression
      = 7 ∧
    (get_header ⟨sample_header 32 0, 0⟩ ⟨7, 7, 7, 7, 7, 7, 7, 7, 7, 7, 7, 7, 7, 7⟩).h
      = { (⟨7, 7, 7, 7, 7, 7, 7, 7, 7, 7, 7, 7, 7, 7⟩ : bmp_header) with
          identifier := le_at (sample_header 32 0) 0x00 2,
          file_size := le_at (sample_header 32 0) 0x02 4,
          data_offset := le_at (sample_header 32 0) 0x0A 4,
          header_size := le_at (sample_header 32 0) 0x0E 4,
          width := le_at (sample_header 32 0) 0x12 4,
          height := le_at (sample_header 32 0) 0x16 4,
          planes := le_at (sample_header 32 0) 0x1A 2,
          bpp := le_at (sample_header 32 0) 0x1C 2 } ∧
    (get_header ⟨sample_header 32 0, 0⟩ ⟨7, 7, 7, 7, 7, 7, 7, 7, 7, 7, 7, 7, 7, 7⟩).h
      = ⟨0x4D42, 0x46, 0x36, 0x28, 2, 2, 1, 32, 7, 7, 7, 7, 7, 7⟩ :=
  ⟨(get_header_failure_fields ⟨sample_header 32 0, 0⟩ ⟨7, 7, 7, 7, 7, 7, 7, 7, 7, 7, 7, 7, 7, 7⟩
      (by decide)).2.2.2.2.1 (by decide) (by decide) (by decide),
   ((get_header_failure_fields ⟨sample_header 32 0, 0⟩
      ⟨7, 7, 7, 7, 7, 7, 7, 7, 7, 7, 7, 7, 7, 7⟩ (by decide)).2.2.2.2.2 rfl (by decide)).2.2.1
      (by decide) (by decide) (by decide),
   by decide⟩

/-! ## The C array functions in closed form, and the pixel loader -/

theorem create_c_array_8bit_eq (buf : List pixel) (pixels : Int) (o : options) (h : bmp_header)
    (dst : OutFile) :
    create_c_array_8bit buf pixels o h dst
      = c_array_result (text " * Each pixel has 8 bits (RRRGGGBB).\n")
          (create_c_array_8bit_loop pixels 0 buf) pixels o h dst := rfl

theorem create_c_array_12bit_eq (buf : List pixel) (pixels : Int) (o : options)
    (h : bmp_header) (dst : OutFile) :
    create_c_array_12bit buf pixels o h dst
      = c_array_result (text (" * Each pixel has 12 bits, two pixels share three bytes "
            ++ "(RRRRGGGG BBBBRRRR GGGGBBBB).\n"))
          (create_c_array_12bit_loop pixels 0 buf) pixels o h dst := rfl

theorem create_c_array_16bit_eq (buf : List pixel) (pixels : Int) (o : options)
    (h : bmp_header) (dst : OutFile) (b2_init : Nat) :
    create_c_array_16bit buf pixels o h dst b2_init
      = c_array_result (text " * Each pixel has 16 bits (RRRRRGGG GGGBBBBB).\n")
          (create_c_array_16bit_loop pixels 0 b2_init buf) pixels o h dst := rfl

theorem create_c_array_24bit_eq (buf : List pixel) (pixels : Int) (o : options)
    (h : bmp_header) (dst : OutFile) :
    create_c_array_24bit buf pixels o h dst
      = c_array_result (text " * Each pixel has 24 bits (RRRRRRRR GGGGGGGG BBBBBBBB).\n")
          (create_c_array_24bit_loop pixels 0 buf) pixels o h dst := rfl

theorem fread_byte (field : Nat) (data : List Nat) (pos : Nat) (h : pos + 1 ≤ data.length) :
    fread field 1 ⟨data, pos⟩ = (data.getD pos 0, ⟨data, pos + 1⟩) := by
  rw [fread_full field 1 data pos h]
  simp [le_at]

theorem fseek_cur_nat (data : List Nat) (pos pad : Nat) :
    fseek_cur ⟨data, pos⟩ (pad : Int) = (0, ⟨data, pos + pad⟩) := by
  have h : ¬ ((pos : Int) + (pad : Int) < 0) := by omega
  simp only [fseek_cur, if_neg h]
  congr 2

theorem get_data_line_full (data : List Nat) :
    ∀ (n pos : Nat) (pix : List pixel), pos + 3 * n ≤ data.length → n ≤ pix.length →
      get_data_line n ⟨data, pos⟩ pix
        = some (⟨data, pos + 3 * n⟩, pixels_at data n pos, pix.drop n) := by
  intro n
  induction n with
  | zero => intro pos pix _ _; rfl
  | succ n ih =>
    intro pos pix hlen hpix
    match pix, hpix with
    | p :: pix1, hpix =>
      simp only [get_data_line, fread_byte _ data pos (by omega),
        fread_byte _ data (pos + 1) (by omega), fread_byte _ data (pos + 1 + 1) (by omega)]
      rw [ih (pos + 1 + 1 + 1) pix1 (by omega) (by simpa using hpix)]
      simp only [Option.map_some', pixels_at, List.drop_succ_cons]
      have e : pos + 1 + 1 + 1 + 3 * n = pos + 3 * (n + 1) := by omega
      have e3 : pos + 1 + 1 + 1 = pos + 3 := by omega
      have e2 : pos + 1 + 1 = pos + 2 := by omega
      rw [e, e3, e2]

theorem get_data_lines_full (data : List Nat) (w pad : Nat) :
    ∀ (n pos : Nat) (pix : List pixel), pos + n * (3 * w + pad) ≤ data.length →
      n * w ≤ pix.length →
      get_data_lines w (pad : Int) n ⟨data, pos⟩ pix
        = some (⟨data, pos + n * (3 * w + pad)⟩, rows_at data w pad n pos, pix.drop (n * w)) := by
  intro n
  induction n with
  | zero => intro pos pix _ _; simp [get_data_lines, rows_at]
  | succ n ih =>
    intro pos pix hlen hpix
    have e1 : (n + 1) * (3 * w + pad) = n * (3 * w + pad) + (3 * w + pad) := by ring
    have e2 : (n + 1) * w = n * w + w := by ring
    rw [e1] at hlen
    rw [e2] at hpix
    simp only [get_data_lines]
    rw [get_data_line_full data w pos pix (by omega) (by omega)]
    simp only [fseek_cur_nat]
    have hfp : (if (pad : Int) ≠ 0 then (⟨data, pos + 3 * w + pad⟩ : FILE)
        else ⟨data, pos + 3 * w⟩) = ⟨data, pos + (3 * w + pad)⟩ := by
      by_cases hp : (pad : Int) = 0
      · have : pad = 0 := by omega
        subst this; simp
      · simp [hp, Nat.add_assoc]
    rw [hfp, ih (pos + (3 * w + pad)) (pix.drop w) (by omega)
      (by simp only [List.length_drop]; omega)]
    simp only [Option.map_some', rows_at, List.drop_drop, e1, e2]
    congr 3
    · omega
    · congr 1; omega

theorem pixels_at_length (data : List Nat) : ∀ (n pos : Nat), (pixels_at data n pos).length = n := by
  intro n
  induction n with
  | zero => intro pos; rfl
  | succ n ih => intro pos; simp [pixels_at, ih]

theorem pixels_at_get (data : List Nat) :
    ∀ (n pos c : Nat), c < n →
      (pixels_at data n pos)[c]?
        = some { r := data.getD (pos + 3 * c + 2) 0, g := data.getD (pos + 3 * c + 1) 0,
                 b := data.getD (pos + 3 * c) 0 } := by
  intro n
  induction n with
  | zero => intro pos c h; omega
  | succ n ih =>
    intro pos c h
    cases c with
    | zero => simp [pixels_at]
    | succ c =>
      simp only [pixels_at, List.getElem?_cons_succ]
      rw [ih (pos + 3) c (by omega)]
      have e : pos + 3 + 3 * c = pos + 3 * (c + 1) := by omega
      rw [e]

theorem rows_at_length (data : List Nat) (w pad : Nat) :
    ∀ (n pos : Nat), (rows_at data w pad n pos).length = n * w := by
  intro n
  induction n with
  | zero => intro pos; simp [rows_at]
  | succ n ih =>
    intro pos
    simp only [rows_at, List.length_append, pixels_at_length, ih]
    ring

theorem rows_at_get (data : List Nat) (w pad : Nat) :
    ∀ (n pos line c : Nat), line < n → c < w →
      (rows_at data w pad n pos)[line * w + c]?
        = some { r := data.getD (pos + line * (3 * w + pad) + 3 * c + 2) 0,
                 g := data.getD (pos + line * (3 * w + pad) + 3 * c + 1) 0,
                 b := data.getD (pos + line * (3 * w + pad) + 3 * c) 0 } := by
  intro n
  induction n with
  | zero => intro pos line c h; omega
  | succ n ih =>
    intro pos line c hl hc
    cases line with
    | zero =>
      simp only [rows_at, Nat.zero_mul, Nat.zero_add, Nat.add_zero]
      rw [List.getElem?_append_left (by rw [pixels_at_length]; exact hc)]
      exact pixels_at_get data w pos c hc
    | succ line =>
      have e : (line + 1) * w + c = w + (line * w + c) := by ring
      simp only [rows_at]
      rw [e, List.getElem?_append_right (by rw [pixels_at_length]; omega), pixels_at_length,
        Nat.add_sub_cancel_left, ih (pos + (3 * w + pad)) line c (by omega) hc]
      have e2 : pos + (3 * w + pad) + line * (3 * w + pad)
          = pos + (line + 1) * (3 * w + pad) := by ring
      rw [e2]

theorem padding_eq (w : Nat) : w * 3 % 4294967296 % 4 = 3 * w % 4 := by omega

theorem fseek_set_nat (data : List Nat) (pos d : Nat) :
    fseek_set ⟨data, pos⟩ (d : Int) = (0, ⟨data, d⟩) := by
  have h : ¬ ((d : Int) < 0) := by omega
  simp only [fseek_set, if_neg h]
  congr 2

theorem fread_data (field size : Nat) (fp : FILE) : (fread field size fp).2.data = fp.data := rfl

theorem fread_eof (field : Nat) (fp : FILE) (hf : field < 256) (h : fp.data.length ≤ fp.pos) :
    fread field 1 fp = (field, fp) := by
  have hd : fp.data.drop fp.pos = [] := List.drop_eq_nil_of_le h
  simp only [fread, hd, List.take_nil, List.length_nil, le_value, Nat.pow_zero, Nat.div_one,
    Nat.one_mul, Nat.zero_add, Nat.add_zero, Nat.pow_one, Nat.mod_eq_of_lt hf]

theorem get_data_line_total :
    ∀ (n : Nat) (fp : FILE) (pix : List pixel), n ≤ pix.length →
      ∃ (fp1 : FILE) (row : List pixel),
        get_data_line n fp pix = some (fp1, row, pix.drop n) ∧ row.length = n := by
  intro n
  induction n with
  | zero => intro fp pix _; exact ⟨fp, [], rfl, rfl⟩
  | succ n ih =>
    intro fp pix hpix
    match pix, hpix with
    | p :: pix1, hpix =>
      obtain ⟨fp1, row, hrow, hlen⟩ :=
        ih (fread p.r 1 (fread p.g 1 (fread p.b 1 fp).2).2).2 pix1 (by simpa using hpix)
      refine ⟨fp1, { r := (fread p.r 1 (fread p.g 1 (fread p.b 1 fp).2).2).1,
                     g := (fread p.g 1 (fread p.b 1 fp).2).1,
                     b := (fread p.b 1 fp).1 } :: row, ?_, by simp [hlen]⟩
      simp only [get_data_line, hrow, Option.map_some', List.drop_succ_cons]

theorem get_data_lines_total (w : Nat) (padding : Int) :
    ∀ (n : Nat) (fp : FILE) (pix : List pixel), n * w ≤ pix.length →
      ∃ (fp1 : FILE) (rows : List pixel),
        get_data_lines w padding n fp pix = some (fp1, rows, pix.drop (n * w)) ∧
        rows.length = n * w := by
  intro n
  induction n with
  | zero => intro fp pix _; exact ⟨fp, [], by simp [get_data_lines], by simp⟩
  | succ n ih =>
    intro fp pix hpix
    have e2 : (n + 1) * w = n * w + w := by ring
    rw [e2] at hpix
    obtain ⟨fp1, row, hrow, hlen⟩ := get_data_line_total w fp pix (by omega)
    obtain ⟨fp2, rows, hrows, hlens⟩ :=
      ih (if padding ≠ 0 then (fseek_cur fp1 padding).2 else fp1) (pix.drop w)
        (by simp only [List.length_drop]; omega)
    refine ⟨fp2, row ++ rows, ?_, by simp [hlen, hlens, e2, Nat.add_comm]⟩
    simp only [get_data_lines, hrow, hrows, Option.map_some', List.drop_drop, e2]
    congr 4
    omega

theorem get_data_line_eof (data : List Nat) :
    ∀ (n pos : Nat) (pix : List pixel), n ≤ pix.length → data.length ≤ pos →
      (∀ p ∈ pix, p.r < 256 ∧ p.g < 256 ∧ p.b < 256) →
      get_data_line n ⟨data, pos⟩ pix = some (⟨data, pos⟩, pix.take n, pix.drop n) := by
  intro n
  induction n with
  | zero => intro pos pix _ _ _; rfl
  | succ n ih =>
    intro pos pix hpix hpos hv
    match pix, hpix, hv with
    | p :: pix1, hpix, hv =>
      have hp := hv p (List.mem_cons_self _ _)
      simp only [get_data_line, fread_eof p.b ⟨data, pos⟩ hp.2.2 hpos,
        fread_eof p.g ⟨data, pos⟩ hp.2.1 hpos, fread_eof p.r ⟨data, pos⟩ hp.1 hpos]
      rw [ih pos pix1 (by simpa using hpix) hpos (fun q hq => hv q (List.mem_cons_of_mem _ hq))]
      rfl

theorem get_data_lines_eof (data : List Nat) (w pad : Nat) :
    ∀ (n pos : Nat) (pix : List pixel), n * w ≤ pix.length → data.length ≤ pos →
      (∀ p ∈ pix, p.r < 256 ∧ p.g < 256 ∧ p.b < 256) →
      get_data_lines w (pad : Int) n ⟨data, pos⟩ pix
        = some (⟨data, pos + n * pad⟩, pix.take (n * w), pix.drop (n * w)) := by
  intro n
  induction n with
  | zero => intro pos pix _ _ _; simp [get_data_lines]
  | succ n ih =>
    intro pos pix hpix hpos hv
    have e2 : (n + 1) * w = n * w + w := by ring
    have e3 : (n + 1) * pad = n * pad + pad := by ring
    rw [e2] at hpix
    simp only [get_data_lines]
    rw [get_data_line_eof data w pos pix (by omega) hpos hv]
    simp only [fseek_cur_nat]
    have hfp : (if (pad : Int) ≠ 0 then (⟨data, pos + pad⟩ : FILE) else ⟨data, pos⟩)
        = ⟨data, pos + pad⟩ := by
      by_cases hp : (pad : Int) = 0
      · have : pad = 0 := by omega
        subst this; simp
      · simp [hp]
    rw [hfp, ih (pos + pad) (pix.drop w) (by simp only [List.length_drop]; omega) (by omega)
      (fun q hq => hv q (List.mem_of_mem_drop hq))]
    have e4 : n * w + w = w + n * w := by omega
    have e5 : pos + pad + n * pad = pos + (n * pad + pad) := by omega
    simp only [Option.map_some', List.drop_drop, e2, e3, e4, e5, List.take_add]

/-- C11. Pixel loader layout: for a header with width `w`, height `h` and data
offset `d`, a stream that holds all rows, and a buffer that holds `w * h`
pixels, `get_data` returns the buffer in which entry `line * w + c` has its
b, g, r equal to the stream bytes at `o`, `o + 1`, `o + 2` with
`o = d + line * (3 * w + (3 * w) % 4) + 3 * c`: the rows are in the order of the
file and `(3 * w) % 4` bytes are skipped after each row. -/
theorem get_data_layout (header : bmp_header) (data : List Nat) (pos : Nat)
    (pixbuf : List pixel)
    (hlen : header.data_offset + header.height * (3 * header.width + 3 * header.width % 4)
      ≤ data.length)
    (hbuf : header.width * header.height ≤ pixbuf.length) :
    ∃ (fp : FILE) (buf : List pixel),
      get_data header ⟨data, pos⟩ pixbuf header = some (fp, buf) ∧
      buf.length = pixbuf.length ∧
      ∀ (line c : Nat), line < header.height → c < header.width →
        buf[line * header.width + c]?
          = some { r := data.getD (header.data_offset
                      + line * (3 * header.width + 3 * header.width % 4) + 3 * c + 2) 0,
                   g := data.getD (header.data_offset
                      + line * (3 * header.width + 3 * header.width % 4) + 3 * c + 1) 0,
                   b := data.getD (header.data_offset
                      + line * (3 * header.width + 3 * header.width % 4) + 3 * c) 0 } := by
  have hbuf2 : header.height * header.width ≤ pixbuf.length := by
    rw [Nat.mul_comm]; exact hbuf
  refine ⟨⟨data, header.data_offset
      + header.height * (3 * header.width + 3 * header.width % 4)⟩,
    rows_at data header.width (3 * header.width % 4) header.height header.data_offset
      ++ pixbuf.drop (header.height * header.width), ?_, ?_, ?_⟩
  · simp only [get_data, padding_eq, fseek_set_nat]
    rw [get_data_lines_full data header.width (3 * header.width % 4) header.height
      header.data_offset pixbuf hlen hbuf2]
    rfl
  · simp only [List.length_append, rows_at_length, List.length_drop]
    omega
  · intro line c hl hc
    have hidx : line * header.width + c < header.height * header.width := by
      have h1 : (line + 1) * header.width ≤ header.height * header.width :=
        Nat.mul_le_mul_right _ hl
      have h2 : (line + 1) * header.width = line * header.width + header.width := by ring
      omega
    rw [List.getElem?_append_left (by rw [rows_at_length]; exact hidx)]
    exact rows_at_get data header.width (3 * header.width % 4) header.height
      header.data_offset line c hl hc

theorem get_data_layout_witness :
    ∃ (fp : FILE) (buf : List pixel),
      get_data ⟨0x4D42, 0x46, 0x36, 0x28, 2, 2, 1, 24, 0, 0x10, 0x0B13, 0x0B13, 0, 0⟩
          ⟨sample_header 24 0 ++ sample_pixels, 54⟩
          [⟨0, 0, 0⟩, ⟨0, 0, 0⟩, ⟨0, 0, 0⟩, ⟨0, 0, 0⟩]
          ⟨0x4D42, 0x46, 0x36, 0x28, 2, 2, 1, 24, 0, 0x10, 0x0B13, 0x0B13, 0, 0⟩
        = some (fp, buf) ∧
      buf.length = 4 ∧
      ∀ (line c : Nat), line < 2 → c < 2 →
        buf[line * 2 + c]?
          = some { r := (sample_header 24 0 ++ sample_pixels).getD
                      (0x36 + line * (3 * 2 + 3 * 2 % 4) + 3 * c + 2) 0,
                   g := (sample_header 24 0 ++ sample_pixels).getD
                      (0x36 + line * (3 * 2 + 3 * 2 % 4) + 3 * c + 1) 0,
                   b := (sample_header 24 0 ++ sample_pixels).getD
                      (0x36 + line * (3 * 2 + 3 * 2 % 4) + 3 * c) 0 } :=
  get_data_layout ⟨0x4D42, 0x46, 0x36, 0x28, 2, 2, 1, 24, 0, 0x10, 0x0B13, 0x0B13, 0, 0⟩
    (sample_header 24 0 ++ sample_pixels) 54 [⟨0, 0, 0⟩, ⟨0, 0, 0⟩, ⟨0, 0, 0⟩, ⟨0, 0, 0⟩]
    (by decide) (by decide)

theorem get_data_full (header : bmp_header) (data : List Nat) (pos : Nat) (pixbuf : List pixel)
    (hlen : header.data_offset + header.height * (3 * header.width + 3 * header.width % 4)
      ≤ data.length)
    (hbuf : header.height * header.width ≤ pixbuf.length) :
    get_data header ⟨data, pos⟩ pixbuf header
      = some (⟨data, header.data_offset
                + header.height * (3 * header.width + 3 * header.width % 4)⟩,
          rows_at data header.width (3 * header.width % 4) header.height header.data_offset
            ++ pixbuf.drop (header.height * header.width)) := by
  simp only [get_data, padding_eq, fseek_set_nat]
  rw [get_data_lines_full data header.width (3 * header.width % 4) header.height
    header.data_offset pixbuf hlen hbuf]
  rfl

/-- C12, as the claim states it, fails: on a 2x2 image whose pixel data ends
after 4 bytes, `get_data` returns a pixel buffer, in which the channels that
could not be read hold what the buffer held before, and `main` writes the
output file and returns 0. -/
theorem get_data_truncated_counterexample :
    (get_data ⟨0x4D42, 0x46, 0x36, 0x28, 2, 2, 1, 24, 0, 0x10, 0x0B13, 0x0B13, 0, 0⟩
        ⟨sample_header 24 0 ++ [0x11, 0x12, 0x13, 0x21], 54⟩
        [⟨0xAA, 0xBB, 0xCC⟩, ⟨0xAA, 0xBB, 0xCC⟩, ⟨0xAA, 0xBB, 0xCC⟩, ⟨0xAA, 0xBB, 0xCC⟩]
        ⟨0x4D42, 0x46, 0x36, 0x28, 2, 2, 1, 24, 0, 0x10, 0x0B13, 0x0B13, 0, 0⟩).map
        (fun res => res.2)
      = some [⟨0x13, 0x12, 0x11⟩, ⟨0xAA, 0xBB, 0x21⟩, ⟨0xAA, 0xBB, 0xCC⟩, ⟨0xAA, 0xBB, 0xCC⟩] ∧
    main ["bmpdump", "-format", "raw", "-bpp", "24"]
        ⟨some (sample_header 24 0 ++ [0x11, 0x12, 0x13, 0x21]), ⟨true, none⟩, fun _ => true,
          fun _ => ⟨0xAA, 0xBB, 0xCC⟩, 0⟩
      = some (0, ⟨true, some [0x13, 0x12, 0x11, 0xAA, 0xBB, 0x21, 0xAA, 0xBB, 0xCC,
          0xAA, 0xBB, 0xCC]⟩) := by
  decide

theorem to_int_of_lt (x : Nat) (h : x < 2147483648) : to_int x = (x : Int) := by
  have h1 : x % 4294967296 = x := Nat.mod_eq_of_lt (by omega)
  simp only [to_int, h1, if_pos h]

theorem flatten_rgb_get :
    ∀ (l : List pixel) (k : Nat) (p : pixel), l[k]? = some p →
      ((l.map fun p => [p.r, p.g, p.b]).flatten)[3 * k]? = some p.r ∧
      ((l.map fun p => [p.r, p.g, p.b]).flatten)[3 * k + 1]? = some p.g ∧
      ((l.map fun p => [p.r, p.g, p.b]).flatten)[3 * k + 2]? = some p.b := by
  intro l
  induction l with
  | nil => intro k p h; simp at h
  | cons a l ih =>
    intro k p h
    cases k with
    | zero =>
      simp only [List.getElem?_cons_zero, Option.some.injEq] at h
      subst h
      simp
    | succ k =>
      rw [List.getElem?_cons_succ] at h
      have h3 := ih k p h
      have e3 : 3 * (k + 1) = (3 * k + 1 + 1) + 1 := by omega
      have e4 : 3 * (k + 1) + 1 = (3 * k + 1 + 1 + 1) + 1 := by omega
      have e5 : 3 * (k + 1) + 2 = (3 * k + 2 + 1 + 1) + 1 := by omega
      refine ⟨?_, ?_, ?_⟩
      · rw [e3]; simpa using h3.1
      · rw [e4]; simpa using h3.2.1
      · rw [e5]; simpa using h3.2.2

set_option maxRecDepth 100000 in
/-- C13, as the claim states it, fails: for the valid header of a 32768x32768
image followed by all of its 3 * 2^30 bytes of pixel data, the buffer size
3 * 2^30 does not fit the `int` it is stored in, the allocation fails, and
`main` returns 1 without writing the output file. -/
theorem main_raw_24bit_large_counterexample :
    (get_header ⟨large_header ++ List.replicate 3221225472 0, 0⟩ header_init).ret = 1 ∧
    (get_header ⟨large_header ++ List.replicate 3221225472 0, 0⟩ header_init).h.width
      = 32768 ∧
    (get_header ⟨large_header ++ List.replicate 3221225472 0, 0⟩ header_init).h.height
      = 32768 ∧
    (large_header ++ List.replicate 3221225472 0).length = 54 + 32768 * (3 * 32768) ∧
    main ["bmpdump", "-format", "raw", "-bpp", "24"]
        ⟨some (large_header ++ List.replicate 3221225472 0), ⟨true, none⟩, fun _ => true,
          fun _ => ⟨0, 0, 0⟩, 0⟩
      = some (1, ⟨true, none⟩) := by
  refine ⟨by decide, by decide, by decide, ?_, by decide⟩
  rw [List.length_append, List.length_replicate]
  rfl

/-- C13, amended.  End-to-end raw 24 bit conversion: for every valid 24bpp
uncompressed BMP stream with width `w`, height `h`, data offset `d`, enough
pixel data, and a buffer size `3 * w * h` below 2^31, when the options ask
for raw output of 24 bits per pixel without `-append` and `-verbose` and the
files and the buffer can be had, `main` returns 0 and leaves an output file
of exactly `3 * w * h` bytes; for the pixel `k = line * w + c` the bytes `3k`,
`3k + 1`, `3k + 2` are the stream bytes at `o + 2`, `o + 1`, `o` with
`o = d + line * (3 * w + (3 * w) % 4) + 3 * c`, in the row order of the file. -/
theorem main_raw_24bit (argv : List String) (w : World) (opts : options) (data : List Nat)
    (hparse : parse_opts argv opts_init w.malloc_ok = some (1, opts))
    (hformat : opts.format = FORMAT_RAW) (hbpp : opts.bpp = 24)
    (happend : opts.append ≠ APPEND) (hverbose : opts.verbose ≠ VERBOSE)
    (hinput : w.input = some data) (hopen : w.dst.writable = true)
    (hmalloc : w.malloc_ok 1 = true) (hlen : 54 ≤ data.length)
    (hid : le_at data 0x00 2 = 0x4D42) (hplanes : le_at data 0x1A 2 = 1)
    (hbits : le_at data 0x1C 2 = 24) (hcomp : le_at data 0x1E 4 = 0)
    (hsize : 3 * (le_at data 0x12 4 * le_at data 0x16 4) < 2147483648)
    (hdata : le_at data 0x0A 4
      + le_at data 0x16 4 * (3 * le_at data 0x12 4 + 3 * le_at data 0x12 4 % 4)
      ≤ data.length) :
    ∃ out : List Nat,
      main argv w = some (0, { writable := true, content := some out }) ∧
      out.length = 3 * (le_at data 0x12 4 * le_at data 0x16 4) ∧
      ∀ (line c : Nat), line < le_at data 0x16 4 → c < le_at data 0x12 4 →
        out[3 * (line * le_at data 0x12 4 + c)]?
          = some (data.getD (le_at data 0x0A 4
              + line * (3 * le_at data 0x12 4 + 3 * le_at data 0x12 4 % 4) + 3 * c + 2) 0) ∧
        out[3 * (line * le_at data 0x12 4 + c) + 1]?
          = some (data.getD (le_at data 0x0A 4
              + line * (3 * le_at data 0x12 4 + 3 * le_at data 0x12 4 % 4) + 3 * c + 1) 0) ∧
        out[3 * (line * le_at data 0x12 4 + c) + 2]?
          = some (data.getD (le_at data 0x0A 4
              + line * (3 * le_at data 0x12 4 + 3 * le_at data 0x12 4 % 4) + 3 * c) 0) := by
  generalize hW : le_at data 0x12 4 = W at *
  generalize hH : le_at data 0x16 4 = H at *
  generalize hD : le_at data 0x0A 4 = D at *
  have hhdr : get_header ⟨data, 0⟩ header_init
      = ⟨1, ⟨data, 54⟩,
          { identifier := le_at data 0 2, file_size := le_at data 2 4,
            data_offset := D, header_size := le_at data 14 4,
            width := W, height := H, planes := le_at data 26 2,
            bpp := le_at data 28 2, compression := le_at data 30 4,
            data_size := le_at data 34 4, hresolution := le_at data 38 4,
            vresolution := le_at data 42 4, colors := le_at data 46 4,
            important_colors := le_at data 50 4 }, ""⟩ := by
    rw [get_header_full data header_init hlen]
    simp only [hid, hplanes, hbits, hcomp, hW, hH, hD, ne_eq, not_true_eq_false, if_false]
  have hWH : W * H % 4294967296 = W * H := Nat.mod_eq_of_lt (by omega)
  have hpixels : to_int (W * H % 4294967296) = ((W * H : Nat) : Int) := by
    rw [hWH]; exact to_int_of_lt _ (by omega)
  have hsz : to_int (W * H % 4294967296 * 3) = ((W * H * 3 : Nat) : Int) := by
    rw [hWH]; exact to_int_of_lt _ (by omega)
  have hbuflen : ((List.range (W * H * 3 / 3)).map w.junk).length = H * W := by
    simp only [List.length_map, List.length_range]
    rw [Nat.mul_div_cancel _ (by decide), Nat.mul_comm]
  have hone : ¬ ((1 : Int) = 0) := by decide
  have hneg : ¬ (((W * H * 3 : Nat) : Int) < 0 ∨ true = false) := by
    simp only [Bool.true_eq_false, or_false]; omega
  refine ⟨((rows_at data W (3 * W % 4) H D).map fun p => [p.r, p.g, p.b]).flatten, ?_, ?_, ?_⟩
  · simp only [main, hparse, hinput, hhdr, hpixels, hsz, hmalloc, if_neg hone, if_neg hverbose,
      if_neg hneg, Int.toNat_ofNat]
    rw [get_data_full _ data 54 _ hdata (by rw [hbuflen]),
      List.drop_of_length_le (by rw [hbuflen]), List.append_nil]
    have hraw : FORMAT_RAW ≠ FORMAT_CARRAY := by decide
    simp only [main_output, hformat, hbpp, if_neg hraw, if_true, create_raw_24bit, hopen,
      if_neg happend]
    rw [create_raw_24bit_loop_eq _ _ 0 (by
      simp only [rows_at_length, Nat.cast_zero, zero_add, Nat.cast_mul, Nat.mul_comm W H])]
    simp
  · rw [length_flatten_rgb, rows_at_length, Nat.mul_comm H W]
  · intro line c hl hc
    exact flatten_rgb_get _ _ _ (rows_at_get data W (3 * W % 4) H D line c hl hc)

set_option maxRecDepth 100000 in
theorem main_raw_24bit_witness :
    main ["bmpdump", "-format", "raw", "-bpp", "24"]
        ⟨some sample_bmp, ⟨true, some [1, 2, 3]⟩, fun _ => true, fun _ => ⟨0xAA, 0xBB, 0xCC⟩, 0⟩
      = some (0, ⟨true, some [0x13, 0x12, 0x11, 0x23, 0x22, 0x21,
          0x33, 0x32, 0x31, 0x43, 0x42, 0x41]⟩) ∧
    ∃ out : List Nat,
      main ["bmpdump", "-format", "raw", "-bpp", "24"]
          ⟨some sample_bmp, ⟨true, some [1, 2, 3]⟩, fun _ => true,
            fun _ => ⟨0xAA, 0xBB, 0xCC⟩, 0⟩
        = some (0, { writable := true, content := some out }) ∧
      out.length = 3 * (le_at sample_bmp 0x12 4 * le_at sample_bmp 0x16 4) ∧
      ∀ (line c : Nat), line < le_at sample_bmp 0x16 4 → c < le_at sample_bmp 0x12 4 →
        out[3 * (line * le_at sample_bmp 0x12 4 + c)]?
          = some (sample_bmp.getD (le_at sample_bmp 0x0A 4
              + line * (3 * le_at sample_bmp 0x12 4 + 3 * le_at sample_bmp 0x12 4 % 4)
              + 3 * c + 2) 0) ∧
        out[3 * (line * le_at sample_bmp 0x12 4 + c) + 1]?
          = some (sample_bmp.getD (le_at sample_bmp 0x0A 4
              + line * (3 * le_at sample_bmp 0x12 4 + 3 * le_at sample_bmp 0x12 4 % 4)
              + 3 * c + 1) 0) ∧
        out[3 * (line * le_at sample_bmp 0x12 4 + c) + 2]?
          = some (sample_bmp.getD (le_at sample_bmp 0x0A 4
              + line * (3 * le_at sample_bmp 0x12 4 + 3 * le_at sample_bmp 0x12 4 % 4)
              + 3 * c) 0) :=
  ⟨by decide,
   main_raw_24bit ["bmpdump", "-format", "raw", "-bpp", "24"]
    ⟨some sample_bmp, ⟨true, some [1, 2, 3]⟩, fun _ => true, fun _ => ⟨0xAA, 0xBB, 0xCC⟩, 0⟩
    ⟨some "bitmap.bmp", some "bitmap.raw", FORMAT_RAW, 24, UNSET, none, UNSET⟩
    sample_bmp
    (by decide) (by decide) (by decide) (by decide) (by decide) rfl rfl rfl
    (by decide) (by decide) (by decide) (by decide) (by decide) (by decide) (by decide)⟩

/-! ## The C array files -/

/-- C14 fails on the code.  For 7 pixels the loop of `create_c_array_12bit` prints
three literals for each of the three pairs and two literals for the last pixel,
11 in all, and then the line break: the one line that ends with a line break
holds 11 byte literals, not 12. -/
theorem create_c_array_12bit_short_line :
    create_c_array_12bit_loop 7 0 (List.replicate 7 ⟨0x12, 0x34, 0x56⟩)
      = some [Chunk.lit 0x13, Chunk.lit 0x51, Chunk.lit 0x35,
          Chunk.lit 0x13, Chunk.lit 0x51, Chunk.lit 0x35,
          Chunk.lit 0x13, Chunk.lit 0x51, Chunk.lit 0x35,
          Chunk.lit 0x13, Chunk.lit 0x50, Chunk.wrap] := by
  decide

theorem create_c_array_24bit_loop_eq (pixels : Int) (pix : List pixel) :
    ∀ i : Nat, pixels = (i : Int) + pix.length →
      create_c_array_24bit_loop pixels i pix
        = some (((pix.enumFrom i).map fun kp =>
            [Chunk.lit kp.2.r, Chunk.lit kp.2.g, Chunk.lit kp.2.b]
              ++ (if (kp.1 + 1) % 4 = 0 then [Chunk.wrap] else [])).flatten) := by
  induction pix with
  | nil =>
    intro i h
    have hi : ¬ ((i : Int) < pixels) := by simp at h; omega
    rw [create_c_array_24bit_loop, if_neg hi]; rfl
  | cons p pix1 ih =>
    intro i h
    have hi : (i : Int) < pixels := by simp at h; omega
    rw [create_c_array_24bit_loop, if_pos hi]
    simp only []
    rw [ih (i + 1) (by simp at h ⊢; omega)]
    simp

theorem count_wrap_24 (pix : List pixel) :
    ∀ i : Nat,
      (((pix.enumFrom i).map fun kp =>
          [Chunk.lit kp.2.r, Chunk.lit kp.2.g, Chunk.lit kp.2.b]
            ++ (if (kp.1 + 1) % 4 = 0 then [Chunk.wrap] else [])).flatten).count Chunk.wrap
        = (i + pix.length) / 4 - i / 4 := by
  induction pix with
  | nil => intro i; simp
  | cons p pix1 ih =>
    intro i
    simp only [List.enumFrom_cons, List.map_cons, List.flatten_cons, List.count_append, ih (i + 1),
      List.length_cons]
    by_cases hw : (i + 1) % 4 = 0
    · simp [hw, List.count_cons]; omega
    · simp [hw, List.count_cons]; omega

/-- C15. Wrap rule of the 24 bit C array: when `pixels` is the number `n` of
pixels in the buffer, the loop of `create_c_array_24bit` prints, for the pixels
in order, the three literals of the pixel followed by the line break exactly
when the 1-based number of the pixel is a multiple of 4; it prints `n / 4` line
breaks. -/
theorem create_c_array_24bit_wraps (buf : List pixel) (pixels : Int)
    (hpixels : pixels = (buf.length : Int)) :
    ∃ body : List Chunk,
      create_c_array_24bit_loop pixels 0 buf = some body ∧
      body = ((buf.enum.map fun kp =>
          [Chunk.lit kp.2.r, Chunk.lit kp.2.g, Chunk.lit kp.2.b]
            ++ (if (kp.1 + 1) % 4 = 0 then [Chunk.wrap] else [])).flatten) ∧
      body.count Chunk.wrap = buf.length / 4 := by
  refine ⟨_, create_c_array_24bit_loop_eq pixels buf 0 (by simp [hpixels]), rfl, ?_⟩
  rw [count_wrap_24 buf 0]
  simp

theorem create_c_array_24bit_wraps_witness :
    create_c_array_24bit_loop 4 0 [⟨1, 2, 3⟩, ⟨4, 5, 6⟩, ⟨7, 8, 9⟩, ⟨10, 11, 12⟩]
      = some [Chunk.lit 1, Chunk.lit 2, Chunk.lit 3, Chunk.lit 4, Chunk.lit 5, Chunk.lit 6,
          Chunk.lit 7, Chunk.lit 8, Chunk.lit 9, Chunk.lit 10, Chunk.lit 11, Chunk.lit 12,
          Chunk.wrap] ∧
    ∃ body : List Chunk,
      create_c_array_24bit_loop ((4 : Nat) : Int) 0
          [⟨1, 2, 3⟩, ⟨4, 5, 6⟩, ⟨7, 8, 9⟩, ⟨10, 11, 12⟩] = some body ∧
      body = (([(⟨1, 2, 3⟩ : pixel), ⟨4, 5, 6⟩, ⟨7, 8, 9⟩, ⟨10, 11, 12⟩].enum.map fun kp =>
          [Chunk.lit kp.2.r, Chunk.lit kp.2.g, Chunk.lit kp.2.b]
            ++ (if (kp.1 + 1) % 4 = 0 then [Chunk.wrap] else [])).flatten) ∧
      body.count Chunk.wrap = 4 / 4 :=
  ⟨by decide,
   create_c_array_24bit_wraps [⟨1, 2, 3⟩, ⟨4, 5, 6⟩, ⟨7, 8, 9⟩, ⟨10, 11, 12⟩] ((4 : Nat) : Int) rfl⟩

theorem u8_lt (x : Nat) : u8 x < 256 := Nat.mod_lt _ (by decide)

set_option maxRecDepth 100000 in
theorem fmt_x2_byte : ∀ b, b < 256 → fmt_x2 b = [hex_digit (b / 16), hex_digit (b % 16)] := by
  decide

theorem hex_digit_ne_newline : ∀ d, d < 16 → hex_digit d ≠ 10 := by decide

theorem remove_wraps_cons (c : Nat) (cs : List Nat) (h : c ≠ 10) :
    remove_wraps (c :: cs) = c :: remove_wraps cs := by
  rw [remove_wraps]
  intro cs2 h1
  exact absurd h1 h

theorem remove_wraps_render (body : List Chunk) (hb : ∀ b ∈ Chunk.literals body, b < 256) :
    remove_wraps (Chunk.render body)
      = ((Chunk.literals body).map fun b =>
          text "0x" ++ [hex_digit (b / 16), hex_digit (b % 16)] ++ text ", ").flatten := by
  induction body with
  | nil => rfl
  | cons c cs ih =>
    cases c with
    | lit b =>
      have hlt : b < 256 := hb b (by simp [Chunk.literals])
      have ih1 := ih (fun x hx => hb x (by simp [Chunk.literals, hx]))
      have h1 : hex_digit (b / 16) ≠ 10 := hex_digit_ne_newline _ (by omega)
      have h2 : hex_digit (b % 16) ≠ 10 := hex_digit_ne_newline _ (by omega)
      have e0 : text "0x" = [48, 120] := by decide
      have e1 : text ", " = [44, 32] := by decide
      simp only [Chunk.render, Chunk.text, fmt_x2_byte b hlt, Chunk.literals, List.map_cons,
        List.flatten_cons, e0, e1, List.cons_append, List.nil_append, List.append_assoc]
      rw [remove_wraps_cons 48 _ (by decide), remove_wraps_cons 120 _ (by decide),
        remove_wraps_cons _ _ h1, remove_wraps_cons _ _ h2, remove_wraps_cons 44 _ (by decide),
        remove_wraps_cons 32 _ (by decide), ih1]
      simp only [e0, e1, List.cons_append, List.nil_append]
    | wrap =>
      have ih1 := ih (fun x hx => hb x (by simpa [Chunk.literals] using hx))
      have e0 : text "\n\t" = [10, 9] := by decide
      simp only [Chunk.render, Chunk.text, Chunk.literals, e0, List.cons_append,
        List.nil_append]
      rw [remove_wraps, ih1]

theorem create_c_array_8bit_loop_defined (pixels : Int) (pix : List pixel) :
    ∀ i : Nat, pixels = (i : Int) + pix.length →
      ∃ body : List Chunk, create_c_array_8bit_loop pixels i pix = some body ∧
        (∀ b ∈ Chunk.literals body, b < 256) ∧ (pix = [] → body = []) := by
  induction pix with
  | nil =>
    intro i h
    have hi : ¬ ((i : Int) < pixels) := by simp at h; omega
    exact ⟨[], by rw [create_c_array_8bit_loop, if_neg hi], by simp [Chunk.literals],
      fun _ => rfl⟩
  | cons p pix1 ih =>
    intro i h
    have hi : (i : Int) < pixels := by simp at h; omega
    obtain ⟨body, hbody, hlt, _⟩ := ih (i + 1) (by simp at h ⊢; omega)
    rw [create_c_array_8bit_loop, if_pos hi]
    simp only [hbody, Option.map_some', Option.some.injEq, exists_eq_left', reduceCtorEq,
      false_implies, and_true]
    intro b hb
    by_cases hw : (i + 1) % 12 = 0
    · simp only [hw, if_true, Chunk.literals, List.cons_append, List.nil_append,
        List.mem_cons] at hb
      rcases hb with rfl | hb
      · exact u8_lt _
      · exact hlt b hb
    · simp only [hw, if_false, Chunk.literals, List.nil_append, List.mem_cons] at hb
      rcases hb with rfl | hb
      · exact u8_lt _
      · exact hlt b hb

theorem create_c_array_12bit_loop_defined (pixels : Int) (pix : List pixel) :
    ∀ i : Nat, pixels = (i : Int) + pix.length →
      ∃ body : List Chunk, create_c_array_12bit_loop pixels i pix = some body ∧
        (∀ b ∈ Chunk.literals body, b < 256) ∧ (pix = [] → body = []) := by
  induction pix using bytes12.induct with
  | case1 p q rest ih =>
    intro i h
    have hi : (i : Int) < pixels := by simp at h; omega
    have hi2 : (i : Int) + 2 ≤ pixels := by simp at h; omega
    obtain ⟨body, hbody, hlt, _⟩ := ih (i + 2) (by simp at h ⊢; omega)
    rw [create_c_array_12bit_loop, if_pos hi]
    simp only [if_pos hi2, hbody, Option.map_some', Option.some.injEq, exists_eq_left',
      reduceCtorEq, false_implies, and_true]
    intro b hb
    by_cases hw : (i + 2) % 8 = 0
    · simp only [hw, if_true, Chunk.literals, List.cons_append, List.nil_append,
        List.mem_cons] at hb
      rcases hb with rfl | rfl | rfl | hb
      · exact u8_lt _
      · exact u8_lt _
      · exact u8_lt _
      · exact hlt b hb
    · simp only [hw, if_false, Chunk.literals, List.nil_append, List.mem_cons] at hb
      rcases hb with rfl | rfl | rfl | hb
      · exact u8_lt _
      · exact u8_lt _
      · exact u8_lt _
      · exact hlt b hb
  | case2 p =>
    intro i h
    have hi : (i : Int) < pixels := by simp at h; omega
    have hi2 : ¬ ((i : Int) + 2 ≤ pixels) := by simp at h; omega
    have hi3 : ¬ (((i + 2 : Nat) : Int) < pixels) := by simp at h ⊢; omega
    rw [create_c_array_12bit_loop, if_pos hi]
    simp only [if_neg hi2]
    rw [create_c_array_12bit_loop, if_neg hi3]
    simp only [Option.map_some', Option.some.injEq, exists_eq_left', reduceCtorEq,
      false_implies, and_true]
    intro b hb
    by_cases hw : (i + 2) % 8 = 0
    · simp only [hw, if_true, Chunk.literals, List.cons_append, List.nil_append,
        List.mem_cons] at hb
      rcases hb with rfl | rfl | hb
      · exact u8_lt _
      · exact u8_lt _
      · simp at hb
    · simp only [hw, if_false, Chunk.literals, List.nil_append, List.mem_cons] at hb
      rcases hb with rfl | rfl | hb
      · exact u8_lt _
      · exact u8_lt _
      · simp at hb
  | case3 =>
    intro i h
    have hi : ¬ ((i : Int) < pixels) := by simp at h; omega
    exact ⟨[], by rw [create_c_array_12bit_loop, if_neg hi], by simp [Chunk.literals],
      fun _ => rfl⟩

theorem create_c_array_16bit_loop_defined (pixels : Int) (pix : List pixel) :
    ∀ (i b2 : Nat), pixels = (i : Int) + pix.length →
      ∃ body : List Chunk, create_c_array_16bit_loop pixels i b2 pix = some body ∧
        (∀ b ∈ Chunk.literals body, b < 256) ∧ (pix = [] → body = []) := by
  induction pix with
  | nil =>
    intro i b2 h
    have hi : ¬ ((i : Int) < pixels) := by simp at h; omega
    exact ⟨[], by rw [create_c_array_16bit_loop, if_neg hi], by simp [Chunk.literals],
      fun _ => rfl⟩
  | cons p pix1 ih =>
    intro i b2 h
    have hi : (i : Int) < pixels := by simp at h; omega
    obtain ⟨body, hbody, hlt, _⟩ :=
      ih (i + 1) (u8 (u8 (u8 (b2 ||| (p.g <<< 3)) &&& not32 (0xFF >>> 3)) ||| (p.b >>> 3)))
        (by simp at h ⊢; omega)
    rw [create_c_array_16bit_loop, if_pos hi]
    simp only [hbody, Option.map_some', Option.some.injEq, exists_eq_left', reduceCtorEq,
      false_implies, and_true]
    intro b hb
    by_cases hw : (i + 1) % 6 = 0
    · simp only [hw, if_true, Chunk.literals, List.cons_append, List.nil_append,
        List.mem_cons] at hb
      rcases hb with rfl | rfl | hb
      · exact u8_lt _
      · exact u8_lt _
      · exact hlt b hb
    · simp only [hw, if_false, Chunk.literals, List.nil_append, List.mem_cons] at hb
      rcases hb with rfl | rfl | hb
      · exact u8_lt _
      · exact u8_lt _
      · exact hlt b hb

theorem create_c_array_24bit_loop_defined (pixels : Int) (pix : List pixel) :
    ∀ i : Nat, pixels = (i : Int) + pix.length →
      (∀ p ∈ pix, p.r < 256 ∧ p.g < 256 ∧ p.b < 256) →
      ∃ body : List Chunk, create_c_array_24bit_loop pixels i pix = some body ∧
        (∀ b ∈ Chunk.literals body, b < 256) ∧ (pix = [] → body = []) := by
  induction pix with
  | nil =>
    intro i h _
    have hi : ¬ ((i : Int) < pixels) := by simp at h; omega
    exact ⟨[], by rw [create_c_array_24bit_loop, if_neg hi], by simp [Chunk.literals],
      fun _ => rfl⟩
  | cons p pix1 ih =>
    intro i h hv
    have hi : (i : Int) < pixels := by simp at h; omega
    have hp := hv p (List.mem_cons_self _ _)
    obtain ⟨body, hbody, hlt, _⟩ :=
      ih (i + 1) (by simp at h ⊢; omega) (fun q hq => hv q (List.mem_cons_of_mem _ hq))
    rw [create_c_array_24bit_loop, if_pos hi]
    simp only [hbody, Option.map_some', Option.some.injEq, exists_eq_left', reduceCtorEq,
      false_implies, and_true]
    intro b hb
    by_cases hw : (i + 1) % 4 = 0
    · simp only [hw, if_true, Chunk.literals, List.cons_append, List.nil_append,
        List.mem_cons] at hb
      rcases hb with rfl | rfl | rfl | hb
      · exact hp.1
      · exact hp.2.1
      · exact hp.2.2
      · exact hlt b hb
    · simp only [hw, if_false, Chunk.literals, List.nil_append, List.mem_cons] at hb
      rcases hb with rfl | rfl | rfl | hb
      · exact hp.1
      · exact hp.2.1
      · exact hp.2.2
      · exact hlt b hb

theorem c_array_result_append (layout : List Nat) (body : List Chunk) (pixels : Int)
    (o : options) (h : bmp_header) (old : List Nat) (name : String)
    (happend : o.append = APPEND) (hname : o.arrayname = some name) :
    c_array_result layout (some body) pixels o h ⟨true, some old⟩
      = some (1, ⟨true, some (old ++ (text "\n\n"
          ++ (text "/* Array with bitmap containing data of a "
            ++ (fmt_u h.width ++ text "x" ++ fmt_u h.height ++ text " (" ++ fmt_u_int pixels
              ++ text " pixels) image.\n" ++ layout ++ text " */\n"
              ++ (text "unsigned char " ++ text name ++ text "[] = \x7b\n\t")
              ++ Chunk.render body ++ text "\n\x7d;"))))⟩) := by
  have hex : ¬ ((if (some old : Option (List Nat)) = none then (0 : Int) else EXISTS) = 0) := by
    simp [EXISTS]
  simp only [c_array_result, happend, hname, ne_eq, hex, not_false_eq_true, and_self, if_true,
    Option.getD_some, Bool.true_eq_false, if_false, List.append_assoc]

theorem c_array_result_banner (layout : List Nat) (body : List Chunk) (pixels : Int)
    (o : options) (h : bmp_header) (c : Option (List Nat)) (name : String)
    (hfresh : o.append ≠ APPEND ∨ c = none) (hname : o.arrayname = some name) :
    c_array_result layout (some body) pixels o h ⟨true, c⟩
      = some (1, ⟨true, some (text "/* This is an auto-generated file generated by bmpdump */\n\n"
          ++ (text "/* Array with bitmap containing data of a "
            ++ (fmt_u h.width ++ text "x" ++ fmt_u h.height ++ text " (" ++ fmt_u_int pixels
              ++ text " pixels) image.\n" ++ layout ++ text " */\n"
              ++ (text "unsigned char " ++ text name ++ text "[] = \x7b\n\t")
              ++ Chunk.render body ++ text "\n\x7d;")))⟩) := by
  rcases hfresh with hna | hnone
  · simp only [c_array_result, hna, hname, false_and, if_false, Bool.true_eq_false,
      List.nil_append, List.append_assoc]
  · subst hnone
    simp only [c_array_result, hname, ne_eq, if_true, not_true_eq_false, and_false, if_false,
      Option.getD_none, ite_self, Bool.true_eq_false, List.nil_append, List.append_assoc]

theorem literals_line (c : Prop) [Decidable c] (rest : List Chunk) :
    Chunk.literals ((if c then [Chunk.wrap] else []) ++ rest) = Chunk.literals rest := by
  split <;> simp [Chunk.literals]

theorem literals_line_nil (c : Prop) [Decidable c] :
    Chunk.literals (if c then [Chunk.wrap] else []) = [] := by
  split <;> rfl

/-- The literals printed by the loop of `create_c_array_8bit` are the bytes
written by the loop of `create_raw_8bit`, whatever the counter and the buffer. -/
theorem create_c_array_8bit_loop_raw (pixels : Int) (pix : List pixel) :
    ∀ i : Nat, (create_c_array_8bit_loop pixels i pix).map Chunk.literals
      = create_raw_8bit_loop pixels i pix := by
  induction pix with
  | nil =>
    intro i
    rw [create_c_array_8bit_loop, create_raw_8bit_loop]
    split <;> rfl
  | cons p pix1 ih =>
    intro i
    rw [create_c_array_8bit_loop, create_raw_8bit_loop]
    split
    · simp only [← ih (i + 1), Option.map_map]
      congr 1
      funext rest
      simp [Chunk.literals, literals_line]
    · rfl

theorem create_c_array_16bit_loop_raw (pixels : Int) (pix : List pixel) :
    ∀ i b2 : Nat, (create_c_array_16bit_loop pixels i b2 pix).map Chunk.literals
      = create_raw_16bit_loop pixels i b2 pix := by
  induction pix with
  | nil =>
    intro i b2
    rw [create_c_array_16bit_loop, create_raw_16bit_loop]
    split <;> rfl
  | cons p pix1 ih =>
    intro i b2
    rw [create_c_array_16bit_loop, create_raw_16bit_loop]
    split
    · simp only [← ih (i + 1), Option.map_map]
      congr 1
      funext rest
      simp [Chunk.literals, literals_line]
    · rfl

theorem create_c_array_24bit_loop_raw (pixels : Int) (pix : List pixel) :
    ∀ i : Nat, (create_c_array_24bit_loop pixels i pix).map Chunk.literals
      = create_raw_24bit_loop pixels i pix := by
  induction pix with
  | nil =>
    intro i
    rw [create_c_array_24bit_loop, create_raw_24bit_loop]
    split <;> rfl
  | cons p pix1 ih =>
    intro i
    rw [create_c_array_24bit_loop, create_raw_24bit_loop]
    split
    · simp only [← ih (i + 1), Option.map_map]
      congr 1
      funext rest
      simp [Chunk.literals, literals_line]
    · rfl

theorem create_c_array_12bit_loop_raw (pixels : Int) (pix : List pixel) :
    ∀ i : Nat, (create_c_array_12bit_loop pixels i pix).map Chunk.literals
      = create_raw_12bit_loop pixels i pix := by
  induction pix using bytes12.induct with
  | case1 p q rest ih =>
    intro i
    rw [create_c_array_12bit_loop, create_raw_12bit_loop]
    by_cases hi : (i : Int) < pixels
    · by_cases hi2 : (i : Int) + 2 ≤ pixels
      · simp only [if_pos hi, if_pos hi2, ← ih (i + 2), Option.map_map]
        congr 1
        funext rest
        simp [Chunk.literals, literals_line]
      · have hn : ¬ (((i + 2 : Nat) : Int) < pixels) := by push_cast; omega
        simp only [if_pos hi, if_neg hi2]
        rw [create_c_array_12bit_loop, create_raw_12bit_loop, if_neg hn, if_neg hn]
        simp [Chunk.literals, literals_line_nil]
    · simp only [if_neg hi]
      rfl
  | case2 p =>
    intro i
    rw [create_c_array_12bit_loop, create_raw_12bit_loop]
    by_cases hi : (i : Int) < pixels
    · by_cases hi2 : (i : Int) + 2 ≤ pixels
      · simp only [if_pos hi, if_pos hi2]
        rfl
      · have hn : ¬ (((i + 2 : Nat) : Int) < pixels) := by push_cast; omega
        simp only [if_pos hi, if_neg hi2]
        rw [create_c_array_12bit_loop, create_raw_12bit_loop, if_neg hn, if_neg hn]
        simp [Chunk.literals, literals_line_nil]
    · simp only [if_neg hi]
      rfl
  | case3 =>
    intro i
    rw [create_c_array_12bit_loop, create_raw_12bit_loop]
    split <;> rfl

/-- Each of the four functions `create_c_array_*`, when `pixels` is the number of
pixels in the buffer, is `c_array_result` for some layout line and some body. -/
theorem create_c_array_shape (buf : List pixel) (pixels : Int) (o : options) (h : bmp_header)
    (b2_init : Nat) (hpixels : pixels = (buf.length : Int)) :
    ∀ F ∈ [create_c_array_8bit buf pixels o h, create_c_array_12bit buf pixels o h,
        (create_c_array_16bit buf pixels o h · b2_init), create_c_array_24bit buf pixels o h],
      ∃ (layout : List Nat) (body : List Chunk),
        (∀ d : OutFile, F d = c_array_result layout (some body) pixels o h d) ∧
        ((∀ p ∈ buf, p.r < 256 ∧ p.g < 256 ∧ p.b < 256) →
          ∀ b ∈ Chunk.literals body, b < 256) ∧
        (buf = [] → body = []) := by
  have h0 : pixels = ((0 : Nat) : Int) + (buf.length : Int) := by simp [hpixels]
  intro F hF
  simp only [List.mem_cons, List.mem_singleton, List.not_mem_nil, or_false] at hF
  rcases hF with rfl | rfl | rfl | rfl
  · obtain ⟨body, hbody, hlt, hnil⟩ := create_c_array_8bit_loop_defined pixels buf 0 h0
    exact ⟨_, body, fun d => by rw [create_c_array_8bit_eq, hbody], fun _ => hlt, hnil⟩
  · obtain ⟨body, hbody, hlt, hnil⟩ := create_c_array_12bit_loop_defined pixels buf 0 h0
    exact ⟨_, body, fun d => by rw [create_c_array_12bit_eq, hbody], fun _ => hlt, hnil⟩
  · obtain ⟨body, hbody, hlt, hnil⟩ :=
      create_c_array_16bit_loop_defined pixels buf 0 b2_init h0
    exact ⟨_, body, fun d => by
      show create_c_array_16bit buf pixels o h d b2_init = _
      rw [create_c_array_16bit_eq, hbody], fun _ => hlt, hnil⟩
  · have hbody := create_c_array_24bit_loop_eq pixels buf 0 h0
    refine ⟨_, _, fun d => by rw [create_c_array_24bit_eq, hbody], ?_, ?_⟩
    · intro hv
      obtain ⟨body, hbody2, hlt, _⟩ := create_c_array_24bit_loop_defined pixels buf 0 h0 hv
      rw [hbody] at hbody2
      rw [Option.some.inj hbody2]
      exact hlt
    · intro hnil; subst hnil; rfl

theorem c_array_result_ends (layout : List Nat) (body : List Chunk) (pixels : Int)
    (o : options) (h : bmp_header) (c : Option (List Nat)) (name : String)
    (hname : o.arrayname = some name) :
    ∃ before : List Nat,
      c_array_result layout (some body) pixels o h ⟨true, c⟩
        = some (1, { writable := true,
                     content := some (before
                       ++ (text "unsigned char " ++ text name ++ text "[] = \x7b\n\t")
                       ++ Chunk.render body ++ text "\n\x7d;") }) := by
  by_cases happend : o.append = APPEND
  · cases c with
    | none =>
      rw [c_array_result_banner layout body pixels o h none name (Or.inr rfl) hname]
      refine ⟨text "/* This is an auto-generated file generated by bmpdump */\n\n"
        ++ (text "/* Array with bitmap containing data of a "
          ++ (fmt_u h.width ++ text "x" ++ fmt_u h.height ++ text " (" ++ fmt_u_int pixels
            ++ text " pixels) image.\n" ++ layout ++ text " */\n")), ?_⟩
      simp only [List.append_assoc]
    | some old =>
      rw [c_array_result_append layout body pixels o h old name happend hname]
      refine ⟨old ++ (text "\n\n"
        ++ (text "/* Array with bitmap containing data of a "
          ++ (fmt_u h.width ++ text "x" ++ fmt_u h.height ++ text " (" ++ fmt_u_int pixels
            ++ text " pixels) image.\n" ++ layout ++ text " */\n"))), ?_⟩
      simp only [List.append_assoc]
  · rw [c_array_result_banner layout body pixels o h c name (Or.inl happend) hname]
    refine ⟨text "/* This is an auto-generated file generated by bmpdump */\n\n"
      ++ (text "/* Array with bitmap containing data of a "
        ++ (fmt_u h.width ++ text "x" ++ fmt_u h.height ++ text " (" ++ fmt_u_int pixels
          ++ text " pixels) image.\n" ++ layout ++ text " */\n")), ?_⟩
    simp only [List.append_assoc]

/-- The loop of each of the four functions `create_c_array_*`, when `pixels` is
the number of pixels in the buffer, returns a body whose literals are the
bytes of the loop of the raw function of the same depth, and the function is
`c_array_result` of that body. -/
theorem create_c_array_body (buf : List pixel) (pixels : Int) (o : options) (h : bmp_header)
    (b2_init : Nat) (hpixels : pixels = (buf.length : Int)) :
    ∀ T ∈ [(create_c_array_8bit buf pixels o h, create_c_array_8bit_loop pixels 0 buf,
          create_raw_8bit_loop pixels 0 buf),
        (create_c_array_12bit buf pixels o h, create_c_array_12bit_loop pixels 0 buf,
          create_raw_12bit_loop pixels 0 buf),
        ((create_c_array_16bit buf pixels o h · b2_init),
          create_c_array_16bit_loop pixels 0 b2_init buf,
          create_raw_16bit_loop pixels 0 b2_init buf),
        (create_c_array_24bit buf pixels o h, create_c_array_24bit_loop pixels 0 buf,
          create_raw_24bit_loop pixels 0 buf)],
      ∃ (layout : List Nat) (body : List Chunk),
        T.2.1 = some body ∧ T.2.2 = some (Chunk.literals body) ∧
        (∀ d : OutFile, T.1 d = c_array_result layout (some body) pixels o h d) ∧
        ((∀ p ∈ buf, p.r < 256 ∧ p.g < 256 ∧ p.b < 256) →
          ∀ b ∈ Chunk.literals body, b < 256) ∧
        (buf = [] → body = []) := by
  have h0 : pixels = ((0 : Nat) : Int) + (buf.length : Int) := by simp [hpixels]
  intro T hT
  simp only [List.mem_cons, List.mem_singleton, List.not_mem_nil, or_false] at hT
  rcases hT with rfl | rfl | rfl | rfl
  · obtain ⟨body, hbody, hlt, hnil⟩ := create_c_array_8bit_loop_defined pixels buf 0 h0
    have hraw := create_c_array_8bit_loop_raw pixels buf 0
    rw [hbody] at hraw
    exact ⟨_, body, hbody, hraw.symm, fun d => by
      show create_c_array_8bit buf pixels o h d = _
      rw [create_c_array_8bit_eq, hbody], fun _ => hlt, hnil⟩
  · obtain ⟨body, hbody, hlt, hnil⟩ := create_c_array_12bit_loop_defined pixels buf 0 h0
    have hraw := create_c_array_12bit_loop_raw pixels buf 0
    rw [hbody] at hraw
    exact ⟨_, body, hbody, hraw.symm, fun d => by
      show create_c_array_12bit buf pixels o h d = _
      rw [create_c_array_12bit_eq, hbody], fun _ => hlt, hnil⟩
  · obtain ⟨body, hbody, hlt, hnil⟩ :=
      create_c_array_16bit_loop_defined pixels buf 0 b2_init h0
    have hraw := create_c_array_16bit_loop_raw pixels buf 0 b2_init
    rw [hbody] at hraw
    exact ⟨_, body, hbody, hraw.symm, fun d => by
      show create_c_array_16bit buf pixels o h d b2_init = _
      rw [create_c_array_16bit_eq, hbody], fun _ => hlt, hnil⟩
  · have hbody := create_c_array_24bit_loop_eq pixels buf 0 h0
    have hraw := create_c_array_24bit_loop_raw pixels buf 0
    rw [hbody] at hraw
    refine ⟨_, _, hbody, hraw.symm, fun d => by
      show create_c_array_24bit buf pixels o h d = _
      rw [create_c_array_24bit_eq, hbody], ?_, ?_⟩
    · intro hv
      obtain ⟨body, hbody2, hlt, _⟩ := create_c_array_24bit_loop_defined pixels buf 0 h0 hv
      rw [hbody] at hbody2
      rw [Option.some.inj hbody2]
      exact hlt
    · intro hnil; subst hnil; rfl

/-- C16. Literal format of the C array: for each bit depth, when `pixels` is the
number of pixels in the buffer, the array name is set and the destination can
be opened, the file ends with `"unsigned char <name>[] = {\n\t"`, the array
body and `"\n};"`, where the body is the text of the items that the loop of
`create_c_array_<bpp>bit` prints; the literals among these items are, in
order, the packed bytes, that is the bytes that the loop of
`create_raw_<bpp>bit` writes for the same buffer; and the body with the line
breaks `"\n\t"` taken out is, for each of these bytes in order, `"0x"`, the two
lowercase hexadecimal digits of the byte and `", "`; an empty buffer gives an
empty body. -/
theorem create_c_array_literal_format (buf : List pixel) (pixels : Int) (o : options)
    (h : bmp_header) (dst : OutFile) (b2_init : Nat) (name : String)
    (hbuf : ∀ p ∈ buf, p.r < 256 ∧ p.g < 256 ∧ p.b < 256)
    (hpixels : pixels = (buf.length : Int)) (hopen : dst.writable = true)
    (hname : o.arrayname = some name) :
    ∀ T ∈ [(create_c_array_8bit buf pixels o h, create_c_array_8bit_loop pixels 0 buf,
          create_raw_8bit_loop pixels 0 buf),
        (create_c_array_12bit buf pixels o h, create_c_array_12bit_loop pixels 0 buf,
          create_raw_12bit_loop pixels 0 buf),
        ((create_c_array_16bit buf pixels o h · b2_init),
          create_c_array_16bit_loop pixels 0 b2_init buf,
          create_raw_16bit_loop pixels 0 b2_init buf),
        (create_c_array_24bit buf pixels o h, create_c_array_24bit_loop pixels 0 buf,
          create_raw_24bit_loop pixels 0 buf)],
      ∃ (before : List Nat) (body : List Chunk) (bytes : List Nat),
        T.2.1 = some body ∧ T.2.2 = some bytes ∧ Chunk.literals body = bytes ∧
        T.1 dst = some (1, { writable := true,
                             content := some (before
                               ++ (text "unsigned char " ++ text name ++ text "[] = \x7b\n\t")
                               ++ Chunk.render body ++ text "\n\x7d;") }) ∧
        remove_wraps (Chunk.render body)
          = (bytes.map fun b =>
              text "0x" ++ [hex_digit (b / 16), hex_digit (b % 16)] ++ text ", ").flatten ∧
        (buf = [] → Chunk.render body = []) := by
  intro T hT
  obtain ⟨layout, body, hbody, hraw, hshape, hlt, hnil⟩ :=
    create_c_array_body buf pixels o h b2_init hpixels T hT
  obtain ⟨wr, c⟩ := dst
  simp only at hopen
  subst hopen
  obtain ⟨before, hbefore⟩ := c_array_result_ends layout body pixels o h c name hname
  exact ⟨before, body, Chunk.literals body, hbody, hraw, rfl, by rw [hshape, hbefore],
    remove_wraps_render body (hlt hbuf), fun e => by rw [hnil e]; rfl⟩

set_option maxRecDepth 100000 in
theorem create_c_array_literal_format_witness :
    create_c_array_16bit [⟨0x12, 0xAB, 0x05⟩] 1
        ⟨none, some "bitmap.c", FORMAT_CARRAY, 16, UNSET, some "bitmap", UNSET⟩
        ⟨0x4D42, 0x3A, 0x36, 0x28, 1, 1, 1, 24, 0, 4, 0, 0, 0, 0⟩ ⟨true, none⟩ 0
      = some (1, ⟨true, some (text ("/* This is an auto-generated file generated by bmpdump */\n\n"
          ++ "/* Array with bitmap containing data of a 1x1 (1 pixels) image.\n"
          ++ " * Each pixel has 16 bits (RRRRRGGG GGGBBBBB).\n"
          ++ " */\n"
          ++ "unsigned char bitmap[] = \x7b\n\t0x15, 0x40, \n\x7d;"))⟩) ∧
    create_raw_16bit_loop 1 0 0 [⟨0x12, 0xAB, 0x05⟩] = some [0x15, 0x40] ∧
    ∃ (before : List Nat) (body : List Chunk) (bytes : List Nat),
      create_c_array_16bit_loop ((1 : Nat) : Int) 0 0 [⟨0x12, 0xAB, 0x05⟩] = some body ∧
      create_raw_16bit_loop ((1 : Nat) : Int) 0 0 [⟨0x12, 0xAB, 0x05⟩] = some bytes ∧
      Chunk.literals body = bytes ∧
      create_c_array_16bit [⟨0x12, 0xAB, 0x05⟩] ((1 : Nat) : Int)
          ⟨none, some "bitmap.c", FORMAT_CARRAY, 16, UNSET, some "bitmap", UNSET⟩
          ⟨0x4D42, 0x3A, 0x36, 0x28, 1, 1, 1, 24, 0, 4, 0, 0, 0, 0⟩ ⟨true, none⟩ 0
        = some (1, ⟨true, some (before
                      ++ (text "unsigned char " ++ text "bitmap" ++ text "[] = \x7b\n\t")
                      ++ Chunk.render body ++ text "\n\x7d;")⟩) ∧
      remove_wraps (Chunk.render body)
        = (bytes.map fun b =>
            text "0x" ++ [hex_digit (b / 16), hex_digit (b % 16)] ++ text ", ").flatten ∧
      (([⟨0x12, 0xAB, 0x05⟩] : List pixel) = [] → Chunk.render body = []) :=
  ⟨by decide, by decide,
   create_c_array_literal_format [⟨0x12, 0xAB, 0x05⟩] ((1 : Nat) : Int)
    ⟨none, some "bitmap.c", FORMAT_CARRAY, 16, UNSET, some "bitmap", UNSET⟩
    ⟨0x4D42, 0x3A, 0x36, 0x28, 1, 1, 1, 24, 0, 4, 0, 0, 0, 0⟩ ⟨true, none⟩ 0 "bitmap"
    (by decide) rfl rfl rfl
    ((create_c_array_16bit [⟨0x12, 0xAB, 0x05⟩] ((1 : Nat) : Int)
        ⟨none, some "bitmap.c", FORMAT_CARRAY, 16, UNSET, some "bitmap", UNSET⟩
        ⟨0x4D42, 0x3A, 0x36, 0x28, 1, 1, 1, 24, 0, 4, 0, 0, 0, 0⟩ · 0),
      create_c_array_16bit_loop ((1 : Nat) : Int) 0 0 [⟨0x12, 0xAB, 0x05⟩],
      create_raw_16bit_loop ((1 : Nat) : Int) 0 0 [⟨0x12, 0xAB, 0x05⟩])
    (List.mem_cons_of_mem _ (List.mem_cons_of_mem _ (List.mem_cons_self _ _)))⟩

set_option maxRecDepth 100000 in
/-- C17, as the claim states it, fails: with the append flag set and a
destination that exists and is empty, `create_c_array_8bit` writes a text that
begins with the blank lines `"\n\n"`, not with the banner comment. -/
theorem create_c_array_append_empty_counterexample :
    create_c_array_8bit [] 0
        ⟨none, some "bitmap.c", FORMAT_CARRAY, 8, APPEND, some "bitmap", UNSET⟩
        header_init ⟨true, some []⟩
      = some (1, ⟨true, some (text ("\n\n"
          ++ "/* Array with bitmap containing data of a 0x0 (0 pixels) image.\n"
          ++ " * Each pixel has 8 bits (RRRGGGBB).\n"
          ++ " */\n"
          ++ "unsigned char bitmap[] = \x7b\n\t\n\x7d;"))⟩) := by
  decide

/-- C17, amended.  C array appended to an existing file: when a function
`create_c_array_*` runs with the append flag set and the destination exists,
empty or not, the text it adds to the file begins with the blank lines
`"\n\n"` followed by the format comment; the text begins with the banner
comment when no file exists at the destination. -/
theorem create_c_array_append_existing (buf : List pixel) (pixels : Int) (o : options)
    (h : bmp_header) (old : List Nat) (b2_init : Nat) (name : String)
    (hpixels : pixels = (buf.length : Int)) (happend : o.append = APPEND)
    (hname : o.arrayname = some name) :
    ∀ F ∈ [create_c_array_8bit buf pixels o h, create_c_array_12bit buf pixels o h,
        (create_c_array_16bit buf pixels o h · b2_init), create_c_array_24bit buf pixels o h],
      (∃ rest : List Nat,
        F ⟨true, some old⟩
          = some (1, ⟨true, some (old ++ (text "\n\n"
              ++ (text "/* Array with bitmap containing data of a " ++ rest)))⟩)) ∧
      (∃ rest : List Nat,
        F ⟨true, none⟩
          = some (1, ⟨true, some
              (text "/* This is an auto-generated file generated by bmpdump */\n\n"
                ++ rest)⟩)) := by
  intro F hF
  obtain ⟨layout, body, hshape, _, _⟩ := create_c_array_shape buf pixels o h b2_init hpixels F hF
  exact ⟨⟨_, by rw [hshape, c_array_result_append layout body pixels o h old name happend hname]⟩,
    ⟨_, by rw [hshape, c_array_result_banner layout body pixels o h none name (Or.inr rfl)
      hname]⟩⟩

theorem create_c_array_append_existing_witness :
    (∃ rest : List Nat,
      create_c_array_8bit [⟨0x12, 0xAB, 0x05⟩] ((1 : Nat) : Int)
          ⟨none, some "bitmap.c", FORMAT_CARRAY, 8, APPEND, some "bitmap", UNSET⟩ header_init
          ⟨true, some []⟩
        = some (1, ⟨true, some ([] ++ (text "\n\n"
            ++ (text "/* Array with bitmap containing data of a " ++ rest)))⟩)) ∧
    (∃ rest : List Nat,
      create_c_array_8bit [⟨0x12, 0xAB, 0x05⟩] ((1 : Nat) : Int)
          ⟨none, some "bitmap.c", FORMAT_CARRAY, 8, APPEND, some "bitmap", UNSET⟩ header_init
          ⟨true, none⟩
        = some (1, ⟨true, some
            (text "/* This is an auto-generated file generated by bmpdump */\n\n"
              ++ rest)⟩)) :=
  create_c_array_append_existing [⟨0x12, 0xAB, 0x05⟩] ((1 : Nat) : Int)
    ⟨none, some "bitmap.c", FORMAT_CARRAY, 8, APPEND, some "bitmap", UNSET⟩ header_init []
    0 "bitmap" rfl rfl rfl
    (create_c_array_8bit [⟨0x12, 0xAB, 0x05⟩] ((1 : Nat) : Int)
      ⟨none, some "bitmap.c", FORMAT_CARRAY, 8, APPEND, some "bitmap", UNSET⟩ header_init)
    (List.mem_cons_self _ _)

/-- C18. Banner or separator of the C array: when a function `create_c_array_*`
runs with the append flag set on an existing destination (non-empty or not), the file
afterwards is the old content followed by `"\n\n"` and then the format
comment, without the banner comment; when the append flag is not set, the file
afterwards starts with the banner comment and is the same whatever the
destination held before. -/
theorem create_c_array_banner_or_separator (buf : List pixel) (pixels : Int) (o : options)
    (h : bmp_header) (old : List Nat) (b2_init : Nat) (name : String)
    (hpixels : pixels = (buf.length : Int)) (hname : o.arrayname = some name) :
    ∀ F ∈ [create_c_array_8bit buf pixels o h, create_c_array_12bit buf pixels o h,
        (create_c_array_16bit buf pixels o h · b2_init), create_c_array_24bit buf pixels o h],
      (o.append = APPEND →
        ∃ rest : List Nat,
          F ⟨true, some old⟩
            = some (1, ⟨true, some (old ++ (text "\n\n"
                ++ (text "/* Array with bitmap containing data of a " ++ rest)))⟩)) ∧
      (o.append ≠ APPEND →
        ∃ rest : List Nat, ∀ c : Option (List Nat),
          F ⟨true, c⟩
            = some (1, ⟨true, some
                (text "/* This is an auto-generated file generated by bmpdump */\n\n"
                  ++ rest)⟩)) := by
  intro F hF
  obtain ⟨layout, body, hshape, _, _⟩ := create_c_array_shape buf pixels o h b2_init hpixels F hF
  exact ⟨fun happend =>
      ⟨_, by rw [hshape, c_array_result_append layout body pixels o h old name happend hname]⟩,
    fun hna => ⟨_, fun c => by
      rw [hshape, c_array_result_banner layout body pixels o h c name (Or.inl hna) hname]⟩⟩

theorem create_c_array_banner_or_separator_witness :
    ∃ rest : List Nat,
      create_c_array_8bit [⟨0x12, 0xAB, 0x05⟩] ((1 : Nat) : Int)
          ⟨none, some "bitmap.c", FORMAT_CARRAY, 8, APPEND, some "bitmap", UNSET⟩ header_init
          ⟨true, some [47, 47, 10]⟩
        = some (1, ⟨true, some ([47, 47, 10] ++ (text "\n\n"
            ++ (text "/* Array with bitmap containing data of a " ++ rest)))⟩) :=
  (create_c_array_banner_or_separator [⟨0x12, 0xAB, 0x05⟩] ((1 : Nat) : Int)
    ⟨none, some "bitmap.c", FORMAT_CARRAY, 8, APPEND, some "bitmap", UNSET⟩ header_init
    [47, 47, 10] 0 "bitmap" rfl rfl
    (create_c_array_8bit [⟨0x12, 0xAB, 0x05⟩] ((1 : Nat) : Int)
      ⟨none, some "bitmap.c", FORMAT_CARRAY, 8, APPEND, some "bitmap", UNSET⟩ header_init)
    (List.mem_cons_self _ _)).1 rfl

/-! ## The program and its options -/

set_option maxRecDepth 100000 in
/-- C19 fails on the code.  `main` returns 1 when the options cannot be parsed,
when the input file cannot be opened, when the header is rejected and when the
buffer cannot be allocated; but when the output file cannot be opened,
`create_raw_24bit` returns 0 and `main` still returns 0. -/
theorem main_ignores_output_failure :
    main ["bmpdump", "-bpp", "7"]
        ⟨some sample_bmp, ⟨true, none⟩, fun _ => true, fun _ => ⟨0, 0, 0⟩, 0⟩
      = some (1, ⟨true, none⟩) ∧
    main ["bmpdump", "-format", "raw", "-bpp", "24"]
        ⟨none, ⟨true, none⟩, fun _ => true, fun _ => ⟨0, 0, 0⟩, 0⟩
      = some (1, ⟨true, none⟩) ∧
    main ["bmpdump", "-format", "raw", "-bpp", "24"]
        ⟨some (sample_header 32 0 ++ sample_pixels), ⟨true, none⟩, fun _ => true,
          fun _ => ⟨0, 0, 0⟩, 0⟩
      = some (1, ⟨true, none⟩) ∧
    main ["bmpdump", "-format", "raw", "-bpp", "24"]
        ⟨some sample_bmp, ⟨true, none⟩, fun n => decide (n ≠ 1), fun _ => ⟨0, 0, 0⟩, 0⟩
      = some (1, ⟨true, none⟩) ∧
    create_raw_24bit [⟨0x13, 0x12, 0x11⟩, ⟨0x23, 0x22, 0x21⟩, ⟨0x33, 0x32, 0x31⟩,
          ⟨0x43, 0x42, 0x41⟩] 4
        ⟨some "bitmap.bmp", some "bitmap.raw", FORMAT_RAW, 24, UNSET, none, UNSET⟩
        ⟨false, none⟩
      = some (0, ⟨false, none⟩) ∧
    main ["bmpdump", "-format", "raw", "-bpp", "24"]
        ⟨some sample_bmp, ⟨false, none⟩, fun _ => true, fun _ => ⟨0, 0, 0⟩, 0⟩
      = some (0, ⟨false, none⟩) := by
  decide

theorem parse_opts_loop_format :
    ∀ (args : List String) (o : options),
      (o.format = UNSET ∨ o.format = FORMAT_RAW ∨ o.format = FORMAT_CARRAY) →
      ((parse_opts_loop args o).2.format = UNSET ∨
        (parse_opts_loop args o).2.format = FORMAT_RAW ∨
        (parse_opts_loop args o).2.format = FORMAT_CARRAY) := by
  intro args o
  induction args, o using parse_opts_loop.induct <;> intro hf <;>
    rw [parse_opts_loop.eq_def] <;> simp_all

/-- C20. Option defaults: from the all-zero options structure, when the
allocations succeed, `parse_opts` without arguments returns 1 with input file
"bitmap.bmp", format C array, 12 bits per pixel, output file "bitmap.c", array
name "bitmap", append and verbose unset; with only `-format raw` the output
file is "bitmap.raw"; options given on the command line are kept: every field
that the arguments have set keeps its value when the defaults are filled in. -/
theorem parse_opts_defaults (prog : String) (malloc_ok : Nat → Bool)
    (hmalloc : ∀ n, malloc_ok n = true) :
    parse_opts [prog] opts_init malloc_ok
      = some (1, ⟨some "bitmap.bmp", some "bitmap.c", FORMAT_CARRAY, 12, UNSET,
          some "bitmap", UNSET⟩) ∧
    parse_opts [prog, "-format", "raw"] opts_init malloc_ok
      = some (1, ⟨some "bitmap.bmp", some "bitmap.raw", FORMAT_RAW, 12, UNSET, none, UNSET⟩) ∧
    (∀ a b n : String,
      parse_opts [prog, "-if", a, "-of", b, "-format", "raw", "-bpp", "8", "-arrayname", n,
          "-append", "-verbose"] opts_init malloc_ok
        = some (1, ⟨some a, some b, FORMAT_RAW, 8, APPEND, some n, VERBOSE⟩)) ∧
    (∀ (args : List String) (o1 : options), parse_opts_loop args opts_init = (1, o1) →
      ∃ o2 : options,
        parse_opts (prog :: args) opts_init malloc_ok = some (1, o2) ∧
        (∀ x, o1.input_file = some x → o2.input_file = some x) ∧
        (∀ x, o1.output_file = some x → o2.output_file = some x) ∧
        (o1.format ≠ UNSET → o2.format = o1.format) ∧
        (o1.bpp ≠ UNSET → o2.bpp = o1.bpp) ∧
        (∀ x, o1.arrayname = some x → o2.arrayname = some x) ∧
        o2.append = o1.append ∧ o2.verbose = o1.verbose) := by
  refine ⟨?_, ?_, ?_, ?_⟩
  · simp [parse_opts, parse_opts_loop, parse_opts_input_file, parse_opts_format,
      parse_opts_output_file, parse_opts_bpp, parse_opts_arrayname, opts_init, hmalloc,
      UNSET, FORMAT_CARRAY, FORMAT_RAW]
  · simp [parse_opts, parse_opts_loop, parse_opts_input_file, parse_opts_format,
      parse_opts_output_file, parse_opts_bpp, parse_opts_arrayname, opts_init, hmalloc,
      UNSET, FORMAT_CARRAY, FORMAT_RAW]
  · intro a b n
    simp [parse_opts, parse_opts_loop, parse_opts_input_file, parse_opts_format,
      parse_opts_output_file, parse_opts_bpp, parse_opts_arrayname, opts_init, hmalloc,
      UNSET, FORMAT_CARRAY, FORMAT_RAW, APPEND, VERBOSE]
  · intro args o1 hl
    have hf := parse_opts_loop_format args opts_init (Or.inl rfl)
    rw [hl] at hf
    obtain ⟨i, f, fm, bp, ap, an, vb⟩ := o1
    simp only [UNSET, FORMAT_RAW, FORMAT_CARRAY] at hf
    have hone : ¬ ((1 : Int) = 0) := by decide
    simp only [parse_opts, List.drop_succ_cons, List.drop_zero, hl, if_neg hone]
    rcases hf with rfl | rfl | rfl <;> cases i <;> cases f <;> cases an <;>
      by_cases hb : bp = 0 <;>
      simp [parse_opts_input_file, parse_opts_format, parse_opts_output_file, parse_opts_bpp,
        parse_opts_arrayname, hmalloc, UNSET, FORMAT_CARRAY, FORMAT_RAW, hb]

theorem parse_opts_defaults_witness :
    parse_opts ["bmpdump"] opts_init (fun _ => true)
      = some (1, ⟨some "bitmap.bmp", some "bitmap.c", FORMAT_CARRAY, 12, UNSET,
          some "bitmap", UNSET⟩) ∧
    parse_opts ["bmpdump", "-format", "raw"] opts_init (fun _ => true)
      = some (1, ⟨some "bitmap.bmp", some "bitmap.raw", FORMAT_RAW, 12, UNSET, none, UNSET⟩) :=
  ⟨(parse_opts_defaults "bmpdump" (fun _ => true) (fun _ => rfl)).1,
   (parse_opts_defaults "bmpdump" (fun _ => true) (fun _ => rfl)).2.1⟩

/-! ## The 16 bit layout -/

set_option maxRecDepth 100000 in
theorem and_248_eq : ∀ x, x < 256 → x &&& 0xF8 = 8 * (x / 8) := by
  decide

set_option maxRecDepth 100000 in
theorem second16_green : ∀ g, g < 256 →
    u8 (u8 (0 ||| (g <<< 3)) &&& not32 (0xFF >>> 3)) = 32 * (g / 4 % 8) := by
  decide

/-- The two bytes that the 16 bit loops compute for a pixel when `b2` is 0 at
loop entry, as numbers. -/
theorem bytes16_closed (r g b : Nat) (hr : r < 256) (hg : g < 256) (hb : b < 256) :
    u8 (u8 (u8 r &&& not32 (0xFF >>> 5)) ||| (g >>> 5)) = 8 * (r / 8) + g / 32 ∧
    u8 (u8 (u8 (0 ||| (g <<< 3)) &&& not32 (0xFF >>> 3)) ||| (b >>> 3))
      = 32 * (g / 4 % 8) + b / 8 := by
  have e5 : g >>> 5 = g / 32 := Nat.shiftRight_eq_div_pow g 5
  have e3 : b >>> 3 = b / 8 := Nat.shiftRight_eq_div_pow b 3
  have h1 : 8 * (r / 8) + g / 32 = 8 * (r / 8) ||| g / 32 :=
    @Nat.mul_add_lt_is_or 3 (g / 32) (by show g / 32 < 8; omega) _
  have h2 : 32 * (g / 4 % 8) + b / 8 = 32 * (g / 4 % 8) ||| b / 8 :=
    @Nat.mul_add_lt_is_or 5 (b / 8) (by show b / 8 < 32; omega) _
  constructor
  · rw [first16_closed r g hr hg, and_248_eq r hr, e5]
    exact h1.symm
  · rw [second16_green g hg, e3, u8_of_lt]
    · exact h2.symm
    · rw [← h2]
      omega

/-- The RGB565 value as a number. -/
theorem spec_rgb565_closed (r g b : Nat) (hg : g < 256) (hb : b < 256) :
    spec_rgb565 r g b = 2048 * (r / 8) + 32 * (g / 4) + b / 8 := by
  have e1 : r >>> 3 = r / 8 := Nat.shiftRight_eq_div_pow r 3
  have e2 : g >>> 2 = g / 4 := Nat.shiftRight_eq_div_pow g 2
  have e3 : b >>> 3 = b / 8 := Nat.shiftRight_eq_div_pow b 3
  have h1 : 32 * (g / 4) + b / 8 = 32 * (g / 4) ||| b / 8 :=
    @Nat.mul_add_lt_is_or 5 (b / 8) (by show b / 8 < 32; omega) _
  have h2 : 2048 * (r / 8) + (32 * (g / 4) + b / 8)
      = 2048 * (r / 8) ||| (32 * (g / 4) + b / 8) :=
    @Nat.mul_add_lt_is_or 11 (32 * (g / 4) + b / 8)
      (by show 32 * (g / 4) + b / 8 < 2048; omega) _
  have s1 : (r / 8) <<< 11 = 2048 * (r / 8) := by rw [Nat.shiftLeft_eq, Nat.mul_comm]
  have s2 : (g / 4) <<< 5 = 32 * (g / 4) := by rw [Nat.shiftLeft_eq, Nat.mul_comm]
  unfold spec_rgb565
  rw [e1, e2, e3, s1, s2, Nat.or_assoc, ← h1, ← h2]
  omega

/-- With `b2` 0 at loop entry, the loop of `create_raw_16bit` writes a single
pixel as the two bytes of its RGB565 value, high byte first. -/
theorem create_raw_16bit_loop_rgb565 (p : pixel) (hr : p.r < 256) (hg : p.g < 256)
    (hb : p.b < 256) :
    ∃ b1 b2 : Nat, create_raw_16bit_loop 1 0 0 [p] = some [b1, b2] ∧
      b1 < 256 ∧ b2 < 256 ∧ b1 * 256 + b2 = spec_rgb565 p.r p.g p.b := by
  obtain ⟨h1, h2⟩ := bytes16_closed p.r p.g p.b hr hg hb
  refine ⟨_, _, rfl, u8_lt _, u8_lt _, ?_⟩
  rw [h1, h2, spec_rgb565_closed p.r p.g p.b hg hb]
  omega

/-- C21 fails on the code.  No pixel with byte components is written by
`create_raw_16bit`, with `b2` 0 at loop entry, as two bytes whose big-endian
value differs from the RGB565 value of the pixel. -/
theorem create_raw_16bit_differs_counterexample :
    ¬ ∃ p : pixel, p.r < 256 ∧ p.g < 256 ∧ p.b < 256 ∧
        ∃ b1 b2 : Nat,
          create_raw_16bit [p] 1
              ⟨none, some "out.raw", FORMAT_RAW, 16, UNSET, none, UNSET⟩ ⟨true, none⟩ 0
            = some (1, ⟨true, some [b1, b2]⟩) ∧
          b1 * 256 + b2 ≠ spec_rgb565 p.r p.g p.b := by
  rintro ⟨p, hr, hg, hb, b1, b2, hout, hne⟩
  obtain ⟨c1, c2, hloop, -, -, hval⟩ := create_raw_16bit_loop_rgb565 p hr hg hb
  simp only [create_raw_16bit] at hout
  rw [hloop] at hout
  simp at hout
  obtain ⟨h1, h2⟩ := hout
  subst h1 h2
  exact hne hval

/-- C21, amended.  For every pixel (r, g, b) with byte components, a buffer of
that one pixel and `b2` 0 at loop entry, `create_raw_16bit` returns 1 and
writes two bytes `b1`, `b2` after the kept content of the file, and their
big-endian value `256 * b1 + b2` is the RGB565 value
`((r >> 3) << 11) | ((g >> 2) << 5) | (b >> 3)`. -/
theorem create_raw_16bit_is_rgb565 (p : pixel) (o : options) (dst : OutFile)
    (hr : p.r < 256) (hg : p.g < 256) (hb : p.b < 256) (hopen : dst.writable = true) :
    ∃ b1 b2 : Nat,
      create_raw_16bit [p] 1 o dst 0
        = some (1, ⟨true, some ((if o.append = APPEND then dst.content.getD [] else [])
                                  ++ [b1, b2])⟩) ∧
      b1 < 256 ∧ b2 < 256 ∧ b1 * 256 + b2 = spec_rgb565 p.r p.g p.b := by
  obtain ⟨c1, c2, hloop, hc1, hc2, hval⟩ := create_raw_16bit_loop_rgb565 p hr hg hb
  refine ⟨c1, c2, ?_, hc1, hc2, hval⟩
  simp only [create_raw_16bit, hopen]
  rw [hloop]
  simp

theorem create_raw_16bit_is_rgb565_witness :
    (create_raw_16bit [⟨0xFF, 0x80, 0x40⟩] 1
        ⟨none, some "out.raw", FORMAT_RAW, 16, UNSET, none, UNSET⟩ ⟨true, some [7]⟩ 0
      = some (1, ⟨true, some [0xFC, 0x08]⟩)) ∧
    spec_rgb565 0xFF 0x80 0x40 = 0xFC08 ∧
    ∃ b1 b2 : Nat,
      create_raw_16bit [⟨0xFF, 0x80, 0x40⟩] 1
          ⟨none, some "out.raw", FORMAT_RAW, 16, UNSET, none, UNSET⟩ ⟨true, some [7]⟩ 0
        = some (1, ⟨true, some ((if UNSET = APPEND then [7] else []) ++ [b1, b2])⟩) ∧
      b1 < 256 ∧ b2 < 256 ∧ b1 * 256 + b2 = spec_rgb565 0xFF 0x80 0x40 :=
  ⟨by decide, by decide,
   create_raw_16bit_is_rgb565 ⟨0xFF, 0x80, 0x40⟩
     ⟨none, some "out.raw", FORMAT_RAW, 16, UNSET, none, UNSET⟩ ⟨true, some [7]⟩
     (by decide) (by decide) (by decide) rfl⟩

/-! ## The row padding -/

/-- C22. Row padding formula: `get_data` skips `pad = (w*3 mod 2^32) mod 4` bytes
after each row of a header of width `w` (on a stream that holds all rows, the
position afterwards is `d + h * (3 * w + pad)`), and for every width `w`, so
for every 32 bit one, `pad` is the BMP padding `(4 - (3*w) mod 4) mod 4` if and
only if `w` is even; for every odd `w` the two differ. -/
theorem get_data_padding (header : bmp_header) (data : List Nat) (pos : Nat)
    (pixbuf : List pixel)
    (hlen : header.data_offset + header.height * (3 * header.width + 3 * header.width % 4)
      ≤ data.length)
    (hbuf : header.height * header.width ≤ pixbuf.length) :
    ∃ pad : Nat, pad = header.width * 3 % 4294967296 % 4 ∧
      (get_data header ⟨data, pos⟩ pixbuf header).map (fun res => res.1.pos)
        = some (header.data_offset + header.height * (3 * header.width + pad)) ∧
      (pad = spec_bmp_padding header.width ↔ header.width % 2 = 0) ∧
      (header.width % 2 = 1 → pad ≠ spec_bmp_padding header.width) := by
  refine ⟨header.width * 3 % 4294967296 % 4, rfl, ?_, ?_, ?_⟩
  · rw [get_data_full header data pos pixbuf hlen hbuf, padding_eq]
    rfl
  · unfold spec_bmp_padding
    omega
  · unfold spec_bmp_padding
    omega

theorem get_data_padding_witness :
    ∃ pad : Nat, pad = 3 * 3 % 4294967296 % 4 ∧
      (get_data ⟨0x4D42, 0x46, 0x36, 0x28, 3, 1, 1, 24, 0, 0x10, 0x0B13, 0x0B13, 0, 0⟩
          ⟨sample_header 24 0 ++ sample_pixels, 54⟩
          [⟨0, 0, 0⟩, ⟨0, 0, 0⟩, ⟨0, 0, 0⟩]
          ⟨0x4D42, 0x46, 0x36, 0x28, 3, 1, 1, 24, 0, 0x10, 0x0B13, 0x0B13, 0, 0⟩).map
          (fun res => res.1.pos)
        = some (0x36 + 1 * (3 * 3 + pad)) ∧
      (pad = spec_bmp_padding 3 ↔ 3 % 2 = 0) ∧
      (3 % 2 = 1 → pad ≠ spec_bmp_padding 3) :=
  get_data_padding ⟨0x4D42, 0x46, 0x36, 0x28, 3, 1, 1, 24, 0, 0x10, 0x0B13, 0x0B13, 0, 0⟩
    (sample_header 24 0 ++ sample_pixels) 54 [⟨0, 0, 0⟩, ⟨0, 0, 0⟩, ⟨0, 0, 0⟩]
    (by decide) (by decide)

/-! ## The 8 bit layout -/

set_option maxRecDepth 100000 in
theorem fields8_red : ∀ x, x < 256 →
    x &&& 0xE0 = 32 * (x / 32) ∧ (x &&& 0xE0) &&& 0xE0 = x &&& 0xE0 ∧ x &&& 0xE0 < 256 := by
  decide

set_option maxRecDepth 100000 in
theorem fields8_green : ∀ x, x < 256 →
    (x >>> 3) &&& 0x1C = 4 * (x / 32) ∧ x &&& 0xE0 = 32 * (x / 32) ∧
    ((x &&& 0xE0) >>> 3) &&& 0x1C = (x >>> 3) &&& 0x1C ∧ x &&& 0xE0 < 256 := by
  decide

set_option maxRecDepth 100000 in
theorem fields8_blue : ∀ x, x < 256 →
    (x >>> 6) &&& 0x03 = x / 64 ∧ x &&& 0xC0 = 64 * (x / 64) ∧
    ((x &&& 0xC0) >>> 6) &&& 0x03 = (x >>> 6) &&& 0x03 ∧ x &&& 0xC0 < 256 := by
  decide

set_option maxRecDepth 100000 in
theorem fields8_split : ∀ a, a < 8 → ∀ c, c < 8 → ∀ d, d < 4 →
    ((32 * a) ||| (4 * c) ||| d) &&& 0xE0 = 32 * a ∧
    (((32 * a) ||| (4 * c) ||| d) <<< 3) &&& 0xE0 = 32 * c ∧
    (((32 * a) ||| (4 * c) ||| d) <<< 6) &&& 0xC0 = 64 * d := by
  decide

/-- The three fields of the byte of the 8 bit loops are the top bits of the
channels. -/
theorem pack8_fields (r g b : Nat) (hr : r < 256) (hg : g < 256) (hb : b < 256) :
    ((r &&& 0xE0) ||| ((g >>> 3) &&& 0x1C) ||| ((b >>> 6) &&& 0x03)) &&& 0xE0 = r &&& 0xE0 ∧
    (((r &&& 0xE0) ||| ((g >>> 3) &&& 0x1C) ||| ((b >>> 6) &&& 0x03)) <<< 3) &&& 0xE0
      = g &&& 0xE0 ∧
    (((r &&& 0xE0) ||| ((g >>> 3) &&& 0x1C) ||| ((b >>> 6) &&& 0x03)) <<< 6) &&& 0xC0
      = b &&& 0xC0 := by
  obtain ⟨r1, -, -⟩ := fields8_red r hr
  obtain ⟨g1, g2, -, -⟩ := fields8_green g hg
  obtain ⟨b1, b2, -, -⟩ := fields8_blue b hb
  rw [r1, g1, g2, b1, b2]
  exact fields8_split (r / 32) (by omega) (g / 32) (by omega) (b / 64) (by omega)

/-- The loop of `create_raw_8bit` on a buffer of one pixel. -/
theorem create_raw_8bit_loop_one (p : pixel) (hr : p.r < 256) (hg : p.g < 256)
    (hb : p.b < 256) :
    create_raw_8bit_loop 1 0 [p]
      = some [(p.r &&& 0xE0) ||| ((p.g >>> 3) &&& 0x1C) ||| ((p.b >>> 6) &&& 0x03)] :=
  create_raw_8bit_loop_eq 1 [p] 0 rfl
    (fun q hq => by rw [List.mem_singleton] at hq; subst hq; exact ⟨hr, hg, hb⟩)

/-- C23. 8 bit truncation keeps exactly the top bits: for every pixel
(r, g, b) with byte components, the loop of `create_raw_8bit` writes a
one-pixel buffer as one byte `v` with `v & 0xE0 = r & 0xE0`,
`(v << 3) & 0xE0 = g & 0xE0` and `(v << 6) & 0xC0 = b & 0xC0`; the pixel
(r & 0xE0, g & 0xE0, b & 0xC0) is written as the same byte, and another pixel
is written as `v` if and only if it agrees with (r, g, b) on the top 3 bits
of red, the top 3 bits of green and the top 2 bits of blue. -/
theorem create_raw_8bit_top_bits (p : pixel) (hr : p.r < 256) (hg : p.g < 256)
    (hb : p.b < 256) :
    ∃ v : Nat, create_raw_8bit_loop 1 0 [p] = some [v] ∧
      v &&& 0xE0 = p.r &&& 0xE0 ∧
      (v <<< 3) &&& 0xE0 = p.g &&& 0xE0 ∧
      (v <<< 6) &&& 0xC0 = p.b &&& 0xC0 ∧
      create_raw_8bit_loop 1 0 [⟨p.r &&& 0xE0, p.g &&& 0xE0, p.b &&& 0xC0⟩] = some [v] ∧
      ∀ q : pixel, q.r < 256 → q.g < 256 → q.b < 256 →
        (create_raw_8bit_loop 1 0 [q] = some [v] ↔
          q.r &&& 0xE0 = p.r &&& 0xE0 ∧ q.g &&& 0xE0 = p.g &&& 0xE0 ∧
            q.b &&& 0xC0 = p.b &&& 0xC0) := by
  obtain ⟨f1, f2, f3⟩ := pack8_fields p.r p.g p.b hr hg hb
  obtain ⟨-, r2, r3⟩ := fields8_red p.r hr
  obtain ⟨-, -, g3, g4⟩ := fields8_green p.g hg
  obtain ⟨-, -, b3, b4⟩ := fields8_blue p.b hb
  refine ⟨_, create_raw_8bit_loop_one p hr hg hb, f1, f2, f3, ?_, ?_⟩
  · rw [create_raw_8bit_loop_one _ r3 g4 b4]
    simp only [r2, g3, b3]
  · intro q qr qg qb
    obtain ⟨e1, e2, e3⟩ := pack8_fields q.r q.g q.b qr qg qb
    rw [create_raw_8bit_loop_one q qr qg qb]
    constructor
    · intro h
      have hv : (q.r &&& 0xE0) ||| ((q.g >>> 3) &&& 0x1C) ||| ((q.b >>> 6) &&& 0x03)
          = (p.r &&& 0xE0) ||| ((p.g >>> 3) &&& 0x1C) ||| ((p.b >>> 6) &&& 0x03) := by
        simpa using h
      rw [hv] at e1 e2 e3
      exact ⟨e1.symm.trans f1, e2.symm.trans f2, e3.symm.trans f3⟩
    · rintro ⟨h1, h2, h3⟩
      obtain ⟨-, -, qg3, -⟩ := fields8_green q.g qg
      obtain ⟨-, -, qb3, -⟩ := fields8_blue q.b qb
      rw [h1, ← qg3, ← qb3, h2, h3, g3, b3]

theorem create_raw_8bit_top_bits_witness :
    create_raw_8bit_loop 1 0 [⟨0xFF, 0x80, 0x40⟩] = some [0xF1] ∧
    ∃ v : Nat, create_raw_8bit_loop 1 0 [⟨0xFF, 0x80, 0x40⟩] = some [v] ∧
      v &&& 0xE0 = 0xFF &&& 0xE0 ∧
      (v <<< 3) &&& 0xE0 = 0x80 &&& 0xE0 ∧
      (v <<< 6) &&& 0xC0 = 0x40 &&& 0xC0 ∧
      create_raw_8bit_loop 1 0 [⟨0xFF &&& 0xE0, 0x80 &&& 0xE0, 0x40 &&& 0xC0⟩] = some [v] ∧
      ∀ q : pixel, q.r < 256 → q.g < 256 → q.b < 256 →
        (create_raw_8bit_loop 1 0 [q] = some [v] ↔
          q.r &&& 0xE0 = 0xFF &&& 0xE0 ∧ q.g &&& 0xE0 = 0x80 &&& 0xE0 ∧
            q.b &&& 0xC0 = 0x40 &&& 0xC0) :=
  ⟨by decide,
   create_raw_8bit_top_bits ⟨0xFF, 0x80, 0x40⟩ (by decide) (by decide) (by decide)⟩

/-! ## The raw files and the C array files -/

/-- C24. Raw and C array agree: for each bit depth, when `pixels` is the number
of pixels in the buffer, the array name is set and both destinations can be
opened, the loop of `create_c_array_<bpp>bit` prints a list of items, the
function writes their text as the array body (between
`"unsigned char <name>[] = {\n\t"` and `"\n};"`), and the literals among the
items are, in order, exactly the bytes that `create_raw_<bpp>bit` leaves in a
file opened in overwrite mode; for 16 bits both start from the same content of
`b2`.  For byte-valued channels the body with the line breaks taken out is,
for each byte of the raw file in order, `"0x"`, its two lowercase hexadecimal
digits and `", "`. -/
theorem create_raw_eq_c_array_literals (buf : List pixel) (pixels : Int) (o1 o2 : options)
    (h : bmp_header) (dst1 dst2 : OutFile) (b2_init : Nat) (name : String)
    (hpixels : pixels = (buf.length : Int)) (hopen1 : dst1.writable = true)
    (hopen2 : dst2.writable = true) (hname : o1.arrayname = some name)
    (happend : o2.append ≠ APPEND) :
    ∀ T ∈ [(create_c_array_8bit buf pixels o1 h, create_raw_8bit buf pixels o2,
          create_c_array_8bit_loop pixels 0 buf),
        (create_c_array_12bit buf pixels o1 h, create_raw_12bit buf pixels o2,
          create_c_array_12bit_loop pixels 0 buf),
        ((create_c_array_16bit buf pixels o1 h · b2_init),
          (create_raw_16bit buf pixels o2 · b2_init),
          create_c_array_16bit_loop pixels 0 b2_init buf),
        (create_c_array_24bit buf pixels o1 h, create_raw_24bit buf pixels o2,
          create_c_array_24bit_loop pixels 0 buf)],
      ∃ (before : List Nat) (body : List Chunk) (bytes : List Nat),
        T.2.2 = some body ∧ Chunk.literals body = bytes ∧
        T.1 dst1 = some (1, { writable := true,
                              content := some (before
                                ++ (text "unsigned char " ++ text name ++ text "[] = \x7b\n\t")
                                ++ Chunk.render body ++ text "\n\x7d;") }) ∧
        T.2.1 dst2 = some (1, ⟨true, some bytes⟩) ∧
        ((∀ p ∈ buf, p.r < 256 ∧ p.g < 256 ∧ p.b < 256) →
          remove_wraps (Chunk.render body)
            = (bytes.map fun b =>
                text "0x" ++ [hex_digit (b / 16), hex_digit (b % 16)] ++ text ", ").flatten) := by
  obtain ⟨w1, c1⟩ := dst1
  obtain ⟨w2, c2⟩ := dst2
  simp only at hopen1 hopen2
  subst hopen1 hopen2
  intro T hT
  simp only [List.mem_cons, List.mem_singleton, List.not_mem_nil, or_false] at hT
  rcases hT with rfl | rfl | rfl | rfl
  · obtain ⟨layout, body, hbody, hraw, hshape, hlt, -⟩ :=
      create_c_array_body buf pixels o1 h b2_init hpixels
        (create_c_array_8bit buf pixels o1 h, create_c_array_8bit_loop pixels 0 buf,
          create_raw_8bit_loop pixels 0 buf) (by simp)
    obtain ⟨before, hbefore⟩ := c_array_result_ends layout body pixels o1 h c1 name hname
    refine ⟨before, body, Chunk.literals body, hbody, rfl, ?_, ?_,
      fun hv => remove_wraps_render body (hlt hv)⟩
    · show create_c_array_8bit buf pixels o1 h ⟨true, c1⟩ = _
      rw [← hbefore]
      exact hshape ⟨true, c1⟩
    · show create_raw_8bit buf pixels o2 ⟨true, c2⟩ = _
      simp only [create_raw_8bit]
      rw [show create_raw_8bit_loop pixels 0 buf = some (Chunk.literals body) from hraw]
      simp [happend]
  · obtain ⟨layout, body, hbody, hraw, hshape, hlt, -⟩ :=
      create_c_array_body buf pixels o1 h b2_init hpixels
        (create_c_array_12bit buf pixels o1 h, create_c_array_12bit_loop pixels 0 buf,
          create_raw_12bit_loop pixels 0 buf) (by simp)
    obtain ⟨before, hbefore⟩ := c_array_result_ends layout body pixels o1 h c1 name hname
    refine ⟨before, body, Chunk.literals body, hbody, rfl, ?_, ?_,
      fun hv => remove_wraps_render body (hlt hv)⟩
    · show create_c_array_12bit buf pixels o1 h ⟨true, c1⟩ = _
      rw [← hbefore]
      exact hshape ⟨true, c1⟩
    · show create_raw_12bit buf pixels o2 ⟨true, c2⟩ = _
      simp only [create_raw_12bit]
      rw [show create_raw_12bit_loop pixels 0 buf = some (Chunk.literals body) from hraw]
      simp [happend]
  · obtain ⟨layout, body, hbody, hraw, hshape, hlt, -⟩ :=
      create_c_array_body buf pixels o1 h b2_init hpixels
        ((create_c_array_16bit buf pixels o1 h · b2_init), create_c_array_16bit_loop pixels 0 b2_init buf,
          create_raw_16bit_loop pixels 0 b2_init buf) (by simp)
    obtain ⟨before, hbefore⟩ := c_array_result_ends layout body pixels o1 h c1 name hname
    refine ⟨before, body, Chunk.literals body, hbody, rfl, ?_, ?_,
      fun hv => remove_wraps_render body (hlt hv)⟩
    · show create_c_array_16bit buf pixels o1 h ⟨true, c1⟩ b2_init = _
      rw [← hbefore]
      exact hshape ⟨true, c1⟩
    · show create_raw_16bit buf pixels o2 ⟨true, c2⟩ b2_init = _
      simp only [create_raw_16bit]
      rw [show create_raw_16bit_loop pixels 0 b2_init buf = some (Chunk.literals body) from hraw]
      simp [happend]
  · obtain ⟨layout, body, hbody, hraw, hshape, hlt, -⟩ :=
      create_c_array_body buf pixels o1 h b2_init hpixels
        (create_c_array_24bit buf pixels o1 h, create_c_array_24bit_loop pixels 0 buf,
          create_raw_24bit_loop pixels 0 buf) (by simp)
    obtain ⟨before, hbefore⟩ := c_array_result_ends layout body pixels o1 h c1 name hname
    refine ⟨before, body, Chunk.literals body, hbody, rfl, ?_, ?_,
      fun hv => remove_wraps_render body (hlt hv)⟩
    · show create_c_array_24bit buf pixels o1 h ⟨true, c1⟩ = _
      rw [← hbefore]
      exact hshape ⟨true, c1⟩
    · show create_raw_24bit buf pixels o2 ⟨true, c2⟩ = _
      simp only [create_raw_24bit]
      rw [show create_raw_24bit_loop pixels 0 buf = some (Chunk.literals body) from hraw]
      simp [happend]

set_option maxRecDepth 100000 in
theorem create_raw_eq_c_array_literals_witness :
    (create_raw_12bit [⟨0x12, 0x34, 0x56⟩, ⟨0x78, 0x9A, 0xBC⟩, ⟨0xDE, 0xF0, 0x12⟩] 3
        ⟨none, some "out.raw", FORMAT_RAW, 12, UNSET, none, UNSET⟩ ⟨true, some [7]⟩
      = some (1, ⟨true, some [0x13, 0x57, 0x9B, 0xDF, 0x10]⟩)) ∧
    (create_c_array_12bit [⟨0x12, 0x34, 0x56⟩, ⟨0x78, 0x9A, 0xBC⟩, ⟨0xDE, 0xF0, 0x12⟩] 3
        ⟨none, some "bitmap.c", FORMAT_CARRAY, 12, UNSET, some "bitmap", UNSET⟩
        ⟨0x4D42, 0x42, 0x36, 0x28, 3, 1, 1, 24, 0, 12, 0, 0, 0, 0⟩ ⟨true, none⟩
      = some (1, ⟨true, some (text ("/* This is an auto-generated file generated by bmpdump */\n\n"
          ++ "/* Array with bitmap containing data of a 3x1 (3 pixels) image.\n"
          ++ " * Each pixel has 12 bits, two pixels share three bytes "
          ++ "(RRRRGGGG BBBBRRRR GGGGBBBB).\n"
          ++ " */\n"
          ++ "unsigned char bitmap[] = \x7b\n\t0x13, 0x57, 0x9b, 0xdf, 0x10, \n\x7d;"))⟩)) ∧
    ∃ (before : List Nat) (body : List Chunk) (bytes : List Nat),
      create_c_array_12bit_loop ((3 : Nat) : Int) 0
          [⟨0x12, 0x34, 0x56⟩, ⟨0x78, 0x9A, 0xBC⟩, ⟨0xDE, 0xF0, 0x12⟩] = some body ∧
      Chunk.literals body = bytes ∧
      create_c_array_12bit [⟨0x12, 0x34, 0x56⟩, ⟨0x78, 0x9A, 0xBC⟩, ⟨0xDE, 0xF0, 0x12⟩]
          ((3 : Nat) : Int)
          ⟨none, some "bitmap.c", FORMAT_CARRAY, 12, UNSET, some "bitmap", UNSET⟩
          ⟨0x4D42, 0x42, 0x36, 0x28, 3, 1, 1, 24, 0, 12, 0, 0, 0, 0⟩ ⟨true, none⟩
        = some (1, { writable := true,
                     content := some (before
                       ++ (text "unsigned char " ++ text "bitmap" ++ text "[] = \x7b\n\t")
                       ++ Chunk.render body ++ text "\n\x7d;") }) ∧
      create_raw_12bit [⟨0x12, 0x34, 0x56⟩, ⟨0x78, 0x9A, 0xBC⟩, ⟨0xDE, 0xF0, 0x12⟩]
          ((3 : Nat) : Int)
          ⟨none, some "out.raw", FORMAT_RAW, 12, UNSET, none, UNSET⟩ ⟨true, some [7]⟩
        = some (1, ⟨true, some bytes⟩) ∧
      ((∀ p ∈ [(⟨0x12, 0x34, 0x56⟩ : pixel), ⟨0x78, 0x9A, 0xBC⟩, ⟨0xDE, 0xF0, 0x12⟩],
          p.r < 256 ∧ p.g < 256 ∧ p.b < 256) →
        remove_wraps (Chunk.render body)
          = (bytes.map fun b =>
              text "0x" ++ [hex_digit (b / 16), hex_digit (b % 16)] ++ text ", ").flatten) :=
  ⟨by decide, by decide,
   create_raw_eq_c_array_literals
     [⟨0x12, 0x34, 0x56⟩, ⟨0x78, 0x9A, 0xBC⟩, ⟨0xDE, 0xF0, 0x12⟩] ((3 : Nat) : Int)
     ⟨none, some "bitmap.c", FORMAT_CARRAY, 12, UNSET, some "bitmap", UNSET⟩
     ⟨none, some "out.raw", FORMAT_RAW, 12, UNSET, none, UNSET⟩
     ⟨0x4D42, 0x42, 0x36, 0x28, 3, 1, 1, 24, 0, 12, 0, 0, 0, 0⟩ ⟨true, none⟩ ⟨true, some [7]⟩
     0 "bitmap" rfl rfl rfl rfl (by decide)
     (create_c_array_12bit [⟨0x12, 0x34, 0x56⟩, ⟨0x78, 0x9A, 0xBC⟩, ⟨0xDE, 0xF0, 0x12⟩]
        ((3 : Nat) : Int)
        ⟨none, some "bitmap.c", FORMAT_CARRAY, 12, UNSET, some "bitmap", UNSET⟩
        ⟨0x4D42, 0x42, 0x36, 0x28, 3, 1, 1, 24, 0, 12, 0, 0, 0, 0⟩,
      create_raw_12bit [⟨0x12, 0x34, 0x56⟩, ⟨0x78, 0x9A, 0xBC⟩, ⟨0xDE, 0xF0, 0x12⟩]
        ((3 : Nat) : Int) ⟨none, some "out.raw", FORMAT_RAW, 12, UNSET, none, UNSET⟩,
      create_c_array_12bit_loop ((3 : Nat) : Int) 0
        [⟨0x12, 0x34, 0x56⟩, ⟨0x78, 0x9A, 0xBC⟩, ⟨0xDE, 0xF0, 0x12⟩])
     (List.mem_cons_of_mem _ (List.mem_cons_self _ _))⟩

/-! ## The options after parsing -/

theorem parse_opts_loop_bpp :
    ∀ (args : List String) (o : options),
      (o.bpp = UNSET ∨ o.bpp = 8 ∨ o.bpp = 12 ∨ o.bpp = 16 ∨ o.bpp = 24) →
      ((parse_opts_loop args o).2.bpp = UNSET ∨ (parse_opts_loop args o).2.bpp = 8 ∨
        (parse_opts_loop args o).2.bpp = 12 ∨ (parse_opts_loop args o).2.bpp = 16 ∨
        (parse_opts_loop args o).2.bpp = 24) := by
  intro args o
  induction args, o using parse_opts_loop.induct <;> intro hf <;>
    rw [parse_opts_loop.eq_def] <;> simp_all

/-- The end of `parse_opts` keeps a format and a bpp that are set and fills in
the ones that are not. -/
theorem parse_opts_arrayname_keeps (o opts : options) (malloc_ok : Nat → Bool)
    (h : parse_opts_arrayname o malloc_ok = some (1, opts)) :
    opts.format = o.format ∧ opts.bpp = o.bpp := by
  unfold parse_opts_arrayname at h
  split_ifs at h <;> simp at h <;> subst h <;> exact ⟨rfl, rfl⟩

theorem parse_opts_bpp_keeps (o opts : options) (malloc_ok : Nat → Bool)
    (h : parse_opts_bpp o malloc_ok = some (1, opts)) :
    opts.format = o.format ∧ opts.bpp = (if o.bpp = UNSET then 12 else o.bpp) := by
  unfold parse_opts_bpp at h
  split_ifs at h with c <;> have hk := parse_opts_arrayname_keeps _ _ _ h
  · rw [if_pos c]; exact hk
  · rw [if_neg c]; exact hk

theorem parse_opts_output_file_keeps (o opts : options) (malloc_ok : Nat → Bool)
    (h : parse_opts_output_file o malloc_ok = some (1, opts)) :
    opts.format = o.format ∧ opts.bpp = (if o.bpp = UNSET then 12 else o.bpp) := by
  unfold parse_opts_output_file at h
  split_ifs at h
  · exact absurd (show (0 : Int) = 1 from congrArg Prod.fst (Option.some.inj h)) (by decide)
  · exact parse_opts_bpp_keeps { o with output_file := some "bitmap.c" } opts malloc_ok h
  · exact absurd (show (0 : Int) = 1 from congrArg Prod.fst (Option.some.inj h)) (by decide)
  · exact parse_opts_bpp_keeps { o with output_file := some "bitmap.raw" } opts malloc_ok h
  · exact parse_opts_bpp_keeps o opts malloc_ok h

theorem parse_opts_format_keeps (o opts : options) (malloc_ok : Nat → Bool)
    (h : parse_opts_format o malloc_ok = some (1, opts)) :
    opts.format = (if o.format = UNSET then FORMAT_CARRAY else o.format) ∧
      opts.bpp = (if o.bpp = UNSET then 12 else o.bpp) := by
  unfold parse_opts_format at h
  split_ifs at h with c <;> have hk := parse_opts_output_file_keeps _ _ _ h
  · rw [if_pos c]; exact hk
  · rw [if_neg c]; exact hk

theorem parse_opts_input_file_keeps (o opts : options) (malloc_ok : Nat → Bool)
    (h : parse_opts_input_file o malloc_ok = some (1, opts)) :
    opts.format = (if o.format = UNSET then FORMAT_CARRAY else o.format) ∧
      opts.bpp = (if o.bpp = UNSET then 12 else o.bpp) := by
  unfold parse_opts_input_file at h
  split_ifs at h
  · exact absurd (show (0 : Int) = 1 from congrArg Prod.fst (Option.some.inj h)) (by decide)
  · exact parse_opts_format_keeps { o with input_file := some "bitmap.bmp" } opts malloc_ok h
  · exact parse_opts_format_keeps o opts malloc_ok h

/-- After a successful `parse_opts` from the all-zero structure the bpp is one
of 8, 12, 16, 24 and the format is raw or C array. -/
theorem parse_opts_ranges (argv : List String) (malloc_ok : Nat → Bool) (opts : options)
    (hret : parse_opts argv opts_init malloc_ok = some (1, opts)) :
    (opts.bpp = 8 ∨ opts.bpp = 12 ∨ opts.bpp = 16 ∨ opts.bpp = 24) ∧
      (opts.format = FORMAT_RAW ∨ opts.format = FORMAT_CARRAY) := by
  have hf := parse_opts_loop_format (argv.drop 1) opts_init (Or.inl rfl)
  have hb := parse_opts_loop_bpp (argv.drop 1) opts_init (Or.inl rfl)
  simp only [parse_opts] at hret
  split_ifs at hret with c
  · exact absurd (show (0 : Int) = 1 from congrArg Prod.fst (Option.some.inj hret)) (by decide)
  · obtain ⟨h1, h2⟩ := parse_opts_input_file_keeps _ _ _ hret
    rw [h1, h2]
    constructor
    · rcases hb with e | e | e | e | e <;> rw [e] <;> decide
    · rcases hf with e | e | e <;> rw [e] <;> decide

/-- C25. Post-parse option invariant: starting from the all-zero options
structure, whenever `parse_opts` returns 1 the resulting bpp is one of 8, 12,
16, 24 and the format is raw or C array; so the output stage of `main` is the
call of one of the eight `create_*` functions on the destination, never one
of the "not supported" default branches. -/
theorem parse_opts_post_invariant (argv : List String) (malloc_ok : Nat → Bool)
    (opts : options) (hret : parse_opts argv opts_init malloc_ok = some (1, opts)) :
    (opts.bpp = 8 ∨ opts.bpp = 12 ∨ opts.bpp = 16 ∨ opts.bpp = 24) ∧
    (opts.format = FORMAT_RAW ∨ opts.format = FORMAT_CARRAY) ∧
    ∀ (pixbuf : List pixel) (pixels : Int) (header : bmp_header) (w : World),
      ∃ F ∈ [create_c_array_8bit pixbuf pixels opts header,
          create_c_array_12bit pixbuf pixels opts header,
          (create_c_array_16bit pixbuf pixels opts header · w.b2_init),
          create_c_array_24bit pixbuf pixels opts header,
          create_raw_8bit pixbuf pixels opts, create_raw_12bit pixbuf pixels opts,
          (create_raw_16bit pixbuf pixels opts · w.b2_init),
          create_raw_24bit pixbuf pixels opts],
        main_output pixbuf pixels opts header w = (F w.dst).map (fun res => (0, res.2)) := by
  obtain ⟨hb, hf⟩ := parse_opts_ranges argv malloc_ok opts hret
  refine ⟨hb, hf, ?_⟩
  intro pixbuf pixels header w
  rcases hf with hf | hf <;> rcases hb with hb | hb | hb | hb <;>
    simp [main_output, hf, hb, FORMAT_RAW, FORMAT_CARRAY]

theorem parse_opts_post_invariant_witness :
    ((16 : Int) = 8 ∨ (16 : Int) = 12 ∨ (16 : Int) = 16 ∨ (16 : Int) = 24) ∧
    (FORMAT_RAW = FORMAT_RAW ∨ FORMAT_RAW = FORMAT_CARRAY) ∧
    ∀ (pixbuf : List pixel) (pixels : Int) (header : bmp_header) (w : World),
      ∃ F ∈ [create_c_array_8bit pixbuf pixels
            ⟨some "bitmap.bmp", some "bitmap.raw", FORMAT_RAW, 16, UNSET, none, UNSET⟩ header,
          create_c_array_12bit pixbuf pixels
            ⟨some "bitmap.bmp", some "bitmap.raw", FORMAT_RAW, 16, UNSET, none, UNSET⟩ header,
          (create_c_array_16bit pixbuf pixels
            ⟨some "bitmap.bmp", some "bitmap.raw", FORMAT_RAW, 16, UNSET, none, UNSET⟩ header ·
            w.b2_init),
          create_c_array_24bit pixbuf pixels
            ⟨some "bitmap.bmp", some "bitmap.raw", FORMAT_RAW, 16, UNSET, none, UNSET⟩ header,
          create_raw_8bit pixbuf pixels
            ⟨some "bitmap.bmp", some "bitmap.raw", FORMAT_RAW, 16, UNSET, none, UNSET⟩,
          create_raw_12bit pixbuf pixels
            ⟨some "bitmap.bmp", some "bitmap.raw", FORMAT_RAW, 16, UNSET, none, UNSET⟩,
          (create_raw_16bit pixbuf pixels
            ⟨some "bitmap.bmp", some "bitmap.raw", FORMAT_RAW, 16, UNSET, none, UNSET⟩ ·
            w.b2_init),
          create_raw_24bit pixbuf pixels
            ⟨some "bitmap.bmp", some "bitmap.raw", FORMAT_RAW, 16, UNSET, none, UNSET⟩],
        main_output pixbuf pixels
            ⟨some "bitmap.bmp", some "bitmap.raw", FORMAT_RAW, 16, UNSET, none, UNSET⟩ header w
          = (F w.dst).map (fun res => (0, res.2)) :=
  parse_opts_post_invariant ["bmpdump", "-format", "raw", "-bpp", "16"] (fun _ => true)
    ⟨some "bitmap.bmp", some "bitmap.raw", FORMAT_RAW, 16, UNSET, none, UNSET⟩ (by decide)

/-! ## The failures of the command line -/

theorem parse_opts_loop_ret :
    ∀ (args : List String) (o : options),
      (parse_opts_loop args o).1 = 0 ∨ (parse_opts_loop args o).1 = 1 := by
  intro args o
  induction args, o using parse_opts_loop.induct <;>
    rw [parse_opts_loop.eq_def] <;> simp_all

/-- The loop of `parse_opts` returns 0 exactly on the command lines that the
specification describes as failing. -/
theorem parse_opts_loop_fails :
    ∀ (args : List String) (o : options),
      (parse_opts_loop args o).1 = 0 ↔ spec_scan_fails args = true := by
  intro args o
  induction args, o using parse_opts_loop.induct <;>
    rw [parse_opts_loop.eq_def, spec_scan_fails.eq_def] <;> simp_all

/-- When the allocations succeed and the format is unset or one of the two
known ones, the end of `parse_opts` returns 1. -/
theorem parse_opts_input_file_succeeds (o : options) (malloc_ok : Nat → Bool)
    (hmalloc : ∀ n, malloc_ok n = true)
    (hf : o.format = UNSET ∨ o.format = FORMAT_RAW ∨ o.format = FORMAT_CARRAY) :
    ∃ opts : options, parse_opts_input_file o malloc_ok = some (1, opts) := by
  obtain ⟨i, f, fm, bp, ap, an, vb⟩ := o
  simp only [UNSET, FORMAT_RAW, FORMAT_CARRAY] at hf
  rcases hf with rfl | rfl | rfl <;> cases i <;> cases f <;> cases an <;>
    by_cases hb : bp = 0 <;>
    simp [parse_opts_input_file, parse_opts_format, parse_opts_output_file, parse_opts_bpp,
      parse_opts_arrayname, hmalloc, UNSET, FORMAT_CARRAY, FORMAT_RAW, hb]

/-- C26. Failure condition of `parse_opts`: when the allocations succeed,
`parse_opts` from the all-zero structure returns 0 or 1, and it returns 0 if
and only if the scan of the arguments after `argv[0]`, left to right, each of
`-if`, `-of`, `-format`, `-bpp`, `-arrayname` consuming the next argument,
meets an unrecognised argument, one of `help`, `-help`, `--help`, a
value-taking flag that is the last argument, or a `-bpp` value other than "8",
"12", "16", "24".  An unrecognised `-format` value is not a failure: the loop
goes on after the value with the options unchanged, so the format stays as it
was and ends as C array when it was never set. -/
theorem parse_opts_failure (argv : List String) (malloc_ok : Nat → Bool)
    (hmalloc : ∀ n, malloc_ok n = true) :
    (∃ (ret : Int) (opts : options),
      parse_opts argv opts_init malloc_ok = some (ret, opts) ∧ (ret = 0 ∨ ret = 1) ∧
      (ret = 0 ↔ spec_scan_fails (argv.drop 1) = true)) ∧
    (∀ (v : String) (rest : List String) (o : options), v ≠ "carray" → v ≠ "raw" →
      parse_opts_loop ("-format" :: v :: rest) o = parse_opts_loop rest o) ∧
    (∀ prog v : String, v ≠ "carray" → v ≠ "raw" →
      parse_opts [prog, "-format", v] opts_init malloc_ok
        = some (1, ⟨some "bitmap.bmp", some "bitmap.c", FORMAT_CARRAY, 12, UNSET,
            some "bitmap", UNSET⟩) ∧
      parse_opts [prog, "-format", "raw", "-format", v] opts_init malloc_ok
        = some (1, ⟨some "bitmap.bmp", some "bitmap.raw", FORMAT_RAW, 12, UNSET, none,
            UNSET⟩)) := by
  have hskip : ∀ (v : String) (rest : List String) (o : options), v ≠ "carray" → v ≠ "raw" →
      parse_opts_loop ("-format" :: v :: rest) o = parse_opts_loop rest o := by
    intro v rest o h1 h2
    rw [parse_opts_loop.eq_def]
    simp [h1, h2]
  refine ⟨?_, hskip, ?_⟩
  · have hfails := parse_opts_loop_fails (argv.drop 1) opts_init
    rcases parse_opts_loop_ret (argv.drop 1) opts_init with h0 | h1
    · refine ⟨0, (parse_opts_loop (argv.drop 1) opts_init).2, ?_, Or.inl rfl, ?_⟩
      · simp only [parse_opts, h0, if_true]
      · rw [← hfails]
        exact ⟨fun _ => h0, fun _ => rfl⟩
    · have hne : ¬ ((parse_opts_loop (argv.drop 1) opts_init).1 = 0) := by
        rw [h1]; decide
      obtain ⟨opts, hopts⟩ := parse_opts_input_file_succeeds
        (parse_opts_loop (argv.drop 1) opts_init).2 malloc_ok hmalloc
        (parse_opts_loop_format (argv.drop 1) opts_init (Or.inl rfl))
      refine ⟨1, opts, ?_, Or.inr rfl, ?_⟩
      · simp only [parse_opts, if_neg hne, hopts]
      · rw [← hfails]
        exact ⟨fun h => absurd h (by decide), fun h => absurd h hne⟩
  · intro prog v h1 h2
    constructor
    · simp only [parse_opts, List.drop_succ_cons, List.drop_zero, hskip v [] opts_init h1 h2]
      simp [parse_opts_loop, parse_opts_input_file, parse_opts_format,
        parse_opts_output_file, parse_opts_bpp, parse_opts_arrayname, opts_init, hmalloc,
        UNSET, FORMAT_CARRAY, FORMAT_RAW]
    · have e : parse_opts_loop ["-format", "raw", "-format", v] opts_init
          = parse_opts_loop [] { opts_init with format := FORMAT_RAW } := by
        rw [parse_opts_loop.eq_def]
        simp only [String.reduceEq, if_false, if_true]
        exact hskip v [] _ h1 h2
      simp only [parse_opts, List.drop_succ_cons, List.drop_zero, e]
      simp [parse_opts_loop, parse_opts_input_file, parse_opts_format,
        parse_opts_output_file, parse_opts_bpp, parse_opts_arrayname, opts_init, hmalloc,
        UNSET, FORMAT_CARRAY, FORMAT_RAW]

theorem parse_opts_failure_witness :
    (parse_opts ["bmpdump", "-format", "bogus", "-bpp", "8"] opts_init (fun _ => true)
      = some (1, ⟨some "bitmap.bmp", some "bitmap.c", FORMAT_CARRAY, 8, UNSET, some "bitmap",
          UNSET⟩)) ∧
    (parse_opts ["bmpdump", "-bpp", "9"] opts_init (fun _ => true)).map (fun res => res.1)
      = some 0 ∧
    (∃ (ret : Int) (opts : options),
      parse_opts ["bmpdump", "-format", "bogus", "-bpp"] opts_init (fun _ => true)
        = some (ret, opts) ∧ (ret = 0 ∨ ret = 1) ∧
      (ret = 0 ↔ spec_scan_fails (["bmpdump", "-format", "bogus", "-bpp"].drop 1) = true)) ∧
    (∀ (v : String) (rest : List String) (o : options), v ≠ "carray" → v ≠ "raw" →
      parse_opts_loop ("-format" :: v :: rest) o = parse_opts_loop rest o) ∧
    (∀ prog v : String, v ≠ "carray" → v ≠ "raw" →
      parse_opts [prog, "-format", v] opts_init (fun _ => true)
        = some (1, ⟨some "bitmap.bmp", some "bitmap.c", FORMAT_CARRAY, 12, UNSET,
            some "bitmap", UNSET⟩) ∧
      parse_opts [prog, "-format", "raw", "-format", v] opts_init (fun _ => true)
        = some (1, ⟨some "bitmap.bmp", some "bitmap.raw", FORMAT_RAW, 12, UNSET, none,
            UNSET⟩)) :=
  ⟨by decide, by decide,
   parse_opts_failure ["bmpdump", "-format", "bogus", "-bpp"] (fun _ => true) (fun _ => rfl)⟩

/-! ## The pixel loader on a stream of any length -/

/-- A one-byte `fread` into a byte variable, whether or not the stream has a
byte left: `q` is the position that the stream would have if no read had met
the end of the file. -/
theorem fread_or (data : List Nat) (p q field : Nat) (hf : field < 256)
    (hinv : p = q ∨ (data.length ≤ p ∧ data.length ≤ q)) :
    ∃ p1 : Nat, fread field 1 ⟨data, p⟩ = (read_or data q field, ⟨data, p1⟩) ∧
      (p1 = q + 1 ∨ (data.length ≤ p1 ∧ data.length ≤ q + 1)) := by
  by_cases hp : p < data.length
  · have hq : p = q := by omega
    subst hq
    exact ⟨p + 1, by rw [fread_byte field data p (by omega), read_or, if_pos hp], Or.inl rfl⟩
  · have hq : ¬ q < data.length := by omega
    exact ⟨p, by rw [fread_eof field ⟨data, p⟩ hf (by simp only; omega), read_or, if_neg hq],
      Or.inr ⟨by omega, by omega⟩⟩

theorem get_data_line_or (data : List Nat) :
    ∀ (n p q : Nat) (pix : List pixel), n ≤ pix.length →
      (p = q ∨ (data.length ≤ p ∧ data.length ≤ q)) →
      (∀ x ∈ pix, x.r < 256 ∧ x.g < 256 ∧ x.b < 256) →
      ∃ p1 : Nat,
        get_data_line n ⟨data, p⟩ pix = some (⟨data, p1⟩, pixels_or data n q pix, pix.drop n) ∧
        (p1 = q + 3 * n ∨ (data.length ≤ p1 ∧ data.length ≤ q + 3 * n)) := by
  intro n
  induction n with
  | zero => intro p q pix _ hinv _; exact ⟨p, rfl, by simpa using hinv⟩
  | succ n ih =>
    intro p q pix hpix hinv hv
    match pix, hpix, hv with
    | x :: pix1, hpix, hv =>
      have hx := hv x (List.mem_cons_self _ _)
      obtain ⟨p1, e1, i1⟩ := fread_or data p q x.b hx.2.2 hinv
      obtain ⟨p2, e2, i2⟩ := fread_or data p1 (q + 1) x.g hx.2.1 i1
      obtain ⟨p3, e3, i3⟩ := fread_or data p2 (q + 1 + 1) x.r hx.1 i2
      obtain ⟨p4, e4, i4⟩ := ih p3 (q + 1 + 1 + 1) pix1 (by simpa using hpix) i3
        (fun y hy => hv y (List.mem_cons_of_mem _ hy))
      refine ⟨p4, ?_, ?_⟩
      · simp only [get_data_line, e1, e2, e3, e4, Option.map_some', pixels_or,
          List.drop_succ_cons]
      · have e : q + 1 + 1 + 1 + 3 * n = q + 3 * (n + 1) := by omega
        rw [← e]
        exact i4

theorem get_data_lines_or (data : List Nat) (w pad : Nat) :
    ∀ (n p q : Nat) (pix : List pixel), n * w ≤ pix.length →
      (p = q ∨ (data.length ≤ p ∧ data.length ≤ q)) →
      (∀ x ∈ pix, x.r < 256 ∧ x.g < 256 ∧ x.b < 256) →
      ∃ p1 : Nat,
        get_data_lines w (pad : Int) n ⟨data, p⟩ pix
          = some (⟨data, p1⟩, rows_or data w pad n q pix, pix.drop (n * w)) := by
  intro n
  induction n with
  | zero => intro p q pix _ _ _; exact ⟨p, by simp [get_data_lines, rows_or]⟩
  | succ n ih =>
    intro p q pix hpix hinv hv
    have e2 : (n + 1) * w = n * w + w := by ring
    rw [e2] at hpix
    obtain ⟨p1, e1, i1⟩ := get_data_line_or data w p q pix (by omega) hinv hv
    have hfp : (if (pad : Int) ≠ 0 then (fseek_cur ⟨data, p1⟩ (pad : Int)).2
        else (⟨data, p1⟩ : FILE)) = ⟨data, p1 + pad⟩ := by
      by_cases hp : (pad : Int) = 0
      · have : pad = 0 := by omega
        subst this; simp
      · simp [hp, fseek_cur_nat]
    obtain ⟨p2, e3⟩ := ih (p1 + pad) (q + (3 * w + pad)) (pix.drop w)
      (by simp only [List.length_drop]; omega) (by omega)
      (fun y hy => hv y (List.mem_of_mem_drop hy))
    refine ⟨p2, ?_⟩
    simp only [get_data_lines, e1, hfp, e3, Option.map_some', rows_or, List.drop_drop, e2]
    congr 4
    omega

theorem pixels_or_length (data : List Nat) :
    ∀ (n pos : Nat) (pix : List pixel), n ≤ pix.length →
      (pixels_or data n pos pix).length = n := by
  intro n
  induction n with
  | zero => intro pos pix _; rfl
  | succ n ih =>
    intro pos pix hpix
    match pix, hpix with
    | x :: pix1, hpix =>
      simp only [pixels_or, List.length_cons, ih (pos + 3) pix1 (by simpa using hpix)]

theorem pixels_or_get (data : List Nat) :
    ∀ (n pos : Nat) (pix : List pixel) (c : Nat) (old : pixel), c < n → pix[c]? = some old →
      (pixels_or data n pos pix)[c]?
        = some { r := read_or data (pos + 3 * c + 2) old.r,
                 g := read_or data (pos + 3 * c + 1) old.g,
                 b := read_or data (pos + 3 * c) old.b } := by
  intro n
  induction n with
  | zero => intro pos pix c old h _; omega
  | succ n ih =>
    intro pos pix c old h hold
    match pix, hold with
    | x :: pix1, hold =>
      cases c with
      | zero =>
        simp only [List.getElem?_cons_zero, Option.some.injEq] at hold
        subst hold
        simp [pixels_or]
      | succ c =>
        rw [List.getElem?_cons_succ] at hold
        simp only [pixels_or, List.getElem?_cons_succ]
        rw [ih (pos + 3) pix1 c old (by omega) hold]
        have e : pos + 3 + 3 * c = pos + 3 * (c + 1) := by omega
        rw [e]

theorem rows_or_length (data : List Nat) (w pad : Nat) :
    ∀ (n pos : Nat) (pix : List pixel), n * w ≤ pix.length →
      (rows_or data w pad n pos pix).length = n * w := by
  intro n
  induction n with
  | zero => intro pos pix _; simp [rows_or]
  | succ n ih =>
    intro pos pix hpix
    have e2 : (n + 1) * w = n * w + w := by ring
    rw [e2] at hpix
    simp only [rows_or, List.length_append, pixels_or_length data w pos pix (by omega),
      ih (pos + (3 * w + pad)) (pix.drop w) (by simp only [List.length_drop]; omega)]
    ring

theorem rows_or_get (data : List Nat) (w pad : Nat) :
    ∀ (n pos : Nat) (pix : List pixel) (line c : Nat) (old : pixel), line < n → c < w →
      n * w ≤ pix.length → pix[line * w + c]? = some old →
      (rows_or data w pad n pos pix)[line * w + c]?
        = some { r := read_or data (pos + line * (3 * w + pad) + 3 * c + 2) old.r,
                 g := read_or data (pos + line * (3 * w + pad) + 3 * c + 1) old.g,
                 b := read_or data (pos + line * (3 * w + pad) + 3 * c) old.b } := by
  intro n
  induction n with
  | zero => intro pos pix line c old h; omega
  | succ n ih =>
    intro pos pix line c old hl hc hpix hold
    have e2 : (n + 1) * w = n * w + w := by ring
    rw [e2] at hpix
    have hlen := pixels_or_length data w pos pix (by omega)
    cases line with
    | zero =>
      simp only [Nat.zero_mul, Nat.zero_add] at hold
      simp only [rows_or, Nat.zero_mul, Nat.zero_add, Nat.add_zero]
      rw [List.getElem?_append_left (by rw [hlen]; exact hc)]
      exact pixels_or_get data w pos pix c old hc hold
    | succ line =>
      have e : (line + 1) * w + c = w + (line * w + c) := by ring
      rw [e] at hold
      simp only [rows_or]
      rw [e, List.getElem?_append_right (by rw [hlen]; omega), hlen,
        Nat.add_sub_cancel_left,
        ih (pos + (3 * w + pad)) (pix.drop w) line c old (by omega) hc
          (by simp only [List.length_drop]; omega) (by rw [List.getElem?_drop]; exact hold)]
      have e3 : pos + (3 * w + pad) + line * (3 * w + pad)
          = pos + (line + 1) * (3 * w + pad) := by ring
      rw [e3]

/-- What `get_data` returns on a stream of any length, for a buffer of bytes
that holds `width * height` pixels. -/
theorem get_data_or (header : bmp_header) (data : List Nat) (pos : Nat) (pixbuf : List pixel)
    (hbuf : header.height * header.width ≤ pixbuf.length)
    (hv : ∀ x ∈ pixbuf, x.r < 256 ∧ x.g < 256 ∧ x.b < 256) :
    ∃ p1 : Nat, get_data header ⟨data, pos⟩ pixbuf header
      = some (⟨data, p1⟩,
          rows_or data header.width (3 * header.width % 4) header.height header.data_offset
              pixbuf
            ++ pixbuf.drop (header.height * header.width)) := by
  obtain ⟨p1, e⟩ := get_data_lines_or data header.width (3 * header.width % 4) header.height
    header.data_offset header.data_offset pixbuf hbuf (Or.inl rfl) hv
  exact ⟨p1, by simp only [get_data, padding_eq, fseek_set_nat, e]; rfl⟩

theorem fseek_cur_data (fp : FILE) (offset : Int) : (fseek_cur fp offset).2.data = fp.data := by
  unfold fseek_cur
  split <;> rfl

/-- The function `get_header` moves in the stream and leaves its bytes alone. -/
theorem get_header_data (fp : FILE) (h : bmp_header) : (get_header fp h).fp.data = fp.data := by
  generalize hr : get_header fp h = r
  simp only [get_header] at hr
  split_ifs at hr <;> subst hr <;> simp only [fread_field, fread_data, fseek_cur_data]

/-- When `parse_opts` returns 1 with the format C array, the array name is set. -/
theorem parse_opts_arrayname_named (o opts : options) (malloc_ok : Nat → Bool)
    (h : parse_opts_arrayname o malloc_ok = some (1, opts))
    (hf : opts.format = FORMAT_CARRAY) : ∃ name : String, opts.arrayname = some name := by
  unfold parse_opts_arrayname at h
  split_ifs at h with c1 c2
  · exact absurd (show (0 : Int) = 1 from congrArg Prod.fst (Option.some.inj h)) (by decide)
  · have e : opts = { o with arrayname := some "bitmap" } :=
      (congrArg Prod.snd (Option.some.inj h)).symm
    exact ⟨"bitmap", by rw [e]⟩
  · have e : opts = o := (congrArg Prod.snd (Option.some.inj h)).symm
    subst e
    cases ha : opts.arrayname with
    | none => exact absurd ⟨hf, ha⟩ c1
    | some name => exact ⟨name, rfl⟩

theorem parse_opts_bpp_named (o opts : options) (malloc_ok : Nat → Bool)
    (h : parse_opts_bpp o malloc_ok = some (1, opts))
    (hf : opts.format = FORMAT_CARRAY) : ∃ name : String, opts.arrayname = some name := by
  unfold parse_opts_bpp at h
  split_ifs at h
  · exact parse_opts_arrayname_named { o with bpp := 12 } opts malloc_ok h hf
  · exact parse_opts_arrayname_named o opts malloc_ok h hf

theorem parse_opts_output_file_named (o opts : options) (malloc_ok : Nat → Bool)
    (h : parse_opts_output_file o malloc_ok = some (1, opts))
    (hf : opts.format = FORMAT_CARRAY) : ∃ name : String, opts.arrayname = some name := by
  unfold parse_opts_output_file at h
  split_ifs at h
  · exact absurd (show (0 : Int) = 1 from congrArg Prod.fst (Option.some.inj h)) (by decide)
  · exact parse_opts_bpp_named { o with output_file := some "bitmap.c" } opts malloc_ok h hf
  · exact absurd (show (0 : Int) = 1 from congrArg Prod.fst (Option.some.inj h)) (by decide)
  · exact parse_opts_bpp_named { o with output_file := some "bitmap.raw" } opts malloc_ok h hf
  · exact parse_opts_bpp_named o opts malloc_ok h hf

theorem parse_opts_format_named (o opts : options) (malloc_ok : Nat → Bool)
    (h : parse_opts_format o malloc_ok = some (1, opts))
    (hf : opts.format = FORMAT_CARRAY) : ∃ name : String, opts.arrayname = some name := by
  unfold parse_opts_format at h
  split_ifs at h
  · exact parse_opts_output_file_named { o with format := FORMAT_CARRAY } opts malloc_ok h hf
  · exact parse_opts_output_file_named o opts malloc_ok h hf

theorem parse_opts_named (argv : List String) (o opts : options) (malloc_ok : Nat → Bool)
    (h : parse_opts argv o malloc_ok = some (1, opts))
    (hf : opts.format = FORMAT_CARRAY) : ∃ name : String, opts.arrayname = some name := by
  simp only [parse_opts] at h
  split_ifs at h
  · exact absurd (show (0 : Int) = 1 from congrArg Prod.fst (Option.some.inj h)) (by decide)
  · unfold parse_opts_input_file at h
    split_ifs at h
    · exact absurd (show (0 : Int) = 1 from congrArg Prod.fst (Option.some.inj h)) (by decide)
    · exact parse_opts_format_named _ opts malloc_ok h hf
    · exact parse_opts_format_named _ opts malloc_ok h hf

theorem c_array_result_defined (layout : List Nat) (body : List Chunk) (pixels : Int)
    (o : options) (h : bmp_header) (dst : OutFile) (name : String)
    (hname : o.arrayname = some name) :
    ∃ res : Int × OutFile, c_array_result layout (some body) pixels o h dst = some res := by
  simp only [c_array_result, hname]
  split
  · exact ⟨_, rfl⟩
  · exact ⟨_, rfl⟩

/-- The output stage of `main` returns 0 whenever the bpp and the format are
among the supported ones, the array name is set for a C array and `pixels` is
the number of pixels in the buffer. -/
theorem main_output_returns (buf : List pixel) (pixels : Int) (opts : options)
    (header : bmp_header) (wd : World) (hpixels : pixels = (buf.length : Int))
    (hb : opts.bpp = 8 ∨ opts.bpp = 12 ∨ opts.bpp = 16 ∨ opts.bpp = 24)
    (hf : opts.format = FORMAT_RAW ∨ opts.format = FORMAT_CARRAY)
    (hname : opts.format = FORMAT_CARRAY → ∃ name : String, opts.arrayname = some name) :
    ∃ out : OutFile, main_output buf pixels opts header wd = some (0, out) := by
  have hbody := create_c_array_body buf pixels opts header wd.b2_init hpixels
  have hraw : ∀ (loop : Option (List Nat)) (bytes : List Nat), loop = some bytes →
      ∃ res : Int × OutFile,
        (if wd.dst.writable = false then some ((0 : Int), wd.dst)
          else match loop with
            | none => none
            | some bytes => some ((1 : Int), { wd.dst with
                content := some ((if opts.append = APPEND then wd.dst.content.getD [] else [])
                  ++ bytes) })) = some res := by
    intro loop bytes e
    subst e
    split
    · exact ⟨_, rfl⟩
    · exact ⟨_, rfl⟩
  have hcar : FORMAT_CARRAY ≠ FORMAT_RAW := by decide
  rcases hf with hf | hf
  · have hne : ¬ (opts.format = FORMAT_CARRAY) := by rw [hf]; decide
    rcases hb with hb | hb | hb | hb
    · obtain ⟨_, body, _, e, _⟩ := hbody _ (List.mem_cons_self _ _)
      obtain ⟨res, hres⟩ := hraw _ _ e
      exact ⟨res.2, by simp only [main_output, if_neg hne, hf, hb, if_true, create_raw_8bit]
                       rw [hres]; rfl⟩
    · obtain ⟨_, body, _, e, _⟩ := hbody _ (List.mem_cons_of_mem _ (List.mem_cons_self _ _))
      obtain ⟨res, hres⟩ := hraw _ _ e
      exact ⟨res.2, by
        have h8 : ¬ ((12 : Int) = 8) := by decide
        simp only [main_output, if_neg hne, hf, hb, if_true, if_neg h8, create_raw_12bit]
        rw [hres]; rfl⟩
    · obtain ⟨_, body, _, e, _⟩ :=
        hbody _ (List.mem_cons_of_mem _ (List.mem_cons_of_mem _ (List.mem_cons_self _ _)))
      obtain ⟨res, hres⟩ := hraw _ _ e
      exact ⟨res.2, by
        have h8 : ¬ ((16 : Int) = 8) := by decide
        have h12 : ¬ ((16 : Int) = 12) := by decide
        simp only [main_output, if_neg hne, hf, hb, if_true, if_neg h8, if_neg h12,
          create_raw_16bit]
        rw [hres]; rfl⟩
    · obtain ⟨_, body, _, e, _⟩ := hbody _ (List.mem_cons_of_mem _ (List.mem_cons_of_mem _
        (List.mem_cons_of_mem _ (List.mem_cons_self _ _))))
      obtain ⟨res, hres⟩ := hraw _ _ e
      exact ⟨res.2, by
        have h8 : ¬ ((24 : Int) = 8) := by decide
        have h12 : ¬ ((24 : Int) = 12) := by decide
        have h16 : ¬ ((24 : Int) = 16) := by decide
        simp only [main_output, if_neg hne, hf, hb, if_true, if_neg h8, if_neg h12, if_neg h16,
          create_raw_24bit]
        rw [hres]; rfl⟩
  · obtain ⟨name, hn⟩ := hname hf
    rcases hb with hb | hb | hb | hb
    · obtain ⟨layout, body, _, _, e, _⟩ := hbody _ (List.mem_cons_self _ _)
      obtain ⟨res, hres⟩ := c_array_result_defined layout body pixels opts header wd.dst name hn
      exact ⟨res.2, by
        simp only [main_output, hf, hb, if_true]
        rw [show create_c_array_8bit buf pixels opts header wd.dst = _ from e wd.dst, hres]
        rfl⟩
    · obtain ⟨layout, body, _, _, e, _⟩ :=
        hbody _ (List.mem_cons_of_mem _ (List.mem_cons_self _ _))
      obtain ⟨res, hres⟩ := c_array_result_defined layout body pixels opts header wd.dst name hn
      exact ⟨res.2, by
        have h8 : ¬ ((12 : Int) = 8) := by decide
        simp only [main_output, hf, hb, if_true, if_neg h8]
        rw [show create_c_array_12bit buf pixels opts header wd.dst = _ from e wd.dst, hres]
        rfl⟩
    · obtain ⟨layout, body, _, _, e, _⟩ :=
        hbody _ (List.mem_cons_of_mem _ (List.mem_cons_of_mem _ (List.mem_cons_self _ _)))
      obtain ⟨res, hres⟩ := c_array_result_defined layout body pixels opts header wd.dst name hn
      exact ⟨res.2, by
        have h8 : ¬ ((16 : Int) = 8) := by decide
        have h12 : ¬ ((16 : Int) = 12) := by decide
        simp only [main_output, hf, hb, if_true, if_neg h8, if_neg h12]
        rw [show create_c_array_16bit buf pixels opts header wd.dst wd.b2_init = _
          from e wd.dst, hres]
        rfl⟩
    · obtain ⟨layout, body, _, _, e, _⟩ := hbody _ (List.mem_cons_of_mem _
        (List.mem_cons_of_mem _ (List.mem_cons_of_mem _ (List.mem_cons_self _ _))))
      obtain ⟨res, hres⟩ := c_array_result_defined layout body pixels opts header wd.dst name hn
      exact ⟨res.2, by
        have h8 : ¬ ((24 : Int) = 8) := by decide
        have h12 : ¬ ((24 : Int) = 12) := by decide
        have h16 : ¬ ((24 : Int) = 16) := by decide
        simp only [main_output, hf, hb, if_true, if_neg h8, if_neg h12, if_neg h16]
        rw [show create_c_array_24bit buf pixels opts header wd.dst = _ from e wd.dst, hres]
        rfl⟩

/-- C12, amended.  Pixel loader on a truncated stream: `get_data` reports no
failure.  For every header and every stream, also one that ends before
`width * height` pixels can be read, it returns a pixel buffer of the same
length as before, whose entries from `width * height` on are untouched.  In a
buffer of bytes, each channel of the pixel `line * width + c` holds the stream
byte at its offset (`o + 2`, `o + 1`, `o` for red, green, blue, with
`o = d + line * (3 * w + (3 * w) % 4) + 3 * c`) when the stream has a byte
there, and what it held before otherwise; when the stream ends at or before
the data offset, the whole buffer is as it was.  And `main` goes on: when the
options are parsed without `-verbose`, the header of the stream is valid with
`3 * w * h` below 2^31 and the buffer can be had, `main` passes the buffer that
`get_data` returns to the output stage and returns 0. -/
theorem get_data_never_fails (header : bmp_header) (data : List Nat) (pos : Nat)
    (pixbuf : List pixel) (hbuf : header.width * header.height ≤ pixbuf.length) :
    (∃ (fp : FILE) (buf : List pixel),
      get_data header ⟨data, pos⟩ pixbuf header = some (fp, buf) ∧
      buf.length = pixbuf.length ∧
      buf.drop (header.width * header.height) = pixbuf.drop (header.width * header.height) ∧
      ((∀ p ∈ pixbuf, p.r < 256 ∧ p.g < 256 ∧ p.b < 256) →
        (∀ (line c : Nat) (old : pixel), line < header.height → c < header.width →
          pixbuf[line * header.width + c]? = some old →
          buf[line * header.width + c]?
            = some { r := if header.data_offset
                            + line * (3 * header.width + 3 * header.width % 4) + 3 * c + 2
                            < data.length
                          then data.getD (header.data_offset
                            + line * (3 * header.width + 3 * header.width % 4) + 3 * c + 2) 0
                          else old.r,
                     g := if header.data_offset
                            + line * (3 * header.width + 3 * header.width % 4) + 3 * c + 1
                            < data.length
                          then data.getD (header.data_offset
                            + line * (3 * header.width + 3 * header.width % 4) + 3 * c + 1) 0
                          else old.g,
                     b := if header.data_offset
                            + line * (3 * header.width + 3 * header.width % 4) + 3 * c
                            < data.length
                          then data.getD (header.data_offset
                            + line * (3 * header.width + 3 * header.width % 4) + 3 * c) 0
                          else old.b }) ∧
        (data.length ≤ header.data_offset → buf = pixbuf))) ∧
    (∀ (argv : List String) (wd : World) (opts : options),
      parse_opts argv opts_init wd.malloc_ok = some (1, opts) → opts.verbose ≠ VERBOSE →
      wd.input = some data → (get_header ⟨data, 0⟩ header_init).ret = 1 →
      (get_header ⟨data, 0⟩ header_init).h = header →
      3 * (header.width * header.height) < 2147483648 → wd.malloc_ok 1 = true →
      ∃ (q : Nat) (fp : FILE) (buf : List pixel) (out : OutFile),
        get_data header ⟨data, q⟩ ((List.range (header.width * header.height)).map wd.junk)
            header = some (fp, buf) ∧
        main argv wd
          = main_output buf ((header.width * header.height : Nat) : Int) opts header wd ∧
        main argv wd = some (0, out)) := by
  have hbuf2 : header.height * header.width ≤ pixbuf.length := by
    rw [Nat.mul_comm]; exact hbuf
  constructor
  · obtain ⟨fp1, rows, hrows, hlen⟩ :=
      get_data_lines_total header.width ((3 * header.width % 4 : Nat) : Int) header.height
        ⟨data, header.data_offset⟩ pixbuf hbuf2
    have hget : get_data header ⟨data, pos⟩ pixbuf header
        = some (fp1, rows ++ pixbuf.drop (header.height * header.width)) := by
      simp only [get_data, padding_eq, fseek_set_nat, hrows]
      rfl
    refine ⟨fp1, rows ++ pixbuf.drop (header.height * header.width), hget, ?_, ?_, ?_⟩
    · simp only [List.length_append, hlen, List.length_drop]
      omega
    · rw [Nat.mul_comm header.width header.height,
        List.drop_append_of_le_length (by omega), ← hlen, List.drop_length, List.nil_append]
    · intro hv
      constructor
      · intro line c old hl hc hold
        obtain ⟨p1, hor⟩ := get_data_or header data pos pixbuf hbuf2 hv
        rw [hget] at hor
        have e := congrArg Prod.snd (Option.some.inj hor)
        simp only at e
        rw [e, List.getElem?_append_left (by
          rw [rows_or_length data _ _ _ _ _ hbuf2]
          calc line * header.width + c < line * header.width + header.width := by omega
            _ = (line + 1) * header.width := by ring
            _ ≤ header.height * header.width := Nat.mul_le_mul_right _ hl)]
        exact rows_or_get data header.width (3 * header.width % 4) header.height
          header.data_offset pixbuf line c old hl hc hbuf2 hold
      · intro heof
        rw [get_data_lines_eof data header.width (3 * header.width % 4) header.height
          header.data_offset pixbuf hbuf2 heof hv] at hrows
        simp only [Option.some.injEq, Prod.mk.injEq] at hrows
        rw [← hrows.2.1]
        exact List.take_append_drop _ _
  · intro argv wd opts hparse hverbose hinput hret hh hsize hmalloc
    have hdata := get_header_data ⟨data, 0⟩ header_init
    generalize hg : get_header ⟨data, 0⟩ header_init = r at hret hh hdata
    obtain ⟨ret, ⟨d2, q⟩, hd, msg⟩ := r
    simp only at hret hh hdata
    subst hret hh hdata
    have hWH : hd.width * hd.height % 4294967296 = hd.width * hd.height :=
      Nat.mod_eq_of_lt (by omega)
    have hpixels : to_int (hd.width * hd.height % 4294967296)
        = ((hd.width * hd.height : Nat) : Int) := by
      rw [hWH]; exact to_int_of_lt _ (by omega)
    have hsz : to_int (hd.width * hd.height % 4294967296 * 3)
        = ((hd.width * hd.height * 3 : Nat) : Int) := by
      rw [hWH]; exact to_int_of_lt _ (by omega)
    have hdiv : hd.width * hd.height * 3 / 3 = hd.width * hd.height :=
      Nat.mul_div_cancel _ (by decide)
    have hjunk : ((List.range (hd.width * hd.height)).map wd.junk).length
        = hd.width * hd.height := by
      simp only [List.length_map, List.length_range]
    have hone : ¬ ((1 : Int) = 0) := by decide
    have hneg : ¬ (((hd.width * hd.height * 3 : Nat) : Int) < 0 ∨ true = false) := by
      simp only [Bool.true_eq_false, or_false]; omega
    obtain ⟨fp1, rows, hrows, hlen⟩ :=
      get_data_lines_total hd.width ((3 * hd.width % 4 : Nat) : Int) hd.height
        ⟨d2, hd.data_offset⟩ ((List.range (hd.width * hd.height)).map wd.junk)
        (by rw [hjunk, Nat.mul_comm])
    have hget : get_data hd ⟨d2, q⟩ ((List.range (hd.width * hd.height)).map wd.junk) hd
        = some (fp1, rows ++ ((List.range (hd.width * hd.height)).map wd.junk).drop
            (hd.height * hd.width)) := by
      simp only [get_data, padding_eq, fseek_set_nat, hrows]
      rfl
    have hmain : main argv wd
        = main_output (rows ++ ((List.range (hd.width * hd.height)).map wd.junk).drop
            (hd.height * hd.width)) ((hd.width * hd.height : Nat) : Int) opts hd wd := by
      simp only [main, hparse, hinput, hg, hpixels, hsz, hmalloc, if_neg hone, if_neg hverbose,
        if_neg hneg, Int.toNat_ofNat, hdiv, hget]
    obtain ⟨hb, hf⟩ := parse_opts_ranges argv wd.malloc_ok opts hparse
    obtain ⟨out, hout⟩ := main_output_returns
      (rows ++ ((List.range (hd.width * hd.height)).map wd.junk).drop (hd.height * hd.width))
      ((hd.width * hd.height : Nat) : Int) opts hd wd
      (by
        simp only [List.length_append, hlen, List.length_drop, hjunk]
        rw [Nat.mul_comm hd.height hd.width, Nat.sub_self, Nat.add_zero])
      hb hf (parse_opts_named argv opts_init opts wd.malloc_ok hparse)
    exact ⟨q, fp1, _, out, hget, hmain, by rw [hmain, hout]⟩

set_option maxRecDepth 100000 in
theorem get_data_never_fails_witness :
    (∃ (fp : FILE) (buf : List pixel),
      get_data ⟨0x4D42, 0x46, 0x36, 0x28, 2, 2, 1, 24, 0, 0x10, 0x0B13, 0x0B13, 0, 0⟩
          ⟨sample_header 24 0 ++ [0x11, 0x12, 0x13, 0x21], 54⟩
          [⟨0xAA, 0xBB, 0xCC⟩, ⟨0xAA, 0xBB, 0xCC⟩, ⟨0xAA, 0xBB, 0xCC⟩, ⟨0xAA, 0xBB, 0xCC⟩,
            ⟨1, 2, 3⟩]
          ⟨0x4D42, 0x46, 0x36, 0x28, 2, 2, 1, 24, 0, 0x10, 0x0B13, 0x0B13, 0, 0⟩
        = some (fp, buf) ∧
      buf.length = 5 ∧
      buf.drop (2 * 2) = [⟨1, 2, 3⟩] ∧
      ((∀ p ∈ [(⟨0xAA, 0xBB, 0xCC⟩ : pixel), ⟨0xAA, 0xBB, 0xCC⟩, ⟨0xAA, 0xBB, 0xCC⟩,
            ⟨0xAA, 0xBB, 0xCC⟩, ⟨1, 2, 3⟩], p.r < 256 ∧ p.g < 256 ∧ p.b < 256) →
        (∀ (line c : Nat) (old : pixel), line < 2 → c < 2 →
          [(⟨0xAA, 0xBB, 0xCC⟩ : pixel), ⟨0xAA, 0xBB, 0xCC⟩, ⟨0xAA, 0xBB, 0xCC⟩,
            ⟨0xAA, 0xBB, 0xCC⟩, ⟨1, 2, 3⟩][line * 2 + c]? = some old →
          buf[line * 2 + c]?
            = some { r := if 0x36 + line * (3 * 2 + 3 * 2 % 4) + 3 * c + 2
                            < (sample_header 24 0 ++ [0x11, 0x12, 0x13, 0x21]).length
                          then (sample_header 24 0 ++ [0x11, 0x12, 0x13, 0x21]).getD
                            (0x36 + line * (3 * 2 + 3 * 2 % 4) + 3 * c + 2) 0
                          else old.r,
                     g := if 0x36 + line * (3 * 2 + 3 * 2 % 4) + 3 * c + 1
                            < (sample_header 24 0 ++ [0x11, 0x12, 0x13, 0x21]).length
                          then (sample_header 24 0 ++ [0x11, 0x12, 0x13, 0x21]).getD
                            (0x36 + line * (3 * 2 + 3 * 2 % 4) + 3 * c + 1) 0
                          else old.g,
                     b := if 0x36 + line * (3 * 2 + 3 * 2 % 4) + 3 * c
                            < (sample_header 24 0 ++ [0x11, 0x12, 0x13, 0x21]).length
                          then (sample_header 24 0 ++ [0x11, 0x12, 0x13, 0x21]).getD
                            (0x36 + line * (3 * 2 + 3 * 2 % 4) + 3 * c) 0
                          else old.b }) ∧
        ((sample_header 24 0 ++ [0x11, 0x12, 0x13, 0x21]).length ≤ 0x36 →
          buf = [⟨0xAA, 0xBB, 0xCC⟩, ⟨0xAA, 0xBB, 0xCC⟩, ⟨0xAA, 0xBB, 0xCC⟩,
            ⟨0xAA, 0xBB, 0xCC⟩, ⟨1, 2, 3⟩]))) ∧
    (∃ (q : Nat) (fp : FILE) (buf : List pixel) (out : OutFile),
      get_data ⟨0x4D42, 0x46, 0x36, 0x28, 2, 2, 1, 24, 0, 0x10, 0x0B13, 0x0B13, 0, 0⟩
          ⟨sample_header 24 0 ++ [0x11, 0x12, 0x13, 0x21], q⟩
          ((List.range (2 * 2)).map fun _ => (⟨0xAA, 0xBB, 0xCC⟩ : pixel))
          ⟨0x4D42, 0x46, 0x36, 0x28, 2, 2, 1, 24, 0, 0x10, 0x0B13, 0x0B13, 0, 0⟩
        = some (fp, buf) ∧
      main ["bmpdump", "-format", "raw", "-bpp", "24"]
          ⟨some (sample_header 24 0 ++ [0x11, 0x12, 0x13, 0x21]), ⟨true, none⟩, fun _ => true,
            fun _ => ⟨0xAA, 0xBB, 0xCC⟩, 0⟩
        = main_output buf ((2 * 2 : Nat) : Int)
            ⟨some "bitmap.bmp", some "bitmap.raw", FORMAT_RAW, 24, UNSET, none, UNSET⟩
            ⟨0x4D42, 0x46, 0x36, 0x28, 2, 2, 1, 24, 0, 0x10, 0x0B13, 0x0B13, 0, 0⟩
            ⟨some (sample_header 24 0 ++ [0x11, 0x12, 0x13, 0x21]), ⟨true, none⟩,
              fun _ => true, fun _ => ⟨0xAA, 0xBB, 0xCC⟩, 0⟩ ∧
      main ["bmpdump", "-format", "raw", "-bpp", "24"]
          ⟨some (sample_header 24 0 ++ [0x11, 0x12, 0x13, 0x21]), ⟨true, none⟩, fun _ => true,
            fun _ => ⟨0xAA, 0xBB, 0xCC⟩, 0⟩
        = some (0, out)) :=
  ⟨(get_data_never_fails ⟨0x4D42, 0x46, 0x36, 0x28, 2, 2, 1, 24, 0, 0x10, 0x0B13, 0x0B13, 0, 0⟩
      (sample_header 24 0 ++ [0x11, 0x12, 0x13, 0x21]) 54
      [⟨0xAA, 0xBB, 0xCC⟩, ⟨0xAA, 0xBB, 0xCC⟩, ⟨0xAA, 0xBB, 0xCC⟩, ⟨0xAA, 0xBB, 0xCC⟩,
        ⟨1, 2, 3⟩]
      (by decide)).1,
   (get_data_never_fails ⟨0x4D42, 0x46, 0x36, 0x28, 2, 2, 1, 24, 0, 0x10, 0x0B13, 0x0B13, 0, 0⟩
      (sample_header 24 0 ++ [0x11, 0x12, 0x13, 0x21]) 54
      [⟨0xAA, 0xBB, 0xCC⟩, ⟨0xAA, 0xBB, 0xCC⟩, ⟨0xAA, 0xBB, 0xCC⟩, ⟨0xAA, 0xBB, 0xCC⟩,
        ⟨1, 2, 3⟩]
      (by decide)).2
      ["bmpdump", "-format", "raw", "-bpp", "24"]
      ⟨some (sample_header 24 0 ++ [0x11, 0x12, 0x13, 0x21]), ⟨true, none⟩, fun _ => true,
        fun _ => ⟨0xAA, 0xBB, 0xCC⟩, 0⟩
      ⟨some "bitmap.bmp", some "bitmap.raw", FORMAT_RAW, 24, UNSET, none, UNSET⟩
      (by decide) (by decide) rfl (by decide) (by decide) (by decide) rfl⟩

end Bmpdump
